import Mathlib

/-!
# CatProtect: SD card block reader and audio player

A shallow embedding of `SDCard.cpp` (the SPI command layer, the block read
state machine, the HCDI directory reader) and of `AudioPlayer.cpp` (the
timer paced playback loop with its 256 sample ring buffer), followed by the
theorems that settle the specification claims.

Modelling conventions

* The SPI peripheral is an oracle: `Spi.miso` lists the bytes that the
  successive calls of `SPI.transfer` will return, one per transfer, whether
  the driver keeps the byte (`spiReceive`) or drops it (`spiSend`).  When the
  list is exhausted the idle level `0xff` is read.  `Spi.sent` logs the bytes
  handed to `spiSend`, oldest first.  `Spi.clock` lists the values that the
  successive calls of `millis()` will return; when the list is exhausted, 0
  is read.
* A store through a null buffer pointer is undefined behaviour.  The model
  records it in `SDCardState.nullStores` and goes on with the state that the
  statements of the source compute: a result whose `nullStores` grew tells
  which stores were made, not what the program does after them.
* Machine integers are natural numbers; wrap-around is written out with
  `% 65536` (`uint16_t`) and `% 4294967296` (`uint32_t`).  The target is an
  AVR controller, where `int` has 16 bits.
* Loops that the source leaves unbounded take a `fuel` argument.
* The chip select line and the SPI transaction brackets carry no data and are
  left out.
-/

namespace CatProtect

/-! ## Data model (SDCard.h, SDCard.cpp) -/

/-- Status of a command, `SDCard::Status`. -/
inductive Status where
  | StatusReady
  | StatusWait
  | StatusError
  | StatusEndOfBlock
  deriving DecidableEq, Repr

/-- Error codes, `SDCard::Error`. -/
inductive Error where
  | NoError
  | Error_TimeOut
  | Error_SendIfCondFailed
  | Error_ReadOCRFailed
  | Error_SetBlockLengthFailed
  | Error_ReadSingleBlockFailed
  | Error_ReadFailed
  | Error_UnknownMagic
  deriving DecidableEq, Repr

/-- Card family, `SDCardState::CardType`. -/
inductive CardType where
  | CardTypeSD1
  | CardTypeSD2
  | CardTypeSDHC
  deriving DecidableEq, Repr

/-- State of the read command, `SDCardState::ReadState`. -/
inductive ReadState where
  | ReadStateWait
  | ReadStateReadData
  | ReadStateReadCRC
  | ReadStateEnd
  deriving DecidableEq, Repr

/-- Block read mode, `SDCardState::ReadMode`. -/
inductive ReadMode where
  | ReadModeSingleBlock
  | ReadModeMultipleBlocks
  deriving DecidableEq, Repr

/-- Commands of `SDCardState::Command`. -/
inductive Command where
  | Cmd_GoIdleState
  | Cmd_SendIfCond
  | Cmd_StopTransmission
  | Cmd_SetBlockLenght
  | Cmd_ReadSingleBlock
  | Cmd_ReadMultiBlock
  | Cmd_ApplicationCommand
  | Cmd_ReadOCR
  | ACmd_SendOpCond
  deriving DecidableEq, Repr

/-- One directory entry, `SDCard::DirectoryEntry`; the `next` link is the list
structure of `SDCardState.directoryEntry`.  `fileName` holds the bytes of the
allocated name array without its final NUL. -/
structure DirectoryEntry where
  startBlock : Nat
  fileSize : Nat
  fileName : List Nat
  deriving DecidableEq, Repr

/-- The SPI peripheral seen from the driver. -/
structure Spi where
  miso : List Nat
  sent : List Nat
  clock : List Nat
  deriving DecidableEq, Repr

/-- The driver state, `struct SDCardState`, together with the SPI peripheral it
talks to and the memory at address 0.  `nullStores` lists the stores that the
driver made through a null buffer pointer, oldest first, each as the offset from
address 0 and the byte stored there.  Such a store is undefined behaviour in
C++; on the AVR the addresses from 0 on are the register file and the I/O
registers. -/
structure SDCardState where
  error : Error
  cardType : CardType
  blockByteCount : Nat
  blockReadState : ReadState
  blockReadMode : ReadMode
  directoryEntry : List DirectoryEntry
  spi : Spi
  nullStores : List (Nat × Nat)
  deriving DecidableEq, Repr

/-- The constant `blockSize`. -/
def blockSize : Nat := 512

/-- The constant `R1_IdleState`. -/
def R1_IdleState : Nat := 0x01

/-- The constant `R1_IllegalCommand`. -/
def R1_IllegalCommand : Nat := 0x04

/-- The constant `R1_ReadyState`. -/
def R1_ReadyState : Nat := 0x00

/-- The constant `BlockDataStart`. -/
def BlockDataStart : Nat := 0xfe

/-- The 16 bit code of a command: index, response shape in bits 6..7, and the
application command flag `0x100`. -/
def Command.code : Command → Nat
  | .Cmd_GoIdleState => 0
  | .Cmd_SendIfCond => 8 ||| (1 <<< 6)
  | .Cmd_StopTransmission => 12
  | .Cmd_SetBlockLenght => 16
  | .Cmd_ReadSingleBlock => 17
  | .Cmd_ReadMultiBlock => 18
  | .Cmd_ApplicationCommand => 37
  | .Cmd_ReadOCR => 58 ||| (1 <<< 6)
  | .ACmd_SendOpCond => 41 ||| 0x100

/-! ## SPI primitives -/

/-- One `SPI.transfer(value)` whose result is dropped, `spiSend`. -/
def Spi.send (p : Spi) (value : Nat) : Spi :=
  { p with miso := p.miso.tail, sent := p.sent ++ [value % 256] }

/-- One `SPI.transfer(0xff)` whose result is kept, `spiReceive`. -/
def Spi.receive (p : Spi) : Nat × Spi :=
  (p.miso.headD 0xff, { p with miso := p.miso.tail })

/-- The loop `for (i = 0; i < n; ++i) buffer[i] = spiReceive();`: the bytes
stored, in order, and the peripheral afterwards. -/
def Spi.receiveN : Nat → Spi → List Nat × Spi
  | 0, p => ([], p)
  | n + 1, p =>
    let r := p.receive
    let rest := Spi.receiveN n r.2
    (r.1 :: rest.1, rest.2)

/-- Send a byte over the SPI bus, `spiSend`. -/
def spiSend (s : SDCardState) (value : Nat) : SDCardState :=
  { s with spi := s.spi.send value }

/-- Receive a byte from the SPI bus, `spiReceive`. -/
def spiReceive (s : SDCardState) : Nat × SDCardState :=
  ((s.spi.receive).1, { s with spi := (s.spi.receive).2 })

/-- Skip a number of bytes from the SPI bus, `spiSkip`. -/
def spiSkip (s : SDCardState) (count : Nat) : SDCardState :=
  { s with spi := (Spi.receiveN count s.spi).2 }

/-! ## The block read state machine -/

/-- What a call of `readData` leaves behind: the returned status, the value
left in `*byteCount`, the bytes stored into `buffer[0..]` in order, and the
driver state. -/
structure ReadResult where
  status : Status
  byteCount : Nat
  written : List Nat
  state : SDCardState
  deriving DecidableEq, Repr

/-- The `case ReadStateReadCRC:` arm of `readData`, also reached by falling
through from the data arm (which hands over what it stored). -/
def readDataCRC (s : SDCardState) (byteCount : Nat) (written : List Nat) : ReadResult :=
  let s1 := spiSkip s 2
  let s2 := { s1 with blockByteCount := 0 }
  if s2.blockReadMode = ReadMode.ReadModeSingleBlock then
    ⟨Status.StatusEndOfBlock, byteCount, written,
      { s2 with blockReadState := ReadState.ReadStateEnd }⟩
  else
    ⟨Status.StatusWait, byteCount, written,
      { s2 with blockReadState := ReadState.ReadStateWait }⟩

/-- The `case ReadStateReadData:` arm of `readData`, also reached by falling
through from the wait arm.  `blockSize - blockByteCount` is 16 bit
arithmetic. -/
def readDataData (s : SDCardState) (byteCount : Nat) : ReadResult :=
  let bytesToRead := min ((blockSize + 65536 - s.blockByteCount) % 65536) byteCount
  let r := Spi.receiveN bytesToRead s.spi
  let s1 := { s with spi := r.2, blockByteCount := (s.blockByteCount + bytesToRead) % 65536 }
  if s1.blockByteCount < blockSize then
    ⟨Status.StatusReady, bytesToRead, r.1, s1⟩
  else
    readDataCRC { s1 with blockReadState := ReadState.ReadStateReadCRC } bytesToRead r.1

/-- The function `SDCardState::readData(buffer, byteCount)`. -/
def readData (s : SDCardState) (byteCount : Nat) : ReadResult :=
  match s.blockReadState with
  | .ReadStateWait =>
    let r := spiReceive s
    if r.1 = 0xff then
      ⟨Status.StatusWait, byteCount, [], r.2⟩
    else if r.1 = BlockDataStart then
      readDataData { r.2 with blockReadState := ReadState.ReadStateReadData } byteCount
    else
      ⟨Status.StatusError, byteCount, [],
        { r.2 with error := Error.Error_ReadFailed, blockReadState := ReadState.ReadStateEnd }⟩
  | .ReadStateReadData => readDataData s byteCount
  | .ReadStateReadCRC => readDataCRC s byteCount []
  | .ReadStateEnd => ⟨Status.StatusEndOfBlock, byteCount, [], s⟩

/-- What a call of `readFast4` leaves behind: the returned status, the bytes
stored into `buffer[0..3]` (none, or four), and the streamer state. -/
structure Fast4Result (σ : Type) where
  status : Status
  written : List Nat
  state : σ

/-- The function `SDCardState::readFast4(buffer)`. -/
def readFast4 (s : SDCardState) : Fast4Result SDCardState :=
  match s.blockReadState with
  | .ReadStateWait =>
    let r := spiReceive s
    if r.1 = 0xff then
      ⟨Status.StatusWait, [], r.2⟩
    else if r.1 = BlockDataStart then
      ⟨Status.StatusWait, [], { r.2 with blockReadState := ReadState.ReadStateReadData }⟩
    else
      ⟨Status.StatusError, [], { r.2 with blockReadState := ReadState.ReadStateEnd }⟩
  | .ReadStateReadData =>
    let r := Spi.receiveN 4 s.spi
    let s1 := { s with spi := r.2, blockByteCount := (s.blockByteCount + 4) % 65536 }
    if s1.blockByteCount ≥ blockSize then
      ⟨Status.StatusReady, r.1, { s1 with blockReadState := ReadState.ReadStateReadCRC }⟩
    else
      ⟨Status.StatusReady, r.1, s1⟩
  | .ReadStateReadCRC =>
    let s1 := spiSkip s 2
    ⟨Status.StatusWait, [],
      { s1 with blockByteCount := 0, blockReadState := ReadState.ReadStateWait }⟩
  | .ReadStateEnd => ⟨Status.StatusError, [], s⟩

/-! ## The command layer -/

/-- The response poll of `sendCommand` and `stopRead`,
`for (i = 0; ((result = spiReceive()) & 0x80) && i < 0x10; ++i);`.
The argument counts the increments of `i` still allowed. -/
def pollResponse : Nat → SDCardState → Nat × SDCardState
  | 0, s => spiReceive s
  | n + 1, s =>
    let r := spiReceive s
    if r.1 &&& 0x80 ≠ 0 then pollResponse n r.2 else r

/-- One reading of `millis()`. -/
def millis (s : SDCardState) : Nat × SDCardState :=
  (s.spi.clock.headD 0, { s with spi := { s.spi with clock := s.spi.clock.tail } })

/-- The `do ... while` loop of `waitUntilReady`: receive a byte, return true
when it is `0xff`, else read the clock and go on while the 16 bit difference to
`startTime` is below the timeout.  The first argument bounds the turns.  A turn
that goes on has received a byte other than `0xff`, which only a byte of
`miso` can be (an exhausted bus reads `0xff`), so a bound above the length of
`miso` is never used up and the first equation is not reached from
`waitUntilReady`. -/
def waitUntilReadyLoop (startTime timeoutMillis : Nat) : Nat → SDCardState → Bool × SDCardState
  | 0, s =>
    let r := spiReceive s
    (decide (r.1 = 0xff), r.2)
  | n + 1, s =>
    let r := spiReceive s
    if r.1 = 0xff then (true, r.2)
    else
      let t := millis r.2
      if (t.1 % 65536 + 65536 - startTime) % 65536 < timeoutMillis then
        waitUntilReadyLoop startTime timeoutMillis n t.2
      else (false, t.2)

/-- Wait until the chip is not busy any more, `waitUntilReady`. -/
def waitUntilReady (s : SDCardState) (timeoutMillis : Nat) : Bool × SDCardState :=
  let t := millis s
  waitUntilReadyLoop (t.1 % 65536) timeoutMillis (t.2.spi.miso.length + 1) t.2

/-- The function `sendCommand(command, argument, responseValue)`: the response
byte, the 32 bit value of an R3/R7 response if one was read, and the state. -/
def sendCommand (s : SDCardState) (command : Command) (argument : Nat) :
    Nat × Option Nat × SDCardState :=
  let s0 :=
    if command.code &&& 0x100 ≠ 0 then
      let a1 := spiSend s (55 ||| 0x40)
      let a2 := spiSend a1 0
      let a3 := spiSend a2 0
      let a4 := spiSend a3 0
      let a5 := spiSend a4 0
      (pollResponse 0x10 a5).2
    else s
  let s1 := spiSend s0 ((command.code &&& 0x3f) ||| 0x40)
  let s2 := spiSend s1 (argument >>> 24)
  let s3 := spiSend s2 (argument >>> 16)
  let s4 := spiSend s3 (argument >>> 8)
  let s5 := spiSend s4 argument
  let crc :=
    if command = Command.Cmd_GoIdleState then 0x95
    else if command = Command.Cmd_SendIfCond then 0x87
    else 0xff
  let s6 := spiSend s5 crc
  let r := pollResponse 0x10 s6
  if command.code &&& 0x00c0 ≠ 0 then
    let v := Spi.receiveN 4 r.2.spi
    let value :=
      (v.1.getD 0 0 <<< 24) ||| (v.1.getD 1 0 <<< 16) ||| (v.1.getD 2 0 <<< 8) ||| v.1.getD 3 0
    (r.1, some value, { r.2 with spi := v.2 })
  else
    (r.1, none, r.2)

/-- Wait until the card is ready, then send the command,
`waitAndSendCommand`. -/
def waitAndSendCommand (s : SDCardState) (command : Command) (argument : Nat) :
    Nat × Option Nat × SDCardState :=
  sendCommand (waitUntilReady s 300).2 command argument

/-- The function `SDCardState::startRead(block)`. -/
def startRead (s : SDCardState) (block : Nat) : Status × SDCardState :=
  let r := spiReceive s
  if r.1 ≠ 0xff then (Status.StatusWait, r.2)
  else
    let c := sendCommand r.2 Command.Cmd_ReadSingleBlock block
    if c.1 ≠ R1_ReadyState then
      (Status.StatusError, { c.2.2 with error := Error.Error_ReadSingleBlockFailed })
    else
      (Status.StatusReady,
        { c.2.2 with
          blockByteCount := 0
          blockReadState := ReadState.ReadStateWait
          blockReadMode := ReadMode.ReadModeSingleBlock })

/-- The function `SDCardState::startMultiRead(startBlock)`. -/
def startMultiRead (s : SDCardState) (startBlock : Nat) : Status × SDCardState :=
  let r := spiReceive s
  if r.1 ≠ 0xff then (Status.StatusWait, r.2)
  else
    let c := sendCommand r.2 Command.Cmd_ReadMultiBlock startBlock
    if c.1 ≠ R1_ReadyState then
      (Status.StatusError, { c.2.2 with error := Error.Error_ReadSingleBlockFailed })
    else
      (Status.StatusReady,
        { c.2.2 with
          blockByteCount := 0
          blockReadState := ReadState.ReadStateWait
          blockReadMode := ReadMode.ReadModeMultipleBlocks })

/-- The loop `while (readData(0, &byteCount) != StatusEndOfBlock) {}` of
`stopRead`; `byteCount` is handed from one call to the next.  The buffer of
every call is the null pointer: the bytes that the call stores, `buffer[i]`
for `i` from 0 on, are stores to the addresses 0, 1, .. and are appended to
`nullStores`. -/
def stopReadDrain : Nat → SDCardState → Nat → Option SDCardState
  | 0, _, _ => none
  | fuel + 1, s, byteCount =>
    let r := readData s byteCount
    let s1 := { r.state with nullStores := r.state.nullStores ++ r.written.enum }
    if r.status = Status.StatusEndOfBlock then some s1
    else stopReadDrain fuel s1 r.byteCount

/-- The function `SDCardState::stopRead()`; `none` when the drain loop of a
single block session is still running after `fuel` calls. -/
def stopRead (fuel : Nat) (s : SDCardState) : Option (Status × SDCardState) :=
  if s.blockReadMode = ReadMode.ReadModeSingleBlock then
    if s.blockReadState ≠ ReadState.ReadStateEnd then
      (stopReadDrain fuel s blockSize).map (fun s1 => (Status.StatusReady, s1))
    else some (Status.StatusReady, s)
  else
    let s1 := spiSend s (Command.Cmd_StopTransmission.code ||| 0x40)
    let s2 := spiSend s1 0
    let s3 := spiSend s2 0
    let s4 := spiSend s3 0
    let s5 := spiSend s4 0
    let s6 := spiSend s5 0xff
    let s7 := spiSkip s6 1
    let r := pollResponse 0x10 s7
    if r.1 ≠ R1_ReadyState then some (Status.StatusError, r.2)
    else some (Status.StatusReady, (waitUntilReady r.2 300).2)

/-! ## The bring-up of the card -/

/-- The constant `initTimeout`, in milliseconds. -/
def initTimeout : Nat := 2000

/-- Send clocks on the SPI bus, `spiWait(count)`: `count` times `spiSend(0xff)`. -/
def spiWait (s : SDCardState) : Nat → SDCardState
  | 0 => s
  | n + 1 => spiSend (spiWait s n) 0xff

/-- What `initialize` leaves behind: the returned status, the local `result`
(the response byte to `Cmd_SendIfCond`, 0 while that command was not sent),
the value that `Cmd_ReadOCR` stored into `responseValue` if `initialize` sent
that command and went on, and the state. -/
structure InitResult where
  status : Status
  result : Nat
  ocr : Option Nat
  state : SDCardState
  deriving DecidableEq, Repr

/-- The loop `while (waitAndSendCommand(Cmd_GoIdleState, 0) != R1_IdleState)`
of `initialize` with its time-out check in 16 bit arithmetic: `true` when the
card went idle, `false` at the time-out, `none` when `fuel` turns were not
enough. -/
def goIdleLoop : Nat → Nat → SDCardState → Option (Bool × SDCardState)
  | 0, _, _ => none
  | fuel + 1, startTime, s =>
    let c := waitAndSendCommand s Command.Cmd_GoIdleState 0
    if c.1 ≠ R1_IdleState then
      let t := millis c.2.2
      if (t.1 % 65536 + 65536 - startTime) % 65536 > initTimeout then some (false, t.2)
      else goIdleLoop fuel startTime t.2
    else some (true, c.2.2)

/-- The loop `while (waitAndSendCommand(ACmd_SendOpCond, argument) !=
R1_ReadyState)` of `initialize` with its time-out check. -/
def sendOpCondLoop : Nat → Nat → Nat → SDCardState → Option (Bool × SDCardState)
  | 0, _, _, _ => none
  | fuel + 1, startTime, argument, s =>
    let c := waitAndSendCommand s Command.ACmd_SendOpCond argument
    if c.1 ≠ R1_ReadyState then
      let t := millis c.2.2
      if (t.1 % 65536 + 65536 - startTime) % 65536 > initTimeout then some (false, t.2)
      else sendOpCondLoop fuel startTime argument t.2
    else some (true, c.2.2)

/-- The end of `initialize`: set the block size to 512 bytes. -/
def initializeBlockLength (result : Nat) (ocr : Option Nat) (s : SDCardState) : InitResult :=
  let c := waitAndSendCommand s Command.Cmd_SetBlockLenght blockSize
  if c.1 ≠ R1_ReadyState then
    ⟨Status.StatusError, result, ocr, { c.2.2 with error := Error.Error_SetBlockLengthFailed }⟩
  else
    ⟨Status.StatusReady, result, ocr, c.2.2⟩

/-- The part of `initialize` after the card type was set from the response to
`Cmd_SendIfCond`: the `ACmd_SendOpCond` loop, the check for a SDHC card and the
block size. -/
def initializeOpCond (fuel startTime result : Nat) (s : SDCardState) : Option InitResult :=
  let argument := if s.cardType = CardType.CardTypeSD2 then 0x40000000 else 0x00000000
  match sendOpCondLoop fuel startTime argument s with
  | none => none
  | some (false, s1) =>
    some ⟨Status.StatusError, result, none, { s1 with error := Error.Error_TimeOut }⟩
  | some (true, s1) =>
    if s1.cardType = CardType.CardTypeSD2 then
      let c := waitAndSendCommand s1 Command.Cmd_ReadOCR 0
      if c.1 ≠ R1_ReadyState then
        some ⟨Status.StatusError, result, none,
          { c.2.2 with error := Error.Error_ReadOCRFailed }⟩
      else
        let responseValue := c.2.1.getD 0
        if responseValue &&& 0xc0000000 ≠ 0 then
          some (initializeBlockLength result (some responseValue)
            { c.2.2 with cardType := CardType.CardTypeSDHC })
        else
          some (initializeBlockLength result (some responseValue) c.2.2)
    else
      some (initializeBlockLength result none s1)

/-- The function `SDCardState::initialize(mode)`.  The mode flags, the pin
set-up and the SPI settings do not reach the bus contents and are left out;
`none` when one of the two loops is still running after `fuel` turns. -/
def initializeCard (fuel : Nat) (s : SDCardState) : Option InitResult :=
  let t0 := millis s
  let startTime := t0.1 % 65536
  let s1 := spiWait t0.2 100
  let s2 := spiWait s1 2
  match goIdleLoop fuel startTime s2 with
  | none => none
  | some (false, s3) =>
    some ⟨Status.StatusError, 0, none, { s3 with error := Error.Error_TimeOut }⟩
  | some (true, s3) =>
    let c := waitAndSendCommand s3 Command.Cmd_SendIfCond 0x01aa
    let responseValue := c.2.1.getD 0
    if c.1 &&& R1_IllegalCommand ≠ 0 then
      initializeOpCond fuel startTime c.1 { c.2.2 with cardType := CardType.CardTypeSD1 }
    else if responseValue &&& 0x000000ff ≠ 0x000000aa then
      some ⟨Status.StatusError, c.1, none,
        { c.2.2 with error := Error.Error_SendIfCondFailed }⟩
    else
      initializeOpCond fuel startTime c.1 { c.2.2 with cardType := CardType.CardTypeSD2 }

/-! ## The directory -/

/-- The loop of `synchronousStartRead`. -/
def synchronousStartRead : Nat → SDCardState → Nat → Option (Status × SDCardState)
  | 0, _, _ => none
  | fuel + 1, s, block =>
    let r := startRead s block
    if r.1 = Status.StatusWait then synchronousStartRead fuel r.2 block else some r

/-- Bytes stored from the start of a buffer replace what was there. -/
def store (buffer written : List Nat) : List Nat :=
  written ++ buffer.drop written.length

/-- The loop of `synchronousReadData`; the result carries the buffer contents
in place of the bytes of the last call. -/
def synchronousReadData : Nat → SDCardState → List Nat → Nat → Option ReadResult
  | 0, _, _, _ => none
  | fuel + 1, s, buffer, byteCount =>
    let r := readData s byteCount
    if r.status = Status.StatusWait then
      synchronousReadData fuel r.state (store buffer r.written) r.byteCount
    else some { r with written := store buffer r.written }

/-- The function `getLittleEndianUInt32`, reading four bytes of a buffer. -/
def getLittleEndianUInt32 (value : List Nat) : Nat :=
  ((0 ||| value.getD 0 0) ||| (value.getD 1 0 <<< 8) ||| (value.getD 2 0 <<< 16)
    ||| (value.getD 3 0 <<< 24)) % 4294967296

/-- The record loop of `readDirectory`.  `lastEntry` tells whether the local
pointer of that name is set, that is whether this call has appended an entry
already. -/
def readDirectoryLoop : Nat → SDCardState → List Nat → Bool → Option (Status × SDCardState)
  | 0, _, _, _ => none
  | fuel + 1, s, buffer, lastEntry =>
    let r := readData s 9
    if r.status = Status.StatusError then some (Status.StatusError, r.state)
    else
      let buffer1 := store buffer r.written
      let startBlock := getLittleEndianUInt32 buffer1
      let fileSize := getLittleEndianUInt32 (buffer1.drop 4)
      let stringLength := buffer1.getD 8 0
      if startBlock > 0 then
        let rn := readData r.state stringLength
        if rn.status = Status.StatusError then some (Status.StatusError, rn.state)
        else
          let newEntry : DirectoryEntry :=
            ⟨startBlock, fileSize, store (List.replicate stringLength 0) rn.written⟩
          let s2 :=
            if lastEntry then
              { rn.state with directoryEntry := rn.state.directoryEntry ++ [newEntry] }
            else
              { rn.state with directoryEntry := [newEntry] }
          readDirectoryLoop fuel s2 buffer1 true
      else some (Status.StatusReady, r.state)

/-- The magic tag of the directory block, the characters H, C, D, I. -/
def magic : List Nat := [0x48, 0x43, 0x44, 0x49]

/-- The function `SDCardState::readDirectory()`.  `strncmp` over four
characters, none of them NUL in the tag, is equality of the first four
bytes. -/
def readDirectory (fuel : Nat) (s : SDCardState) : Option (Status × SDCardState) :=
  match synchronousStartRead fuel s 0 with
  | none => none
  | some (st, s1) =>
    if st = Status.StatusError then some (Status.StatusError, s1)
    else
      match synchronousReadData fuel s1 (List.replicate 9 0xaa) 4 with
      | none => none
      | some r =>
        if r.status = Status.StatusError then some (Status.StatusError, r.state)
        else if r.written.take 4 ≠ magic then
          some (Status.StatusError, { r.state with error := Error.Error_UnknownMagic })
        else readDirectoryLoop fuel r.state r.written false

/-- The C string held in a character array: the bytes before the first
NUL. -/
def cstr (a : List Nat) : List Nat := a.takeWhile (fun b => b ≠ 0)

/-- The function `SDCardState::findFile(fileName)`; `strcmp` compares the C
strings. -/
def findFile (s : SDCardState) (fileName : List Nat) : Option DirectoryEntry :=
  s.directoryEntry.find? (fun entry => decide (cstr fileName = cstr entry.fileName))

/-! ## The audio player (AudioPlayer.cpp) -/

/-- Operations on the output stage, in the order the player issues them. -/
inductive Event where
  | setValue (v : Nat)
  | pushValue
  | shutdown
  deriving DecidableEq, Repr

/-- One top-up call of the main loop: the sample cursor, the number of
buffered samples and the write position at the moment `readFast4` is
called. -/
structure TopUp where
  currentSample : Nat
  bufferedSamples : Nat
  writePos : Nat
  deriving DecidableEq, Repr

/-- The size of the sample buffer, `bufferSize`. -/
def bufferSize : Nat := 0x100

/-- The mask `sampleBufferMask`. -/
def sampleBufferMask : Nat := 0x000000ff

/-- The four bytes that `readFast4` stores through a byte pointer to
`sampleBuffer[pos]` fill the two 16 bit samples `pos` and `pos + 1`, low byte
first. -/
def storeFast4 (buffer : Nat → Nat) (pos : Nat) (written : List Nat) : Nat → Nat :=
  match written with
  | [b0, b1, b2, b3] =>
    Function.update (Function.update buffer pos (b0 + 256 * b1)) (pos + 1) (b2 + 256 * b3)
  | _ => buffer

/-- How the pre-fill loop ends. -/
inductive PrefillExit where
  | full
  | readError
  | running
  deriving DecidableEq, Repr

/-- The loop that fills the initial audio buffer,
`for (sampleIndex = 0; sampleIndex < bufferSize; ) ...`, over a streamer
`rd` standing for `sdCard.readFast4`. -/
def prefill {σ : Type} (rd : σ → Fast4Result σ) :
    Nat → Nat → (Nat → Nat) → σ → PrefillExit × (Nat → Nat) × σ
  | 0, _, buffer, s => (PrefillExit.running, buffer, s)
  | fuel + 1, sampleIndex, buffer, s =>
    if sampleIndex < bufferSize then
      let r := rd s
      let buffer1 := storeFast4 buffer sampleIndex r.written
      if r.status = Status.StatusReady then prefill rd fuel (sampleIndex + 2) buffer1 r.state
      else if r.status = Status.StatusError then (PrefillExit.readError, buffer1, r.state)
      else prefill rd fuel sampleIndex buffer1 r.state
    else (PrefillExit.full, buffer, s)

/-- The variables of the main loop, with the output stage operations and the
top-up calls issued so far, oldest first. -/
structure LoopState (σ : Type) where
  currentSample : Nat
  bufferedSamples : Nat
  sampleBuffer : Nat → Nat
  streamer : σ
  dac : List Event
  topUps : List TopUp

/-- How the main loop is left. -/
inductive LoopExit where
  | done
  | readError
  deriving DecidableEq, Repr

/-- Step 4 of the main loop, "refill the sample buffer if necessary and
possible", which ends the turn. -/
def mainRefill {σ : Type} (rd : σ → Fast4Result σ) (l : LoopState σ) :
    LoopState σ × Option LoopExit :=
  let currentReadPos := l.currentSample &&& sampleBufferMask
  let currentWritePos := (currentReadPos + l.bufferedSamples) &&& sampleBufferMask
  if l.bufferedSamples < bufferSize - 4 then
    let r := rd l.streamer
    let l1 :=
      { l with
        streamer := r.state
        sampleBuffer := storeFast4 l.sampleBuffer currentWritePos r.written
        topUps := l.topUps ++ [⟨l.currentSample, l.bufferedSamples, currentWritePos⟩] }
    if r.status = Status.StatusError then (l1, some LoopExit.readError)
    else if r.status = Status.StatusReady then
      ({ l1 with bufferedSamples := l1.bufferedSamples + 2 }, none)
    else (l1, none)
  else (l, none)

/-- One turn of the main loop `for (;;)` of `play`, entered at a timer
overflow: push the value set before, set the next sample and count it, leave
when the count exceeds `sampleCount`, else refill.  The second component tells
whether and how the loop is left. -/
def mainStep {σ : Type} (rd : σ → Fast4Result σ) (sampleCount : Nat) (l : LoopState σ) :
    LoopState σ × Option LoopExit :=
  let l1 := { l with dac := l.dac ++ [Event.pushValue] }
  if l1.bufferedSamples > 0 then
    let sample := l1.sampleBuffer (l1.currentSample &&& sampleBufferMask)
    let dacValue := sample >>> 4
    let l2 :=
      { l1 with
        dac := l1.dac ++ [Event.setValue dacValue]
        bufferedSamples := l1.bufferedSamples - 1
        currentSample := (l1.currentSample + 1) % 4294967296 }
    if l2.currentSample > sampleCount then (l2, some LoopExit.done)
    else mainRefill rd l2
  else mainRefill rd l1

/-- The main loop of `play`, run for at most `fuel` timer overflows; the
second component is `none` when the loop is still running then. -/
def mainLoop {σ : Type} (rd : σ → Fast4Result σ) (sampleCount : Nat) :
    Nat → LoopState σ → LoopState σ × Option LoopExit
  | 0, l => (l, none)
  | fuel + 1, l =>
    let r := mainStep rd sampleCount l
    match r.2 with
    | some e => (r.1, some e)
    | none => mainLoop rd sampleCount fuel r.1

/-- The fade in loop `for (v = 0; v < 0x0800; v += 0x10)`, from the value `v`
on. -/
def fadeIn : Nat → Nat → List Event
  | 0, _ => []
  | fuel + 1, v =>
    if v < 0x0800 then Event.setValue v :: Event.pushValue :: fadeIn fuel (v + 0x10) else []

/-- The fade out loop `for (v = 0x800; v > 0; v -= 0x10)`, from the value `v`
on. -/
def fadeOut : Nat → Nat → List Event
  | 0, _ => []
  | fuel + 1, v =>
    if v > 0 then
      Event.setValue v :: Event.pushValue :: fadeOut fuel ((v + 65536 - 0x10) % 65536)
    else []

/-- The loop `while ((status = sdCard.startMultiRead(startBlock)) == StatusWait)`;
the status is `none` when the loop is still running after `fuel` calls. -/
def startMultiReadLoop : Nat → SDCardState → Nat → Option Status × SDCardState
  | 0, s, _ => (none, s)
  | fuel + 1, s, startBlock =>
    let r := startMultiRead s startBlock
    if r.1 = Status.StatusWait then startMultiReadLoop fuel r.2 startBlock
    else (some r.1, r.2)

/-- What a call of `play` does: the returned value (`none` when one of its
loops is still running after `fuel` turns), the output stage operations
grouped by the phase that issued them, the top-up calls of the main loop, and
the driver state. -/
structure PlayResult where
  outcome : Option Bool
  fadeIn : List Event
  steady : List Event
  ending : List Event
  topUps : List TopUp
  sd : SDCardState

/-- The output stage operations of a call of `play` in the order of their
issue. -/
def PlayResult.trace (r : PlayResult) : List Event :=
  r.fadeIn ++ r.steady ++ r.ending

/-- The function `AudioPlayer::play(startBlock, sampleCount)`.  Each of its
loops runs for at most `fuel` turns.  The sample buffer, an uninitialised
array on the stack in the source, starts out as zeros; the pre-fill writes
every slot before the main loop reads one.  The timer registers are left
out: every turn of the main loop stands for one timer overflow. -/
def play (fuel : Nat) (sd : SDCardState) (startBlock sampleCount : Nat) : PlayResult :=
  let st := startMultiReadLoop fuel sd startBlock
  match st.1 with
  | none => ⟨none, [], [], [], [], st.2⟩
  | some status =>
    if status ≠ Status.StatusReady then ⟨some false, [], [], [], [], st.2⟩
    else
      match prefill readFast4 fuel 0 (fun _ => 0) st.2 with
      | (PrefillExit.running, _, s1) => ⟨none, [], [], [], [], s1⟩
      | (PrefillExit.readError, _, s1) => ⟨some false, [], [], [], [], s1⟩
      | (PrefillExit.full, buffer, s1) =>
        let m := mainLoop readFast4 sampleCount fuel ⟨0, 0x100, buffer, s1, [], []⟩
        match m.2 with
        | none => ⟨none, fadeIn 0x800 0, m.1.dac, [], m.1.topUps, m.1.streamer⟩
        | some LoopExit.readError =>
          ⟨some false, fadeIn 0x800 0, m.1.dac, [Event.shutdown], m.1.topUps, m.1.streamer⟩
        | some LoopExit.done =>
          match stopRead fuel m.1.streamer with
          | none => ⟨none, fadeIn 0x800 0, m.1.dac, fadeOut 0x800 0x800, m.1.topUps, m.1.streamer⟩
          | some r =>
            ⟨some true, fadeIn 0x800 0, m.1.dac, fadeOut 0x800 0x800 ++ [Event.shutdown],
              m.1.topUps, r.2⟩

/-- Number of `shutdown` operations in a trace. -/
def shutdownCount (t : List Event) : Nat :=
  t.count Event.shutdown

/-- The values handed to `setValue` in a trace, in order. -/
def setValues : List Event → List Nat
  | [] => []
  | Event.setValue v :: t => v :: setValues t
  | _ :: t => setValues t


/-- The function `AudioPlayer::play(fileName)`: the lookup in the directory,
then `play(entry->startBlock, entry->fileSize/2)`; without an entry it returns
false and does nothing else. -/
def playByName (fuel : Nat) (sd : SDCardState) (fileName : List Nat) : PlayResult :=
  match findFile sd fileName with
  | some entry => play fuel sd entry.startBlock (entry.fileSize / 2)
  | none => ⟨some false, [], [], [], [], sd⟩

/-! ## The motion sensor (MotionSensor.cpp, TimeDelta.h) -/

/-- Helper class to measure a time delta, `TimeDelta`; times are `unsigned
long`, 32 bit. -/
structure TimeDelta where
  _start : Nat
  deriving DecidableEq, Repr

/-- The method `TimeDelta::start(time)`. -/
def TimeDelta.start (_d : TimeDelta) (time : Nat) : TimeDelta :=
  ⟨time % 4294967296⟩

/-- The method `TimeDelta::elapsed(time)`, `time - _start` in 32 bit
arithmetic. -/
def TimeDelta.elapsed (d : TimeDelta) (time : Nat) : Nat :=
  (time % 4294967296 + 4294967296 - d._start) % 4294967296

/-- The status of the motion sensor, `MotionSensor::Status`. -/
inductive MotionSensor.Status where
  | Uninitialized
  | WaitStablilize
  | Idle
  | Alarm
  deriving DecidableEq, Repr

/-- The members of `MotionSensor`; `callbacks` lists the calls `(currentTime,
status)` that `setStatus` makes to the callback when one is set. -/
structure MotionSensor where
  _status : MotionSensor.Status
  _lastEvent : TimeDelta
  _lastState : Bool
  callbacks : List (Nat × MotionSensor.Status)
  deriving DecidableEq, Repr

/-- The constant `IDLE_TIME`, in seconds. -/
def IDLE_TIME : Nat := 20

/-- The sensor after its constructor; `TimeDelta()` starts at 0. -/
def MotionSensor.new : MotionSensor :=
  ⟨MotionSensor.Status.Uninitialized, ⟨0⟩, false, []⟩

/-- The method `currentSensorState()` on the value that `analogRead`
returns. -/
def currentSensorState (sensorValue : Nat) : Bool :=
  decide (sensorValue > 200)

/-- The method `setStatus(status, currentTime)`. -/
def MotionSensor.setStatus (m : MotionSensor) (status : MotionSensor.Status)
    (currentTime : Nat) : MotionSensor :=
  if m._status ≠ status then
    { m with _status := status, callbacks := m.callbacks ++ [(currentTime, status)] }
  else m

/-- The method `MotionSensor::loop(currentTime)`, with the value that
`analogRead` returns during the call. -/
def MotionSensor.loop (m : MotionSensor) (currentTime sensorValue : Nat) : MotionSensor :=
  match m._status with
  | .Uninitialized =>
    { m with _lastState := currentSensorState sensorValue }.setStatus
      MotionSensor.Status.WaitStablilize currentTime
  | .WaitStablilize =>
    let sensorState := currentSensorState sensorValue
    if sensorState ≠ m._lastState then
      { m with _lastEvent := m._lastEvent.start currentTime, _lastState := sensorState }
    else if sensorState = false then
      if m._lastEvent.elapsed currentTime / 1000 ≥ IDLE_TIME then
        m.setStatus MotionSensor.Status.Idle currentTime
      else m
    else m
  | .Idle =>
    if currentSensorState sensorValue then
      { m with _lastState := true, _lastEvent := m._lastEvent.start currentTime }.setStatus
        MotionSensor.Status.Alarm currentTime
    else m
  | .Alarm =>
    let sensorState := currentSensorState sensorValue
    if sensorState ≠ m._lastState then
      { m with _lastEvent := m._lastEvent.start currentTime, _lastState := sensorState }
    else if sensorState = false then
      if m._lastEvent.elapsed currentTime / 1000 ≥ IDLE_TIME then
        m.setStatus MotionSensor.Status.Idle currentTime
      else m
    else m

/-- Successive calls of `loop`, each with its time and sensor value. -/
def MotionSensor.run (m : MotionSensor) : List (Nat × Nat) → MotionSensor
  | [] => m
  | c :: rest => (m.loop c.1 c.2).run rest

/-! ## The timer (Timer.h) -/

/-- The members of `Timer`; times and delays are `unsigned long`, 32 bit.
`callbacks` lists the times handed to the callback when one is set. -/
structure Timer where
  _enabled : Bool
  _start : Nat
  _delay : Nat
  callbacks : List Nat
  deriving DecidableEq, Repr

/-- The timer after its constructor. -/
def Timer.new : Timer :=
  ⟨false, 0, 200, []⟩

/-- The method `Timer::start(delay, currentTime)`. -/
def Timer.start (t : Timer) (delay currentTime : Nat) : Timer :=
  { t with _delay := delay % 4294967296, _start := currentTime % 4294967296, _enabled := true }

/-- The method `Timer::stop()`. -/
def Timer.stop (t : Timer) : Timer :=
  { t with _enabled := false }

/-- The method `Timer::check(currentTime)`: the value returned and the timer
afterwards; `delta = currentTime - _start` is 32 bit arithmetic. -/
def Timer.check (t : Timer) (currentTime : Nat) : Bool × Timer :=
  if ¬ t._enabled then (false, t)
  else
    let delta := (currentTime % 4294967296 + 4294967296 - t._start) % 4294967296
    if delta ≥ t._delay then
      (true,
        { t with
          _start := currentTime % 4294967296
          callbacks := t.callbacks ++ [currentTime % 4294967296] })
    else (false, t)

/-! ## The DAC port (DacPort.cpp) -/

/-- What the DAC chip has received: a word, the bits clocked in between
select and unselect in the order of their arrival, or a latch pulse. -/
inductive DacEvent where
  | word (bits : List Bool)
  | latch
  deriving DecidableEq, Repr

/-- The four output pins of the DAC port (`true` is high), the bits that the
chip has clocked in since it was selected, and what it has received so far.
The chip takes the level of the data pin at every rising edge of the clock
while chip select is low, takes the word when chip select rises, and latches
at the falling edge of the latch pin. -/
structure DacPort where
  cs : Bool
  clk : Bool
  di : Bool
  latch : Bool
  shift : List Bool
  log : List DacEvent
  deriving DecidableEq, Repr

/-- The macro `_BV(bit)`. -/
def _BV (bit : Nat) : Nat := 1 <<< bit

/-- The macro `dacSelect()`, `DAC_CS_PORT &= ~_BV(DAC_CS)`. -/
def dacSelect (p : DacPort) : DacPort :=
  { p with cs := false, shift := if p.cs then [] else p.shift }

/-- The macro `dacUnselect()`, `DAC_CS_PORT |= _BV(DAC_CS)`. -/
def dacUnselect (p : DacPort) : DacPort :=
  { p with cs := true, log := if p.cs then p.log else p.log ++ [DacEvent.word p.shift] }

/-- The macro `dacLatchUp()`. -/
def dacLatchUp (p : DacPort) : DacPort :=
  { p with latch := true }

/-- The macro `dacLatchDown()`. -/
def dacLatchDown (p : DacPort) : DacPort :=
  { p with latch := false, log := if p.latch then p.log ++ [DacEvent.latch] else p.log }

/-- The macro `dacClockUp()`. -/
def dacClockUp (p : DacPort) : DacPort :=
  { p with clk := true, shift := if ¬ p.clk ∧ ¬ p.cs then p.shift ++ [p.di] else p.shift }

/-- The macro `dacClockDown()`. -/
def dacClockDown (p : DacPort) : DacPort :=
  { p with clk := false }

/-- The macro `dacClockPulse()`, `dacClockUp();dacClockDown();`. -/
def dacClockPulse (p : DacPort) : DacPort :=
  dacClockDown (dacClockUp p)

/-- The macro `dacDataUp()`. -/
def dacDataUp (p : DacPort) : DacPort :=
  { p with di := true }

/-- The macro `dacDataDown()`. -/
def dacDataDown (p : DacPort) : DacPort :=
  { p with di := false }

/-- The macro `dacSendBit(bit)` for the variable `value` of its context:
`if (value & bit) { dacDataUp() } else { dacDataDown() }; dacClockPulse();`. -/
def dacSendBit (p : DacPort) (value bit : Nat) : DacPort :=
  dacClockPulse (if value &&& bit ≠ 0 then dacDataUp p else dacDataDown p)

/-- The end of `DacPort::initialize()`, after the pins were made outputs: the
initial states of the outputs. -/
def DacPort.initializePort (p : DacPort) : DacPort :=
  dacLatchUp (dacDataDown (dacClockDown (dacUnselect p)))

/-- The function `DacPort::setValue(value)`; `value` is a `uint16_t`. -/
def DacPort.setValue (p : DacPort) (value : Nat) : DacPort :=
  let value := value % 65536
  let p := dacSelect p
  let p := dacDataDown p
  let p := dacClockPulse p
  let p := dacClockPulse p
  let p := dacClockPulse p
  let p := dacDataUp p
  let p := dacClockPulse p
  let p := dacSendBit p value (_BV 11)
  let p := dacSendBit p value (_BV 10)
  let p := dacSendBit p value (_BV 9)
  let p := dacSendBit p value (_BV 8)
  let p := dacSendBit p value (_BV 7)
  let p := dacSendBit p value (_BV 6)
  let p := dacSendBit p value (_BV 5)
  let p := dacSendBit p value (_BV 4)
  let p := dacSendBit p value (_BV 3)
  let p := dacSendBit p value (_BV 2)
  let p := dacSendBit p value (_BV 1)
  let p := dacSendBit p value (_BV 0)
  dacUnselect p

/-- The function `DacPort::pushValue()`. -/
def DacPort.pushValue (p : DacPort) : DacPort :=
  dacLatchUp (dacLatchDown p)

/-- The function `DacPort::shutdown()`. -/
def DacPort.shutdown (p : DacPort) : DacPort :=
  let p := dacSelect p
  let p := dacDataDown p
  let p := dacClockPulse p
  let p := dacClockPulse p
  let p := dacClockPulse p
  let p := dacClockPulse p
  let p := dacClockPulse p
  let p := dacClockPulse p
  let p := dacClockPulse p
  let p := dacClockPulse p
  let p := dacClockPulse p
  let p := dacClockPulse p
  let p := dacClockPulse p
  let p := dacClockPulse p
  let p := dacClockPulse p
  let p := dacClockPulse p
  let p := dacClockPulse p
  let p := dacClockPulse p
  let p := dacUnselect p
  let p := dacLatchDown p
  dacLatchUp p
/-! ## Definitions used to state the properties -/

/-- The six bytes of a command frame. -/
def commandFrame (index argument crc : Nat) : List Nat :=
  [0x40 ||| index, (argument >>> 24) % 256, (argument >>> 16) % 256, (argument >>> 8) % 256,
    argument % 256, crc]

/-- The response byte that polling finds on the bytes to come: the first one
whose high bit is clear, or the one after `n` bytes that all have it set. -/
def responseByte : Nat → List Nat → Nat
  | 0, l => l.headD 0xff
  | n + 1, l => if l.headD 0xff &&& 0x80 ≠ 0 then responseByte n l.tail else l.headD 0xff

/-- The number of bytes that polling takes from the bus. -/
def responseLength : Nat → List Nat → Nat
  | 0, _ => 1
  | n + 1, l => if l.headD 0xff &&& 0x80 ≠ 0 then responseLength n l.tail + 1 else 1

/-- The status contract of `startRead` and `startMultiRead`, for the command
index and the read mode of the function. -/
def StartReadContract (start : SDCardState → Nat → Status × SDCardState) (index : Nat)
    (mode : ReadMode) : Prop :=
  ∀ (s : SDCardState) (block : Nat),
    ((start s block).1 = Status.StatusWait ↔ s.spi.miso.headD 0xff ≠ 0xff) ∧
    (s.spi.miso.headD 0xff ≠ 0xff →
      (start s block).2 = { s with spi := { s.spi with miso := s.spi.miso.tail } }) ∧
    (s.spi.miso.headD 0xff = 0xff →
      (start s block).2.spi.sent = s.spi.sent ++ commandFrame index block 0xff ∧
      ((start s block).1 = Status.StatusError ↔ responseByte 0x10 (s.spi.miso.drop 7) ≠ 0x00) ∧
      (responseByte 0x10 (s.spi.miso.drop 7) ≠ 0x00 →
        (start s block).2.error = Error.Error_ReadSingleBlockFailed ∧
        (start s block).2.blockReadState = s.blockReadState ∧
        (start s block).2.blockByteCount = s.blockByteCount ∧
        (start s block).2.blockReadMode = s.blockReadMode) ∧
      (responseByte 0x10 (s.spi.miso.drop 7) = 0x00 →
        (start s block).1 = Status.StatusReady ∧
        (start s block).2.blockReadState = ReadState.ReadStateWait ∧
        (start s block).2.blockByteCount = 0 ∧
        (start s block).2.blockReadMode = mode ∧
        (start s block).2.error = s.error)) ∧
    s.spi.miso.length ≤ (start s block).2.spi.miso.length + 24

/-- What a client has after a read session: the bytes stored into its
buffers, in order, the sum of the byte counts reported by the calls that
returned `StatusReady` or `StatusEndOfBlock`, and the driver state. -/
structure SessionResult where
  bytes : List Nat
  total : Nat
  state : SDCardState

/-- A client that calls `readData` with the successive request sizes until
the session is Ended or the sizes run out. -/
def readSession : List Nat → SDCardState → SessionResult
  | [], s => ⟨[], 0, s⟩
  | n :: reqs, s =>
    if s.blockReadState = ReadState.ReadStateEnd then ⟨[], 0, s⟩
    else
      let r := readData s n
      let rest := readSession reqs r.state
      ⟨r.written ++ rest.bytes,
        (if r.status = Status.StatusReady ∨ r.status = Status.StatusEndOfBlock then r.byteCount
          else 0) + rest.total,
        rest.state⟩

/-- A driver state with the given session fields and bus input, nothing sent
yet. -/
def mkState (count : Nat) (state : ReadState) (mode : ReadMode) (miso : List Nat) :
    SDCardState :=
  ⟨Error.NoError, CardType.CardTypeSD2, count, state, mode, [], ⟨miso, [], []⟩, []⟩

/-- A single block session about to start: one busy byte, the token, a block
of 512 bytes, two trailer bytes and one byte more. -/
def sessionStart : SDCardState :=
  mkState 0 ReadState.ReadStateWait ReadMode.ReadModeSingleBlock
    (0xff :: 0xfe :: (List.replicate 512 7 ++ [1, 2, 3]))

/-- A continuous session four bytes before the end of a block. -/
def boundaryMulti : SDCardState :=
  mkState 508 ReadState.ReadStateReadData ReadMode.ReadModeMultipleBlocks [1, 2, 3, 4, 9, 9, 0xff]

/-- A single block session four bytes before the end of a block. -/
def boundarySingle : SDCardState :=
  mkState 508 ReadState.ReadStateReadData ReadMode.ReadModeSingleBlock [1, 2, 3, 4, 9, 9, 0xff]

/-- A single block session inside the block, after the tag and one record
header of the directory. -/
def insideBlock : SDCardState :=
  mkState 13 ReadState.ReadStateReadData ReadMode.ReadModeSingleBlock [5, 6, 7, 8]

/-- The ring buffer invariant of the main loop: the buffered count stays
within the buffer, and every top-up call was made with more than the reserved
margin of 4 samples free. -/
def BufferInv {σ : Type} (l : LoopState σ) : Prop :=
  l.bufferedSamples ≤ 256 ∧ ∀ t ∈ l.topUps, 4 < 256 - t.bufferedSamples ∧ t.bufferedSamples ≤ 256

/-- A driver state on which `startMultiRead` succeeds and the first byte of
the pre-fill is neither busy nor the data token. -/
def prefillFails : SDCardState :=
  mkState 0 ReadState.ReadStateEnd ReadMode.ReadModeSingleBlock [0xff, 0, 0, 0, 0, 0, 0, 0x00, 0x00]

/-- What the card presents while a read command is accepted: bytes other than
`0xff` while it is busy, `0xff` when it is ready, six bytes during the command
frame, up to 16 bytes with the high bit set, and the response `0x00`. -/
def startTranscript (busy echo wait : List Nat) : List Nat :=
  busy ++ 0xff :: (echo ++ (wait ++ [0x00]))

/-- The side conditions on the parts of `startTranscript`. -/
def TranscriptOk (busy echo wait : List Nat) : Prop :=
  (∀ b ∈ busy, b ≠ 0xff) ∧ echo.length = 6 ∧ (∀ b ∈ wait, b &&& 0x80 ≠ 0) ∧ wait.length ≤ 16

/-- A directory record as it lies on the media. -/
structure Record where
  startBlock : Nat
  byteLength : Nat
  name : List Nat
  deriving DecidableEq, Repr

/-- The four bytes of a 32 bit value, low byte first. -/
def le32 (v : Nat) : List Nat :=
  [v % 256, v / 256 % 256, v / 65536 % 256, v / 16777216 % 256]

/-- The bytes of a record: start block, byte length, name length, name. -/
def encodeRecord (r : Record) : List Nat :=
  le32 r.startBlock ++ (le32 r.byteLength ++ (r.name.length :: r.name))

/-- The bytes of all records, one after the other. -/
def encodeRecords : List Record → List Nat
  | [] => []
  | r :: rs => encodeRecord r ++ encodeRecords rs

/-- The bytes of a directory: the tag, the records, and the start block 0 of
the terminator. -/
def encodeDirectory (rs : List Record) : List Nat :=
  magic ++ (encodeRecords rs ++ le32 0)

/-- A record with a start block other than 0, 32 bit fields, a name length
that fits a byte and a name without NUL. -/
def Record.WellFormed (r : Record) : Prop :=
  0 < r.startBlock ∧ r.startBlock < 4294967296 ∧ r.byteLength < 4294967296 ∧
    r.name.length < 256 ∧ ∀ b ∈ r.name, b ≠ 0

/-- The directory entry that a record stands for. -/
def Record.entry (r : Record) : DirectoryEntry :=
  ⟨r.startBlock, r.byteLength, r.name⟩

/-- The two records of the example directory, A.RAW and B.RAW. -/
def exampleRecords : List Record :=
  [⟨100, 2048, [0x41, 0x2e, 0x52, 0x41, 0x57]⟩, ⟨200, 4096, [0x42, 0x2e, 0x52, 0x41, 0x57]⟩]

/-- A card that is busy for one byte, accepts the read command for block 0
and delivers the example directory after one busy byte. -/
def exampleCard : SDCardState :=
  mkState 0 ReadState.ReadStateEnd ReadMode.ReadModeSingleBlock
    (startTranscript [0x00] [0xff, 0xff, 0xff, 0xff, 0xff, 0xff] [0xff, 0xff] ++
      (List.replicate 1 0xff ++ 0xfe :: (encodeDirectory exampleRecords ++ [0, 0, 0, 0, 0, 7])))

/-- One block as the card delivers it in a continuous read: busy bytes
`0xff`, the data token, the payload and the two trailer bytes. -/
structure Block where
  busy : Nat
  payload : List Nat
  crc1 : Nat
  crc2 : Nat
  deriving DecidableEq, Repr

/-- The bytes of a block on the bus. -/
def encodeBlock (b : Block) : List Nat :=
  List.replicate b.busy 0xff ++ 0xfe :: (b.payload ++ [b.crc1, b.crc2])

/-- The bytes of successive blocks on the bus. -/
def encodeBlocks : List Block → List Nat
  | [] => []
  | b :: bs => encodeBlock b ++ encodeBlocks bs

/-- The payload bytes of successive blocks: the audio extent. -/
def payloadOf : List Block → List Nat
  | [] => []
  | b :: bs => b.payload ++ payloadOf bs

/-- The 16 bit little-endian samples held in a byte sequence. -/
def samples16 : List Nat → List Nat
  | b0 :: b1 :: rest => (b0 + 256 * b1) :: samples16 rest
  | _ => []

/-- A block with 512 payload bytes. -/
def Block.Ok (b : Block) : Prop :=
  b.payload.length = 512 ∧ ∀ x ∈ b.payload, x < 256

/-- A script for a streamer: `none` for a call that returns `StatusWait`
without storing, `some (a, b, c, d)` for a call that returns `StatusReady` and
stores these four bytes. -/
abbrev Script := List (Option (Nat × Nat × Nat × Nat))

/-- The streamer `rd`, started in state `s`, behaves as the script says, call
by call. -/
def Follows {σ : Type} (rd : σ → Fast4Result σ) : σ → Script → Prop
  | _, [] => True
  | s, none :: rest =>
    (rd s).status = Status.StatusWait ∧ (rd s).written = [] ∧ Follows rd (rd s).state rest
  | s, some (a, b, c, d) :: rest =>
    (rd s).status = Status.StatusReady ∧ (rd s).written = [a, b, c, d] ∧
      Follows rd (rd s).state rest

/-- The samples that a script delivers. -/
def scriptSamples : Script → List Nat
  | [] => []
  | none :: rest => scriptSamples rest
  | some (a, b, c, d) :: rest => (a + 256 * b) :: (c + 256 * d) :: scriptSamples rest

/-- The calls that deliver a payload four bytes at a time. -/
def chunkScript : List Nat → Script
  | a :: b :: c :: d :: rest => some (a, b, c, d) :: chunkScript rest
  | _ => []

/-- The calls of `readFast4` over one block: a wait for every busy byte and
for the token, the payload in chunks, a wait for the trailer. -/
def blockScript (b : Block) : Script :=
  List.replicate (b.busy + 1) none ++ (chunkScript b.payload ++ [none])

/-- The calls of `readFast4` over successive blocks. -/
def blocksScript : List Block → Script
  | [] => []
  | b :: bs => blockScript b ++ blocksScript bs

/-- The state of the main loop after `e` samples were set, over a streamer
that follows the script `rs` from here on and delivers the samples `D`: the
cursor, the bounds, the samples read so far, and the buffered samples in their
slots. -/
def LoopInv {σ : Type} (rd : σ → Fast4Result σ) (D : List Nat) (e : Nat) (rs : Script)
    (l : LoopState σ) : Prop :=
  l.currentSample = e % 4294967296 ∧ l.bufferedSamples ≤ 256 ∧
  (e + l.bufferedSamples) % 2 = 0 ∧ e + l.bufferedSamples ≤ D.length ∧
  Follows rd l.streamer rs ∧ scriptSamples rs = D.drop (e + l.bufferedSamples) ∧
  (∀ j < l.bufferedSamples, l.sampleBuffer ((e + j) % 256) = D.getD (e + j) 0) ∧
  setValues l.dac = (D.take e).map (fun x => x >>> 4)

/-- The loop state after the sample `e` was set and counted, before
the refill. -/
def afterSet {σ : Type} (l : LoopState σ) : LoopState σ :=
  { l with
    dac := l.dac ++ [Event.pushValue] ++
      [Event.setValue (l.sampleBuffer (l.currentSample &&& sampleBufferMask) >>> 4)]
    bufferedSamples := l.bufferedSamples - 1
    currentSample := (l.currentSample + 1) % 4294967296 }


/-- Six blocks of a constant audio signal, the first after one busy byte. -/
def exampleBlocks : List Block :=
  [⟨1, List.replicate 512 0x80, 0, 0⟩, ⟨0, List.replicate 512 0x81, 0, 0⟩,
   ⟨0, List.replicate 512 0x82, 0, 0⟩, ⟨0, List.replicate 512 0x83, 0, 0⟩,
   ⟨0, List.replicate 512 0x84, 0, 0⟩, ⟨2, List.replicate 512 0x85, 0, 0⟩]

/-- A card that accepts the read command at once and delivers the example
blocks. -/
def playCard : SDCardState :=
  mkState 0 ReadState.ReadStateEnd ReadMode.ReadModeSingleBlock
    (startTranscript [] [0xff, 0xff, 0xff, 0xff, 0xff, 0xff] [0xff] ++
      (encodeBlocks exampleBlocks ++ []))

/-- A card that accepts the read command at once and delivers one block. -/
def oneBlockCard : SDCardState :=
  mkState 0 ReadState.ReadStateEnd ReadMode.ReadModeSingleBlock
    (startTranscript [] [0xff, 0xff, 0xff, 0xff, 0xff, 0xff] [] ++
      (encodeBlocks [⟨0, (List.range 512).map (fun i => (7 * i + 3) % 256), 0, 0⟩] ++ []))

/-- A continuous session at the token of a block of 512 bytes `7` with the
trailer `0xaa`, `0xbb`. -/
def blockStart : SDCardState :=
  mkState 0 ReadState.ReadStateWait ReadMode.ReadModeMultipleBlocks
    (0xfe :: (List.replicate 512 7 ++ [0xaa, 0xbb, 0xff, 0xfe, 1, 2, 3, 4]))

/-- The next state along the chain Waiting, In-block, In-trailer, and from
there Waiting in continuous mode, Ended in single mode; Ended is final. -/
def nextReadState (mode : ReadMode) : ReadState → ReadState
  | .ReadStateWait => ReadState.ReadStateReadData
  | .ReadStateReadData => ReadState.ReadStateReadCRC
  | .ReadStateReadCRC =>
    if mode = ReadMode.ReadModeSingleBlock then ReadState.ReadStateEnd
    else ReadState.ReadStateWait
  | .ReadStateEnd => ReadState.ReadStateEnd

/-- The state `b` is the state `a` or reached from it by advancing along the
chain; three steps reach every state that can be reached. -/
def Advances (mode : ReadMode) (a b : ReadState) : Prop :=
  b = a ∨ b = nextReadState mode a ∨ b = nextReadState mode (nextReadState mode a) ∨
    b = nextReadState mode (nextReadState mode (nextReadState mode a))

/-- A continuous session waiting for the token, on a bus that delivers a byte
that is neither busy nor the token. -/
def badToken : SDCardState :=
  mkState 0 ReadState.ReadStateWait ReadMode.ReadModeMultipleBlocks [0x00, 0xff]

/-- A single block session in the trailer of its block. -/
def trailerSingle : SDCardState :=
  mkState 512 ReadState.ReadStateReadCRC ReadMode.ReadModeSingleBlock [0xaa, 0xbb, 0xff]

/-- A driver state that holds the directory of the example: A.RAW at block
100 and B.RAW at block 200. -/
def exampleCatalog : SDCardState :=
  { mkState 0 ReadState.ReadStateEnd ReadMode.ReadModeSingleBlock [] with
    directoryEntry := exampleRecords.map Record.entry }

/-- A card that accepts the read command for block 0 and delivers a block
that starts with the characters H, C, D, X. -/
def wrongTagCard : SDCardState :=
  mkState 0 ReadState.ReadStateEnd ReadMode.ReadModeSingleBlock
    (startTranscript [0x00] [0xff, 0xff, 0xff, 0xff, 0xff, 0xff] [0xff] ++
      (List.replicate 2 0xff ++ 0xfe :: ([0x48, 0x43, 0x44, 0x58] ++ [100, 0, 0, 0, 9])))

/-- The 6 bit index of a command. -/
def Command.index (c : Command) : Nat := c.code &&& 0x3f

/-- The CRC byte that goes with a command. -/
def Command.crc : Command → Nat
  | .Cmd_GoIdleState => 0x95
  | .Cmd_SendIfCond => 0x87
  | _ => 0xff

/-- Whether a command carries the application command flag. -/
def Command.isApp (c : Command) : Bool := decide (c.code &&& 0x100 ≠ 0)

/-- The bytes sent for the escape in front of an application command:
index 55 and a zero argument. -/
def escapeBytes : List Nat := [0x40 ||| 55, 0, 0, 0, 0]

/-- The number of transfers that the escape takes: its five bytes and the
polling of its response; none for a plain command. -/
def escapeTransfers (c : Command) (miso : List Nat) : Nat :=
  if c.isApp then 5 + responseLength 0x10 (miso.drop 5) else 0

/-- The first part of `sendCommand`: the escape in front of an application
command and the polling of its response. -/
def sendEscape (s : SDCardState) (command : Command) : SDCardState :=
  if command.code &&& 0x100 ≠ 0 then
    (pollResponse 0x10
      (spiSend (spiSend (spiSend (spiSend (spiSend s (55 ||| 0x40)) 0) 0) 0) 0)).2
  else s

/-- The second part of `sendCommand`: the frame of the command, the polling
of the response and the four bytes of an R3 or R7 response. -/
def sendFrame (s0 : SDCardState) (command : Command) (argument : Nat) :
    Nat × Option Nat × SDCardState :=
  let crc :=
    if command = Command.Cmd_GoIdleState then 0x95
    else if command = Command.Cmd_SendIfCond then 0x87
    else 0xff
  let r := pollResponse 0x10
    (spiSend (spiSend (spiSend (spiSend (spiSend (spiSend s0
      ((command.code &&& 0x3f) ||| 0x40)) (argument >>> 24)) (argument >>> 16))
      (argument >>> 8)) argument) crc)
  if command.code &&& 0x00c0 ≠ 0 then
    let v := Spi.receiveN 4 r.2.spi
    let value :=
      (v.1.getD 0 0 <<< 24) ||| (v.1.getD 1 0 <<< 16) ||| (v.1.getD 2 0 <<< 8) ||| v.1.getD 3 0
    (r.1, some value, { r.2 with spi := v.2 })
  else
    (r.1, none, r.2)

/-- The two states differ in the bus only: the error, the card type, the
session fields and the directory are the same. -/
def SameSession (s t : SDCardState) : Prop :=
  t.error = s.error ∧ t.cardType = s.cardType ∧ t.blockByteCount = s.blockByteCount ∧
    t.blockReadState = s.blockReadState ∧ t.blockReadMode = s.blockReadMode ∧
    t.directoryEntry = s.directoryEntry

/-- What the bus has to deliver for the drain of a single block session to
come to its end: in Waiting `k` busy bytes, the token, the payload `xs` still to
come and the two trailer bytes; inside the block the payload still to come and
the trailer; in the trailer its two bytes; nothing when the session has
ended. -/
def drainInput (state : ReadState) (k : Nat) (xs : List Nat) (c1 c2 : Nat) : List Nat :=
  match state with
  | .ReadStateWait => List.replicate k 0xff ++ 0xfe :: (xs ++ [c1, c2])
  | .ReadStateReadData => xs ++ [c1, c2]
  | .ReadStateReadCRC => [c1, c2]
  | .ReadStateEnd => []

/-- A continuous session inside a block, on a card that answers the stop
command with `0x00` and is ready at once, and is silent after that. -/
def stoppable : SDCardState :=
  mkState 8 ReadState.ReadStateReadData ReadMode.ReadModeMultipleBlocks
    [1, 2, 3, 4, 5, 6, 0xff, 0x00, 0xff]

/-- A single block session 500 bytes into its block: 12 payload bytes, the
trailer and three bytes more are still to come. -/
def singleMid : SDCardState :=
  mkState 500 ReadState.ReadStateReadData ReadMode.ReadModeSingleBlock
    (List.replicate 12 7 ++ [0xaa, 0xbb] ++ [1, 2, 3])

/-- The session `stoppable` after its stop command. -/
def stopped : SDCardState :=
  { stoppable with spi := ⟨[], [0x4c, 0, 0, 0, 0, 0xff], []⟩ }

/-- The session `singleMid` after its drain: the 12 payload bytes that were
left have been stored to the addresses 0 to 11. -/
def singleDrained : SDCardState :=
  { mkState 0 ReadState.ReadStateEnd ReadMode.ReadModeSingleBlock [1, 2, 3] with
    nullStores := (List.replicate 12 7).enum }

/-- A client of `readFast4`: `n` calls one after the other; the bytes are what
the calls that return Ready stored, in order, and the state is the one after
the last call. -/
def fastRun : Nat → SDCardState → List Nat × SDCardState
  | 0, s => ([], s)
  | n + 1, s =>
    let r := readFast4 s
    let t := fastRun n r.state
    ((if r.status = Status.StatusReady then r.written else []) ++ t.1, t.2)

/-- A client of `readData`: `n` calls with four bytes asked for each time.  The
client takes the bytes that a call stored when `keep` holds of the status the
call returned, and leaves them when it does not; the bytes are what it took, in
order, and the state is the one after the last call. -/
def dataRun (keep : Status → Bool) : Nat → SDCardState → List Nat × SDCardState
  | 0, s => ([], s)
  | n + 1, s =>
    let r := readData s 4
    let t := dataRun keep n r.state
    ((if keep r.status then r.written else []) ++ t.1, t.2)

/-- The client that takes the bytes of the calls that return Ready, as the
client `fastRun` of `readFast4` does. -/
def atReady (st : Status) : Bool := decide (st = Status.StatusReady)

/-- The client that takes the bytes of the calls that return Ready or
EndOfBlock. -/
def atReadyOrEnd (st : Status) : Bool :=
  decide (st = Status.StatusReady ∨ st = Status.StatusEndOfBlock)

/-- No client: every byte that a call stored, whatever status it returned. -/
def everyStore (_ : Status) : Bool := true

/-- The payloads of the blocks without the last four bytes of each. -/
def payloadHeads : List Block → List Nat
  | [] => []
  | b :: bs => b.payload.take 508 ++ payloadHeads bs

/-- The number of calls of `readFast4` that read the blocks: per block one for
every busy byte, one for the token, 128 for the payload, one for the
trailer. -/
def fastCalls : List Block → Nat
  | [] => 0
  | b :: bs => (b.busy + 130) + fastCalls bs

/-- The number of calls of `readData` with four bytes that read the blocks: per
block one for every busy byte and 128 for the payload, of which the first
takes the token and the last the trailer. -/
def dataCalls : List Block → Nat
  | [] => 0
  | b :: bs => (b.busy + 128) + dataCalls bs

/-- A continuous session in Waiting in front of two blocks, the second after
two busy bytes, and three bytes more. -/
def twoBlocks : List Block :=
  [⟨0, (List.range 512).map (fun i => (7 * i + 3) % 256), 0x12, 0x34⟩,
   ⟨2, (List.range 512).map (fun i => (5 * i + 1) % 256), 0x56, 0x78⟩]

/-- A continuous session in Waiting in front of `twoBlocks`. -/
def twoBlockSession : SDCardState :=
  mkState 0 ReadState.ReadStateWait ReadMode.ReadModeMultipleBlocks
    (encodeBlocks twoBlocks ++ [0xff, 0xff, 0xff])

/-- What a card of version 2 presents during the bring-up, with the four
bytes `ocr` of its operating condition register: 102 bytes during the clocks,
then for every command `0xff` (ready) and the bytes during the frame, the
response `0x01` to go-idle, `0x01` and the echo `00 00 01 aa` to the interface
condition, `0x01` to the escape and `0x00` to the operating condition command,
`0x00` and the register to the read of the register, `0x00` to the block
length. -/
def v2Transcript (ocr : List Nat) : List Nat :=
  List.replicate 102 0xff ++
    (0xff :: List.replicate 6 0xff ++ [0x01]) ++
    (0xff :: List.replicate 6 0xff ++ [0x01, 0x00, 0x00, 0x01, 0xaa]) ++
    (0xff :: List.replicate 5 0xff ++ [0x01] ++ List.replicate 6 0xff ++ [0x00]) ++
    (0xff :: List.replicate 6 0xff ++ [0x00] ++ ocr) ++
    (0xff :: List.replicate 6 0xff ++ [0x00])

/-- A driver before the bring-up, in front of a card of version 2 with the
given register; the clock advances by one millisecond per reading. -/
def v2Card (ocr : List Nat) : SDCardState :=
  ⟨Error.NoError, CardType.CardTypeSD1, 0, ReadState.ReadStateEnd, ReadMode.ReadModeSingleBlock,
    [], ⟨v2Transcript ocr, [], List.range 8⟩, []⟩

/-- A driver before the bring-up, in front of a card of version 1: it answers
the interface condition with idle and illegal command, `0x05`, and there is no
read of the register. -/
def legacyCard : SDCardState :=
  ⟨Error.NoError, CardType.CardTypeSD1, 0, ReadState.ReadStateEnd, ReadMode.ReadModeSingleBlock,
    [],
    ⟨List.replicate 102 0xff ++
      (0xff :: List.replicate 6 0xff ++ [0x01]) ++
      (0xff :: List.replicate 6 0xff ++ [0x05, 0xff, 0xff, 0xff, 0xff]) ++
      (0xff :: List.replicate 5 0xff ++ [0x01] ++ List.replicate 6 0xff ++ [0x00]) ++
      (0xff :: List.replicate 6 0xff ++ [0x00]),
     [], List.range 8⟩, []⟩

/-- What the bring-up has sent to a card of version 2: 102 clocks, go-idle,
the interface condition, the escape and the operating condition command with
the HCS flag, the read of the register, the block length 512. -/
def v2Sent : List Nat :=
  List.replicate 102 0xff ++
    [0x40, 0, 0, 0, 0, 0x95, 0x48, 0, 0, 1, 0xaa, 0x87, 0x77, 0, 0, 0, 0,
     0x69, 0x40, 0, 0, 0, 0xff, 0x7a, 0, 0, 0, 0, 0xff, 0x50, 0, 0, 2, 0, 0xff]

/-- The result of the bring-up of the card of version 2 whose register is
`0xc0000000`. -/
def v2Ready : InitResult :=
  ⟨Status.StatusReady, 0x01, some 0xc0000000,
    { v2Card [0xc0, 0, 0, 0] with
      cardType := CardType.CardTypeSDHC
      spi := ⟨[], v2Sent, [6, 7]⟩ }⟩

/-- What the bring-up of `legacyCard` sends: as `v2Sent`, with the argument 0
in the operating condition command and without the frame of command 58. -/
def legacySent : List Nat :=
  List.replicate 102 0xff ++
    [0x40, 0, 0, 0, 0, 0x95, 0x48, 0, 0, 1, 0xaa, 0x87, 0x77, 0, 0, 0, 0,
     0x69, 0, 0, 0, 0, 0xff, 0x50, 0, 0, 2, 0, 0xff]

/-- The result of the bring-up of `legacyCard`. -/
def legacyReady : InitResult :=
  ⟨Status.StatusReady, 0x05, none, { legacyCard with spi := ⟨[], legacySent, [5, 6, 7]⟩ }⟩

/-- From `s` to `t` the driver has sent bytes on the bus, none of them `x`. -/
def SentWithout (x : Nat) (s t : SDCardState) : Prop :=
  ∃ extra, t.spi.sent = s.spi.sent ++ extra ∧ x ∉ extra


/-- What `loop` does in `WaitStablilize` and in `Alarm`, which have the same
code: note a change
of the sensor, or go to `Idle` once the sensor has been low for
`IDLE_TIME`. -/
def MotionSensor.waitForIdle (m : MotionSensor) (currentTime sensorValue : Nat) :
    MotionSensor :=
  let sensorState := currentSensorState sensorValue
  if sensorState ≠ m._lastState then
    { m with _lastEvent := m._lastEvent.start currentTime, _lastState := sensorState }
  else if sensorState = false then
    if m._lastEvent.elapsed currentTime / 1000 ≥ IDLE_TIME then
      m.setStatus MotionSensor.Status.Idle currentTime
    else m
  else m



/-- A driver in front of a card that stays silent for 17 bytes after the frame
of a command and answers `0x00` with the 18th. -/
def lateResponse : SDCardState :=
  mkState 0 ReadState.ReadStateEnd ReadMode.ReadModeSingleBlock
    (List.replicate 6 0xff ++ List.replicate 17 0xff ++ [0x00, 0x55])


/-- What a card of version 2 presents after it went idle, with the four bytes
`echo` that it returns to the interface condition and the register
`0x00ff8000`. -/
def afterIdle (echo : List Nat) : List Nat :=
  (0xff :: List.replicate 6 0xff ++ [0x01] ++ echo) ++
    (0xff :: List.replicate 5 0xff ++ [0x01] ++ List.replicate 6 0xff ++ [0x00]) ++
    (0xff :: List.replicate 6 0xff ++ [0x00, 0x00, 0xff, 0x80, 0x00]) ++
    (0xff :: List.replicate 6 0xff ++ [0x00])

/-- A driver before the bring-up, in front of a card of version 2 that returns
`echo` to the interface condition. -/
def echoCard (echo : List Nat) : SDCardState :=
  ⟨Error.NoError, CardType.CardTypeSD1, 0, ReadState.ReadStateEnd, ReadMode.ReadModeSingleBlock,
    [],
    ⟨List.replicate 102 0xff ++ (0xff :: List.replicate 6 0xff ++ [0x01]) ++ afterIdle echo,
      [], List.range 8⟩, []⟩

/-- The driver of `echoCard` after the card went idle. -/
def echoCardIdle (echo : List Nat) : SDCardState :=
  ⟨Error.NoError, CardType.CardTypeSD1, 0, ReadState.ReadStateEnd, ReadMode.ReadModeSingleBlock,
    [],
    ⟨afterIdle echo, List.replicate 102 0xff ++ [0x40, 0, 0, 0, 0, 0x95], [2, 3, 4, 5, 6, 7]⟩, []⟩


/-- The output stage operations of a ramp: every value is set and pushed. -/
def committed : List Nat → List Event
  | [] => []
  | v :: vs => Event.setValue v :: Event.pushValue :: committed vs

/-- The output stage operations of successive turns of the main loop: the
push at the timer overflow, and the value set after it when the turn had a
sample in the buffer (`some`), nothing when the buffer was empty (`none`). -/
def turnEvents : List (Option Nat) → List Event
  | [] => []
  | none :: ts => Event.pushValue :: turnEvents ts
  | some v :: ts => Event.pushValue :: Event.setValue v :: turnEvents ts

/-- A top-up call that is safe for the ring buffer: the cursor plus the
buffered count is even, fewer than 252 samples are buffered, the write
position is that sum modulo 256 and is even, so that the two slots written
lie within the buffer, and neither slot is one of the `bufferedSamples` slots
from the read cursor on that hold samples not yet consumed. -/
def TopUp.Safe (t : TopUp) : Prop :=
  (t.currentSample + t.bufferedSamples) % 2 = 0 ∧ t.bufferedSamples < 252 ∧
  t.writePos = (t.currentSample + t.bufferedSamples) % 256 ∧ t.writePos % 2 = 0 ∧
  t.writePos + 1 ≤ 255 ∧
  ∀ j < t.bufferedSamples,
    (t.currentSample + j) % 256 ≠ t.writePos ∧ (t.currentSample + j) % 256 ≠ t.writePos + 1


/-- What the members of the motion sensor say about the calls of `loop` made
so far, oldest first: before the first call the time delta starts at 0; in
`Idle` the last state is low; and after the first call the calls split into
`earlier ++ first :: quiet` such that the sensor state at `first` and at every
call of `quiet` is the last state, and either `first` is the first call of all
and the time delta still starts at 0, or the call before `first` saw the other
state and the time delta starts at the time of `first`. -/
def SensorInv (hist : List (Nat × Nat)) (m : MotionSensor) : Prop :=
  (m._status = MotionSensor.Status.Uninitialized → hist = [] ∧ m._lastEvent._start = 0) ∧
  (m._status = MotionSensor.Status.Idle → m._lastState = false) ∧
  (m._status ≠ MotionSensor.Status.Uninitialized →
    ∃ earlier first quiet, hist = earlier ++ first :: quiet ∧
      (∀ x ∈ first :: quiet, currentSensorState x.2 = m._lastState) ∧
      ((earlier = [] ∧ m._lastEvent._start = 0) ∨
        (∃ e0 q, earlier = e0 ++ [q] ∧ currentSensorState q.2 = !m._lastState ∧
          m._lastEvent._start = first.1)))


/-- The 16 bits of a word, bit 15 first. -/
def bits16 (n : Nat) : List Bool :=
  (List.range 16).map (fun i => n.testBit (15 - i))

/-- The DAC port after power-up, all pins low, and its outputs set to their
initial states; the chip sees chip select rise without a bit clocked in, an
empty word. -/
def dacIdle : DacPort :=
  DacPort.initializePort ⟨false, false, false, false, [], []⟩

/-- One call on a timer. -/
inductive TimerOp where
  | start (delay currentTime : Nat)
  | stop
  | check (currentTime : Nat)
  deriving DecidableEq, Repr

/-- One call on a timer: the timer afterwards, and the value returned if the
call is a check. -/
def Timer.step (t : Timer) : TimerOp → Timer × Option Bool
  | .start delay currentTime => (t.start delay currentTime, none)
  | .stop => (t.stop, none)
  | .check currentTime => ((t.check currentTime).2, some (t.check currentTime).1)

/-- Successive calls on a timer: the timer afterwards, and every call with the
value it returned. -/
def Timer.trace (t : Timer) : List TimerOp → Timer × List (TimerOp × Option Bool)
  | [] => (t, [])
  | op :: ops =>
    let r := t.step op
    let rest := r.1.trace ops
    (rest.1, (op, r.2) :: rest.2)

/-- Specification side: the reference time after some calls, "the time
given to the last start() or the time of the last firing", whichever came
last; the calls are listed latest first. -/
def lastReference : List (TimerOp × Option Bool) → Option Nat
  | [] => none
  | (TimerOp.start _ currentTime, _) :: _ => some currentTime
  | (TimerOp.check currentTime, some true) :: _ => some currentTime
  | _ :: rest => lastReference rest

/-- Specification side: the delay given to the last start; the calls are
listed latest first. -/
def lastDelay : List (TimerOp × Option Bool) → Option Nat
  | [] => none
  | (TimerOp.start delay _, _) :: _ => some delay
  | _ :: rest => lastDelay rest

/-- Specification side: whether the timer is enabled, that is whether
there was a start and no stop after the last start; the calls are listed
latest first. -/
def enabledAfter : List (TimerOp × Option Bool) → Bool
  | [] => false
  | (TimerOp.start _ _, _) :: _ => true
  | (TimerOp.stop, _) :: _ => false
  | _ :: rest => enabledAfter rest

/-- Specification side: whether a check at `currentTime` fires after the
calls listed, latest first: the timer is enabled and `(currentTime - start)
mod 2^32 >= delay`. -/
def firesAfter (calls : List (TimerOp × Option Bool)) (currentTime : Nat) : Prop :=
  enabledAfter calls = true ∧
    ∃ start delay, lastReference calls = some start ∧ lastDelay calls = some delay ∧
      ((currentTime : Int) - (start : Int)) % 4294967296 ≥ (delay : Int)


/-- The arguments of a call on a timer are 32 bit values. -/
def TimerOp.InRange : TimerOp → Prop
  | .start delay currentTime => delay < 4294967296 ∧ currentTime < 4294967296
  | .stop => True
  | .check currentTime => currentTime < 4294967296

/-- What the members of a timer say about the calls made so far, listed latest
first: the flag is the specification's, and while the timer is enabled the
start time and the delay are the specification's reference time and delay. -/
def TimerInv (calls : List (TimerOp × Option Bool)) (t : Timer) : Prop :=
  t._enabled = enabledAfter calls ∧ t._start < 4294967296 ∧
    (t._enabled = true →
      lastReference calls = some t._start ∧ lastDelay calls = some t._delay)

/-! ## Lemmas on the SPI primitives and on `readData` -/

theorem Spi.receiveN_length (n : Nat) (p : Spi) : (Spi.receiveN n p).1.length = n := by
  induction n generalizing p with
  | zero => rfl
  | succ n ih => simp [Spi.receiveN, ih]

theorem Spi.receiveN_append (xs rest : List Nat) (p : Spi) (h : p.miso = xs ++ rest) :
    Spi.receiveN xs.length p = (xs, { p with miso := rest }) := by
  induction xs generalizing p with
  | nil => cases p; simp_all [Spi.receiveN]
  | cons x xs ih =>
    have h2 : (p.receive).2.miso = xs ++ rest := by simp [Spi.receive, h]
    simp [Spi.receiveN, ih _ h2]
    simp [Spi.receive, h]

theorem Spi.receiveN_sent (n : Nat) (p : Spi) : (Spi.receiveN n p).2.sent = p.sent := by
  induction n generalizing p with
  | zero => rfl
  | succ n ih => simp [Spi.receiveN, ih, Spi.receive]

theorem Spi.receiveN_clock (n : Nat) (p : Spi) : (Spi.receiveN n p).2.clock = p.clock := by
  induction n generalizing p with
  | zero => rfl
  | succ n ih => simp [Spi.receiveN, ih, Spi.receive]

theorem Spi.receiveN_miso (n : Nat) (p : Spi) : (Spi.receiveN n p).2.miso = p.miso.drop n := by
  induction n generalizing p with
  | zero => rfl
  | succ n ih => 
    simp [Spi.receiveN, ih, Spi.receive]

theorem readDataCRC_status (s : SDCardState) (n : Nat) (w : List Nat) :
    (readDataCRC s n w).status ≠ Status.StatusReady ∧ (readDataCRC s n w).status ≠ Status.StatusError := by
  simp only [readDataCRC]
  split <;> simp

theorem readDataData_ready (s : SDCardState) (n : Nat) (h : s.blockByteCount < 65536)
    (hr : (readDataData s n).status = Status.StatusReady) :
    (readDataData s n).written.length = n ∧ (readDataData s n).byteCount = n := by
  unfold readDataData at hr ⊢
  simp only [blockSize] at hr ⊢
  split at hr
  · rename_i hlt
    rw [if_pos hlt]
    simp only [Spi.receiveN_length]
    have : min ((512 + 65536 - s.blockByteCount) % 65536) n = n := by
      omega
    exact ⟨this, this⟩
  · exact absurd hr (readDataCRC_status _ _ _).1

theorem readDataData_not_error (s : SDCardState) (n : Nat) :
    (readDataData s n).status ≠ Status.StatusError := by
  simp only [readDataData]
  split
  · simp
  · exact (readDataCRC_status _ _ _).2

theorem readData_ready_full (s : SDCardState) (byteCount : Nat)
    (h : s.blockByteCount < 65536) :
    ((readData s byteCount).status = Status.StatusReady →
      (readData s byteCount).written.length = byteCount ∧
        (readData s byteCount).byteCount = byteCount) ∧
    ((readData s byteCount).status = Status.StatusError →
      (readData s byteCount).written = []) := by
  unfold readData
  split
  · simp only [spiReceive]
    split
    · simp
    · split
      · refine ⟨fun hr => readDataData_ready _ _ h hr, fun he => absurd he (readDataData_not_error _ _)⟩
      · simp
  · exact ⟨fun hr => readDataData_ready _ _ h hr, fun he => absurd he (readDataData_not_error _ _)⟩
  · exact ⟨fun hr => absurd hr (readDataCRC_status _ _ _).1, fun he => absurd he (readDataCRC_status _ _ _).2⟩
  · simp


theorem pollResponse_eq (n : Nat) (s : SDCardState) :
    pollResponse n s = (responseByte n s.spi.miso,
      { s with spi := { s.spi with miso := s.spi.miso.drop (responseLength n s.spi.miso) } }) := by
  induction n generalizing s with
  | zero => simp [pollResponse, responseByte, responseLength, spiReceive, Spi.receive]
  | succ n ih =>
    simp only [pollResponse, responseByte, responseLength]
    by_cases h : (s.spi.miso.headD 0xff) &&& 0x80 ≠ 0
    · have h1 : (spiReceive s).1 &&& 0x80 ≠ 0 := h
      rw [if_pos h1, if_pos h, if_pos h, ih]
      simp [spiReceive, Spi.receive]
    · have h1 : ¬ ((spiReceive s).1 &&& 0x80 ≠ 0) := h
      rw [if_neg h1, if_neg h, if_neg h]
      simp [spiReceive, Spi.receive]

theorem responseLength_le (n : Nat) (l : List Nat) : responseLength n l ≤ n + 1 := by
  induction n generalizing l with
  | zero => simp [responseLength]
  | succ n ih =>
    simp only [responseLength]
    split
    · have := ih l.tail; omega
    · omega

theorem tail6 (l : List Nat) : l.tail.tail.tail.tail.tail.tail = l.drop 6 := by
  rcases l with _|⟨_,_|⟨_,_|⟨_,_|⟨_,_|⟨_,_|⟨_,_⟩⟩⟩⟩⟩⟩ <;> rfl

theorem spiSend6 (s : SDCardState) (a b c d e f : Nat) :
    spiSend (spiSend (spiSend (spiSend (spiSend (spiSend s a) b) c) d) e) f =
      { s with spi := { s.spi with
          miso := s.spi.miso.drop 6
          sent := s.spi.sent ++ [a % 256, b % 256, c % 256, d % 256, e % 256, f % 256] } } := by
  simp [spiSend, Spi.send, tail6]

theorem sendCommand_r1 (s : SDCardState) (c : Command) (argument : Nat)
    (h1 : c.code &&& 0x100 = 0) (h2 : c.code &&& 0x00c0 = 0) (h3 : c ≠ Command.Cmd_GoIdleState)
    (h4 : c ≠ Command.Cmd_SendIfCond) :
    sendCommand s c argument =
      (responseByte 0x10 (s.spi.miso.drop 6), none,
        { s with spi := { s.spi with
            miso := (s.spi.miso.drop 6).drop (responseLength 0x10 (s.spi.miso.drop 6))
            sent := s.spi.sent ++ [((c.code &&& 0x3f) ||| 0x40) % 256, (argument >>> 24) % 256,
              (argument >>> 16) % 256, (argument >>> 8) % 256, argument % 256, 0xff] } }) := by
  unfold sendCommand
  simp only [h1, h2, h3, h4, ne_eq, not_true_eq_false, if_false, spiSend6, pollResponse_eq]

theorem spiReceive_fst (s : SDCardState) : (spiReceive s).1 = s.spi.miso.headD 0xff := rfl

theorem spiReceive_snd (s : SDCardState) :
    (spiReceive s).2 = { s with spi := { s.spi with miso := s.spi.miso.tail } } := rfl

theorem drop_tail (l : List Nat) (n : Nat) : l.tail.drop n = l.drop (n + 1) := by
  cases l <;> simp

theorem startRead_contract : StartReadContract startRead 17 ReadMode.ReadModeSingleBlock := by
  intro s block
  have hc := sendCommand_r1 (spiReceive s).2 Command.Cmd_ReadSingleBlock block (by decide) (by decide)
    (by decide) (by decide)
  simp only [spiReceive_snd, drop_tail, Nat.reduceAdd] at hc
  have hl := responseLength_le 0x10 (s.spi.miso.drop 7)
  have hlen : s.spi.miso.length ≤ s.spi.miso.tail.length + 1 := by
    cases s.spi.miso <;> simp
  by_cases h : s.spi.miso.headD 0xff = 0xff
  · have h' : ¬ ((spiReceive s).1 ≠ 0xff) := by rw [spiReceive_fst]; simpa using h
    simp only [startRead, if_neg h', hc, R1_ReadyState, spiReceive_snd, drop_tail]
    by_cases hr : responseByte 0x10 (s.spi.miso.drop 7) = 0
    · simp only [hr, h, ne_eq, not_true_eq_false, if_false, List.length_drop, List.drop_drop]
      refine ⟨by simp, by simp, fun _ => ⟨?_, by simp, by simp, by simp⟩, by omega⟩
      simp [Command.code, commandFrame]
      try rfl
    · simp only [hr, h, ne_eq, not_true_eq_false, not_false_eq_true, if_true, List.length_drop,
        List.drop_drop]
      refine ⟨by simp, by simp, fun _ => ⟨?_, by simp, by simp, by simp⟩, by omega⟩
      simp [Command.code, commandFrame]
      try rfl
  · have h' : (spiReceive s).1 ≠ 0xff := by rw [spiReceive_fst]; exact h
    simp only [startRead, if_pos h', spiReceive_snd]
    refine ⟨?_, by simp, fun h2 => absurd h2 h, ?_⟩
    · simp only [true_iff]; exact h
    · show s.spi.miso.length ≤ s.spi.miso.tail.length + 24
      omega


theorem startMultiRead_contract : StartReadContract startMultiRead 18 ReadMode.ReadModeMultipleBlocks := by
  intro s block
  have hc := sendCommand_r1 (spiReceive s).2 Command.Cmd_ReadMultiBlock block (by decide) (by decide)
    (by decide) (by decide)
  simp only [spiReceive_snd, drop_tail, Nat.reduceAdd] at hc
  have hl := responseLength_le 0x10 (s.spi.miso.drop 7)
  have hlen : s.spi.miso.length ≤ s.spi.miso.tail.length + 1 := by
    cases s.spi.miso <;> simp
  by_cases h : s.spi.miso.headD 0xff = 0xff
  · have h' : ¬ ((spiReceive s).1 ≠ 0xff) := by rw [spiReceive_fst]; simpa using h
    simp only [startMultiRead, if_neg h', hc, R1_ReadyState, spiReceive_snd, drop_tail]
    by_cases hr : responseByte 0x10 (s.spi.miso.drop 7) = 0
    · simp only [hr, h, ne_eq, not_true_eq_false, if_false, List.length_drop, List.drop_drop]
      refine ⟨by simp, by simp, fun _ => ⟨?_, by simp, by simp, by simp⟩, by omega⟩
      simp [Command.code, commandFrame]
      try rfl
    · simp only [hr, h, ne_eq, not_true_eq_false, not_false_eq_true, if_true, List.length_drop,
        List.drop_drop]
      refine ⟨by simp, by simp, fun _ => ⟨?_, by simp, by simp, by simp⟩, by omega⟩
      simp [Command.code, commandFrame]
      try rfl
  · have h' : (spiReceive s).1 ≠ 0xff := by rw [spiReceive_fst]; exact h
    simp only [startMultiRead, if_pos h', spiReceive_snd]
    refine ⟨?_, by simp, fun h2 => absurd h2 h, ?_⟩
    · simp only [true_iff]; exact h
    · show s.spi.miso.length ≤ s.spi.miso.tail.length + 24
      omega

/-! ## Lemmas on read sessions -/

theorem readData_busy (s : SDCardState) (n : Nat) (m : List Nat)
    (hs : s.blockReadState = ReadState.ReadStateWait) (hm : s.spi.miso = 0xff :: m) :
    readData s n = ⟨Status.StatusWait, n, [], { s with spi := { s.spi with miso := m } }⟩ := by
  simp [readData, hs, spiReceive, Spi.receive, hm]

theorem readData_token (s : SDCardState) (n : Nat) (m : List Nat)
    (hs : s.blockReadState = ReadState.ReadStateWait) (hm : s.spi.miso = 0xfe :: m) :
    readData s n = readData
      { s with spi := { s.spi with miso := m }, blockReadState := ReadState.ReadStateReadData }
      n := by
  simp [readData, hs, spiReceive, Spi.receive, hm, BlockDataStart]

/-- A request that stays inside the block is served in full. -/
theorem readData_inside (s : SDCardState) (n : Nat) (xs rest : List Nat)
    (hs : s.blockReadState = ReadState.ReadStateReadData)
    (hn : s.blockByteCount + n < 512) (hx : xs.length = n) (hm : s.spi.miso = xs ++ rest) :
    readData s n = ⟨Status.StatusReady, n, xs,
      { s with spi := { s.spi with miso := rest }, blockByteCount := s.blockByteCount + n }⟩ := by
  have hmin : min ((512 + 65536 - s.blockByteCount) % 65536) n = n := by omega
  have hmod : (s.blockByteCount + n) % 65536 = s.blockByteCount + n := by omega
  subst hx
  simp only [readData, hs, readDataData, blockSize, hmin, hmod, if_pos hn,
    Spi.receiveN_append xs rest s.spi hm]

/-- A request that reaches the end of the block gets the rest of the payload,
and the two trailer bytes are taken from the bus. -/
theorem readData_last (s : SDCardState) (n : Nat) (xs rest : List Nat) (c1 c2 : Nat)
    (hs : s.blockReadState = ReadState.ReadStateReadData)
    (hc : s.blockByteCount < 512) (hx : xs.length = 512 - s.blockByteCount) (hn : xs.length ≤ n)
    (hm : s.spi.miso = xs ++ c1 :: c2 :: rest) :
    readData s n =
      if s.blockReadMode = ReadMode.ReadModeSingleBlock then
        ⟨Status.StatusEndOfBlock, xs.length, xs,
          { s with spi := { s.spi with miso := rest }, blockByteCount := 0,
                   blockReadState := ReadState.ReadStateEnd }⟩
      else
        ⟨Status.StatusWait, xs.length, xs,
          { s with spi := { s.spi with miso := rest }, blockByteCount := 0,
                   blockReadState := ReadState.ReadStateWait }⟩ := by
  have hmin : min ((512 + 65536 - s.blockByteCount) % 65536) n = xs.length := by omega
  have hmod : ¬ ((s.blockByteCount + xs.length) % 65536 < 512) := by omega
  have h2 : Spi.receiveN 2 { s.spi with miso := c1 :: c2 :: rest } =
      ([c1, c2], { s.spi with miso := rest }) :=
    Spi.receiveN_append [c1, c2] rest _ rfl
  simp only [readData, hs, readDataData, blockSize, hmin, if_neg hmod,
    Spi.receiveN_append xs _ s.spi hm, readDataCRC, spiSkip, h2]

theorem readSession_end (reqs : List Nat) (s : SDCardState)
    (hs : s.blockReadState = ReadState.ReadStateEnd) : readSession reqs s = ⟨[], 0, s⟩ := by
  cases reqs <;> simp [readSession, hs]

theorem readSession_inblock (reqs : List Nat) :
    ∀ (s : SDCardState) (xs rest : List Nat) (c1 c2 : Nat),
      s.blockReadState = ReadState.ReadStateReadData →
      s.blockReadMode = ReadMode.ReadModeSingleBlock →
      s.blockByteCount < 512 → xs.length = 512 - s.blockByteCount →
      xs.length ≤ reqs.sum →
      s.spi.miso = xs ++ c1 :: c2 :: rest →
      readSession reqs s = ⟨xs, xs.length,
        { s with spi := { s.spi with miso := rest }, blockByteCount := 0,
                 blockReadState := ReadState.ReadStateEnd }⟩ := by
  induction reqs with
  | nil =>
    intro s xs rest c1 c2 _ _ hc hx hsum _
    have h0 : ([] : List Nat).sum = 0 := rfl
    omega
  | cons n reqs ih =>
    intro s xs rest c1 c2 hs hmode hc hx hsum hm
    have hne : s.blockReadState ≠ ReadState.ReadStateEnd := by simp [hs]
    by_cases hn : xs.length ≤ n
    · rw [readSession, if_neg hne]
      simp only [readData_last s n xs rest c1 c2 hs hc hx hn hm, hmode, if_true]
      rw [readSession_end _ _ rfl]
      simp
    · have hn' : n < xs.length := by omega
      have hm' : s.spi.miso = xs.take n ++ (xs.drop n ++ c1 :: c2 :: rest) := by
        rw [hm, ← List.append_assoc, List.take_append_drop]
      have hlen : (xs.take n).length = n := by simp; omega
      rw [readSession, if_neg hne]
      simp only [readData_inside s n (xs.take n) _ hs (by omega) hlen hm']
      have hsum' : (n :: reqs).sum = n + reqs.sum := by simp
      have hdl : (xs.drop n).length = xs.length - n := by simp
      have key := ih
        { s with spi := { s.spi with miso := xs.drop n ++ c1 :: c2 :: rest },
                 blockByteCount := s.blockByteCount + n }
        (xs.drop n) rest c1 c2 hs hmode (by show s.blockByteCount + n < 512; omega)
        (by show (xs.drop n).length = 512 - (s.blockByteCount + n); omega)
        (by omega) rfl
      rw [key]
      simp only [hdl, List.take_append_drop, true_or, if_true]
      congr 1
      omega

theorem length_le_sum_of_pos (l : List Nat) (h : ∀ n ∈ l, 0 < n) : l.length ≤ l.sum := by
  induction l with
  | nil => simp
  | cons a l ih =>
    have h1 := h a (by simp)
    have h2 := ih (fun n hn => h n (by simp [hn]))
    simp only [List.length_cons, List.sum_cons]
    omega

theorem readSession_block (k : Nat) :
    ∀ (reqs : List Nat) (s : SDCardState) (payload rest : List Nat) (c1 c2 : Nat),
      s.blockReadState = ReadState.ReadStateWait →
      s.blockReadMode = ReadMode.ReadModeSingleBlock →
      s.blockByteCount = 0 →
      s.spi.miso = List.replicate k 0xff ++ 0xfe :: (payload ++ c1 :: c2 :: rest) →
      payload.length = 512 → k < reqs.length → 512 ≤ (reqs.drop k).sum →
      readSession reqs s = ⟨payload, 512,
        { s with spi := { s.spi with miso := rest }, blockByteCount := 0,
                 blockReadState := ReadState.ReadStateEnd }⟩ := by
  induction k with
  | zero =>
    intro reqs s payload rest c1 c2 hs hmode hc hm hp hk hsum
    cases reqs with
    | nil => simp at hk
    | cons n reqs =>
      have hne : s.blockReadState ≠ ReadState.ReadStateEnd := by simp [hs]
      have hm' : s.spi.miso = 0xfe :: (payload ++ c1 :: c2 :: rest) := by simpa using hm
      have key := readSession_inblock (n :: reqs)
        { s with spi := { s.spi with miso := payload ++ c1 :: c2 :: rest },
                 blockReadState := ReadState.ReadStateReadData }
        payload rest c1 c2 rfl hmode (by show s.blockByteCount < 512; omega)
        (by show payload.length = 512 - s.blockByteCount; omega)
        (by simpa [hp] using hsum) rfl
      rw [readSession, if_neg (by simp)] at key
      rw [readSession, if_neg hne, readData_token s n _ hs hm', key, hp]
  | succ k ih =>
    intro reqs s payload rest c1 c2 hs hmode hc hm hp hk hsum
    cases reqs with
    | nil => simp at hk
    | cons n reqs =>
      have hne : s.blockReadState ≠ ReadState.ReadStateEnd := by simp [hs]
      have hm' : s.spi.miso =
          0xff :: (List.replicate k 0xff ++ 0xfe :: (payload ++ c1 :: c2 :: rest)) := by
        simpa [List.replicate_succ] using hm
      have key := ih reqs
        { s with spi := { s.spi with
            miso := List.replicate k 0xff ++ 0xfe :: (payload ++ c1 :: c2 :: rest) } }
        payload rest c1 c2 hs hmode hc rfl hp (by simpa using hk) (by simpa using hsum)
      rw [readSession, if_neg hne]
      simp only [readData_busy s n _ hs hm', key]
      simp


/-! ## The block read streamer: claims C1, C7, C8, C9, C10 -/

/-- C1: in a single block session over a source that supplies `k` busy bytes
`0xff`, the token `0xfe`, 512 payload bytes and 2 trailer bytes, the bytes that
the successive `readData` calls store into the buffers of the client are
exactly the 512 payload bytes in order, the byte counts reported with
`StatusReady` and `StatusEndOfBlock` add up to 512, the session is Ended and
the bus stands right after the trailer.  The request sizes are arbitrary; the
session comes to its end because one request is left for the token after the
`k` busy calls and the sizes from there on add up to at least 512, which every
sequence of `k + 512` positive sizes does. -/
theorem C1_single_block_session_delivers_payload (k : Nat) (reqs payload rest : List Nat)
    (c1 c2 : Nat) (s : SDCardState)
    (hs : s.blockReadState = ReadState.ReadStateWait)
    (hmode : s.blockReadMode = ReadMode.ReadModeSingleBlock)
    (hc : s.blockByteCount = 0)
    (hm : s.spi.miso = List.replicate k 0xff ++ 0xfe :: (payload ++ c1 :: c2 :: rest))
    (hp : payload.length = 512) (hk : k < reqs.length) (hsum : 512 ≤ (reqs.drop k).sum) :
    (readSession reqs s).bytes = payload ∧
    (readSession reqs s).bytes.length = 512 ∧
    (readSession reqs s).total = 512 ∧
    (readSession reqs s).state.blockReadState = ReadState.ReadStateEnd ∧
    (readSession reqs s).state.spi.miso = rest := by
  rw [readSession_block k reqs s payload rest c1 c2 hs hmode hc hm hp hk hsum]
  exact ⟨rfl, hp, rfl, rfl, rfl⟩

/-- C1, witness: one busy byte, then requests of 5, 500 and 100 bytes. -/
theorem C1_single_block_session_witness :
    (readSession [3, 5, 500, 100] sessionStart).bytes = List.replicate 512 7 ∧
    (readSession [3, 5, 500, 100] sessionStart).bytes.length = 512 ∧
    (readSession [3, 5, 500, 100] sessionStart).total = 512 ∧
    (readSession [3, 5, 500, 100] sessionStart).state.blockReadState = ReadState.ReadStateEnd ∧
    (readSession [3, 5, 500, 100] sessionStart).state.spi.miso = [3] :=
  C1_single_block_session_delivers_payload 1 [3, 5, 500, 100] (List.replicate 512 7) [3] 1 2
    sessionStart rfl rfl rfl rfl (List.length_replicate _ _) (by decide) (by decide)

/-- C1 for positive sizes: every sequence of at least `k + 512` positive
request sizes ends the session with the payload delivered. -/
theorem readSession_positive_sizes (k : Nat) (reqs payload rest : List Nat)
    (c1 c2 : Nat) (s : SDCardState)
    (hs : s.blockReadState = ReadState.ReadStateWait)
    (hmode : s.blockReadMode = ReadMode.ReadModeSingleBlock)
    (hc : s.blockByteCount = 0)
    (hm : s.spi.miso = List.replicate k 0xff ++ 0xfe :: (payload ++ c1 :: c2 :: rest))
    (hp : payload.length = 512) (hpos : ∀ n ∈ reqs, 0 < n) (hlen : k + 512 ≤ reqs.length) :
    (readSession reqs s).bytes = payload ∧
    (readSession reqs s).state.blockReadState = ReadState.ReadStateEnd := by
  have h1 : (reqs.drop k).length ≤ (reqs.drop k).sum :=
    length_le_sum_of_pos _ (fun n hn => hpos n (List.mem_of_mem_drop hn))
  have h2 : (reqs.drop k).length = reqs.length - k := by simp
  rw [readSession_block k reqs s payload rest c1 c2 hs hmode hc hm hp (by omega) (by omega)]
  exact ⟨rfl, rfl⟩

/-- C7, code and claim apart: in a continuous session four bytes before the end of
a block, the call that stores the last four payload bytes and consumes the
trailer returns `StatusWait`, not `StatusEndOfBlock`, the status that the
header of `readData` documents for the end of the block and that the same
call returns in a single block session over the same bus.  The next call
returns `StatusWait` as well, with nothing stored, so that by its status the
call that delivered the last bytes of the block is a call that delivered
none. -/
theorem C7_continuous_boundary_returns_wait :
    (readData boundaryMulti 4).written = [1, 2, 3, 4] ∧
    (readData boundaryMulti 4).state.spi.miso = [0xff] ∧
    (readData boundaryMulti 4).status = Status.StatusWait ∧
    (readData boundaryMulti 4).status ≠ Status.StatusEndOfBlock ∧
    (readData boundaryMulti 4).byteCount = 4 ∧
    (readData (readData boundaryMulti 4).state 4).status = Status.StatusWait ∧
    (readData (readData boundaryMulti 4).state 4).written = [] ∧
    (readData boundarySingle 4).written = [1, 2, 3, 4] ∧
    (readData boundarySingle 4).status = Status.StatusEndOfBlock := by
  decide

/-- The end of a block in general: the `readData` call that consumes the last
payload byte of a block (from inside the block, or starting at the token) also
consumes the 2 trailer bytes and resets the byte counter.  In single mode it returns
`StatusEndOfBlock` and the session is Ended.  In continuous mode it returns
`StatusWait` and the session is Waiting; the next call returns `StatusWait`
again, without storing a byte, when the bus delivers `0xff`. -/
theorem C7_block_boundary (s : SDCardState) (n c1 c2 : Nat) (tok xs rest : List Nat)
    (hstate : (s.blockReadState = ReadState.ReadStateReadData ∧ tok = []) ∨
      (s.blockReadState = ReadState.ReadStateWait ∧ tok = [0xfe]))
    (hc : s.blockByteCount < 512) (hx : xs.length = 512 - s.blockByteCount)
    (hn : xs.length ≤ n) (hm : s.spi.miso = tok ++ (xs ++ c1 :: c2 :: rest)) :
    (readData s n).written = xs ∧
    (readData s n).state.spi.miso = rest ∧
    (readData s n).state.blockByteCount = 0 ∧
    (s.blockReadMode = ReadMode.ReadModeSingleBlock →
      (readData s n).status = Status.StatusEndOfBlock ∧
      (readData s n).state.blockReadState = ReadState.ReadStateEnd) ∧
    (s.blockReadMode = ReadMode.ReadModeMultipleBlocks →
      (readData s n).status = Status.StatusWait ∧
      (readData s n).state.blockReadState = ReadState.ReadStateWait ∧
      ∀ m : Nat, rest.headD 0xff = 0xff →
        (readData (readData s n).state m).status = Status.StatusWait ∧
        (readData (readData s n).state m).written = [] ∧
        (readData (readData s n).state m).state.blockReadState = ReadState.ReadStateWait) := by
  have key : ∀ t : SDCardState, t.blockReadState = ReadState.ReadStateReadData →
      t.blockByteCount = s.blockByteCount → t.blockReadMode = s.blockReadMode →
      t.spi.miso = xs ++ c1 :: c2 :: rest →
      (readData t n).written = xs ∧
      (readData t n).state.spi.miso = rest ∧
      (readData t n).state.blockByteCount = 0 ∧
      (s.blockReadMode = ReadMode.ReadModeSingleBlock →
        (readData t n).status = Status.StatusEndOfBlock ∧
        (readData t n).state.blockReadState = ReadState.ReadStateEnd) ∧
      (s.blockReadMode = ReadMode.ReadModeMultipleBlocks →
        (readData t n).status = Status.StatusWait ∧
        (readData t n).state.blockReadState = ReadState.ReadStateWait ∧
        ∀ m : Nat, rest.headD 0xff = 0xff →
          (readData (readData t n).state m).status = Status.StatusWait ∧
          (readData (readData t n).state m).written = [] ∧
          (readData (readData t n).state m).state.blockReadState = ReadState.ReadStateWait) := by
    intro t ht hcnt hmo hmt
    rw [readData_last t n xs rest c1 c2 ht (by omega) (by omega) hn hmt, hmo]
    cases hmode : s.blockReadMode
    · simp
    · simp only [reduceCtorEq, if_false, false_implies, true_implies, true_and]
      intro m hh
      have hh' : rest.head?.getD 255 = 255 := by simpa using hh
      simp [readData, spiReceive, Spi.receive, hh']
  rcases hstate with ⟨hs, rfl⟩ | ⟨hs, rfl⟩
  · exact key s hs rfl rfl (by simpa using hm)
  · rw [readData_token s n (xs ++ c1 :: c2 :: rest) hs (by simpa using hm)]
    exact key _ rfl rfl rfl rfl

/-- The end of a block in a single block session four bytes before it. -/
theorem C7_block_boundary_witness :
    (readData boundarySingle 4).written = [1, 2, 3, 4] ∧
    (readData boundarySingle 4).state.spi.miso = [0xff] ∧
    (readData boundarySingle 4).state.blockByteCount = 0 ∧
    (boundarySingle.blockReadMode = ReadMode.ReadModeSingleBlock →
      (readData boundarySingle 4).status = Status.StatusEndOfBlock ∧
      (readData boundarySingle 4).state.blockReadState = ReadState.ReadStateEnd) ∧
    (boundarySingle.blockReadMode = ReadMode.ReadModeMultipleBlocks →
      (readData boundarySingle 4).status = Status.StatusWait ∧
      (readData boundarySingle 4).state.blockReadState = ReadState.ReadStateWait ∧
      ∀ m : Nat, [0xff].headD 0xff = 0xff →
        (readData (readData boundarySingle 4).state m).status = Status.StatusWait ∧
        (readData (readData boundarySingle 4).state m).written = [] ∧
        (readData (readData boundarySingle 4).state m).state.blockReadState =
          ReadState.ReadStateWait) :=
  C7_block_boundary boundarySingle 4 9 9 [] [1, 2, 3, 4] [0xff] (Or.inl ⟨rfl, rfl⟩)
    (by decide) (by decide) (by decide) (by decide)

/-- C8, as the claim states it, fails for a request of zero bytes, the request
that `readDirectory` makes for a name of length zero: inside the block
`readData` returns `StatusReady` and reports zero bytes. -/
theorem C8_ready_with_zero_bytes :
    (readData insideBlock 0).status = Status.StatusReady ∧
    (readData insideBlock 0).byteCount = 0 ∧
    (readData insideBlock 0).written = [] := by
  decide

/-- C8, amended: for every session state, every bus input and every request
of at least one byte, when `readData` returns `StatusReady` the reported byte
count is greater than zero, and that many bytes were stored. -/
theorem C8_ready_reports_bytes (s : SDCardState) (byteCount : Nat)
    (hc : s.blockByteCount < 65536) (hn : 0 < byteCount)
    (hr : (readData s byteCount).status = Status.StatusReady) :
    0 < (readData s byteCount).byteCount ∧
    (readData s byteCount).written.length = (readData s byteCount).byteCount := by
  have h := (readData_ready_full s byteCount hc).1 hr
  omega

/-- C8, witness: a request of two bytes inside the block. -/
theorem C8_ready_reports_bytes_witness :
    0 < (readData insideBlock 2).byteCount ∧
    (readData insideBlock 2).written.length = (readData insideBlock 2).byteCount :=
  C8_ready_reports_bytes insideBlock 2 (by decide) (by decide) (by decide)

/-- C9: there is no partial success in `readData`.  Whenever it returns
`StatusReady`, the number of bytes stored and the reported byte count equal
the number requested; whenever it returns `StatusError`, no byte was stored.
The byte counter is a `uint16_t`. -/
theorem C9_no_partial_success (s : SDCardState) (byteCount : Nat)
    (hc : s.blockByteCount < 65536) :
    ((readData s byteCount).status = Status.StatusReady →
      (readData s byteCount).written.length = byteCount ∧
        (readData s byteCount).byteCount = byteCount) ∧
    ((readData s byteCount).status = Status.StatusError →
      (readData s byteCount).written = []) :=
  readData_ready_full s byteCount hc

/-- C9, witness: a request of two bytes inside the block. -/
theorem C9_no_partial_success_witness :
    ((readData insideBlock 2).status = Status.StatusReady →
      (readData insideBlock 2).written.length = 2 ∧ (readData insideBlock 2).byteCount = 2) ∧
    ((readData insideBlock 2).status = Status.StatusError →
      (readData insideBlock 2).written = []) :=
  C9_no_partial_success insideBlock 2 (by decide)

/-- C10: `startRead` and `startMultiRead` obey the same status contract,
with command index 17 and single mode, resp. index 18 and continuous mode.
They return `StatusWait` exactly when the first byte received is not `0xff`,
and then nothing is sent and only that byte is taken from the bus.  Otherwise
the frame of the read command with the block number is sent; the result is
`StatusError` with `Error_ReadSingleBlockFailed` and an unchanged session
exactly when the response byte is not `0x00`, and otherwise `StatusReady`
with the session Waiting, byte counter 0 and the mode of the function.  No
call makes more than 24 transfers. -/
theorem C10_start_contract :
    StartReadContract startRead 17 ReadMode.ReadModeSingleBlock ∧
    StartReadContract startMultiRead 18 ReadMode.ReadModeMultipleBlocks :=
  ⟨startRead_contract, startMultiRead_contract⟩
/-! ## The player: output stage operations and the ring buffer bounds (C5, C6) -/

theorem mainStep_bufferInv {σ : Type} (rd : σ → Fast4Result σ) (sampleCount : Nat)
    (l : LoopState σ) (h : BufferInv l) : BufferInv (mainStep rd sampleCount l).1 := by
  obtain ⟨h1, h2⟩ := h
  unfold mainStep mainRefill
  simp only [bufferSize]
  split_ifs <;> refine ⟨?_, ?_⟩ <;> (try simp only [] at *) <;>
    first
    | omega
    | exact h2
    | (intro t ht
       simp only [List.mem_append, List.mem_singleton] at ht
       rcases ht with ht | rfl
       · exact h2 t ht
       · simp only []; omega)

theorem mainLoop_bufferInv {σ : Type} (rd : σ → Fast4Result σ) (sampleCount fuel : Nat)
    (l : LoopState σ) (h : BufferInv l) : BufferInv (mainLoop rd sampleCount fuel l).1 := by
  induction fuel generalizing l with
  | zero => exact h
  | succ fuel ih =>
    rw [mainLoop]
    have hs := mainStep_bufferInv rd sampleCount l h
    cases hr : (mainStep rd sampleCount l).2 with
    | some e => simpa [hr] using hs
    | none => simpa [hr] using ih _ hs


theorem shutdownCount_append (a b : List Event) :
    shutdownCount (a ++ b) = shutdownCount a + shutdownCount b := by
  simp [shutdownCount]

theorem shutdownCount_fadeIn (fuel v : Nat) : shutdownCount (fadeIn fuel v) = 0 := by
  induction fuel generalizing v with
  | zero => rfl
  | succ fuel ih =>
    rw [fadeIn]
    split
    · simp only [shutdownCount] at ih ⊢
      simp [ih]
    · rfl

theorem shutdownCount_fadeOut (fuel v : Nat) : shutdownCount (fadeOut fuel v) = 0 := by
  induction fuel generalizing v with
  | zero => rfl
  | succ fuel ih =>
    rw [fadeOut]
    split
    · simp only [shutdownCount] at ih ⊢
      simp [ih]
    · rfl

theorem mainStep_shutdownCount {σ : Type} (rd : σ → Fast4Result σ) (sampleCount : Nat)
    (l : LoopState σ) : shutdownCount (mainStep rd sampleCount l).1.dac = shutdownCount l.dac := by
  unfold mainStep mainRefill
  simp only []
  split_ifs <;> simp [shutdownCount]

theorem mainLoop_shutdownCount {σ : Type} (rd : σ → Fast4Result σ) (sampleCount fuel : Nat)
    (l : LoopState σ) :
    shutdownCount (mainLoop rd sampleCount fuel l).1.dac = shutdownCount l.dac := by
  induction fuel generalizing l with
  | zero => rfl
  | succ fuel ih =>
    rw [mainLoop]
    have hs := mainStep_shutdownCount rd sampleCount l
    cases hr : (mainStep rd sampleCount l).2 with
    | some e => simpa [hr] using hs
    | none => simp only [hr]; rw [ih, hs]

theorem fadeIn_ne_nil : fadeIn 0x800 0 ≠ [] := by
  show fadeIn (2047 + 1) 0 ≠ []
  rw [fadeIn]
  simp

/-- C5, as the claim states it, fails on the pre-fill path: the read session is
opened, the first `readFast4` of the pre-fill reports an error, and `play`
returns false without any call of `shutdown`. -/
theorem C5_prefill_error_skips_shutdown :
    (startMultiReadLoop 10 prefillFails 100).1 = some Status.StatusReady ∧
    (play 10 prefillFails 100 1024).outcome = some false ∧
    shutdownCount (play 10 prefillFails 100 1024).trace = 0 := by
  decide

/-- C5, amended: when `play` returns true, and when it returns false after
the output stage has been used (a streamer error in a top-up of the main
loop), `shutdown` is called exactly once, as the last operation on the output
stage.  When the pre-fill ends with a streamer error, `play` returns false
without any operation on the output stage, which it has not enabled yet. -/
theorem C5_shutdown_once (fuel : Nat) (sd : SDCardState) (startBlock sampleCount : Nat) :
    (((play fuel sd startBlock sampleCount).outcome = some true ∨
        ((play fuel sd startBlock sampleCount).outcome = some false ∧
          (play fuel sd startBlock sampleCount).fadeIn ≠ [])) →
      shutdownCount (play fuel sd startBlock sampleCount).trace = 1 ∧
      (play fuel sd startBlock sampleCount).trace.getLast? = some Event.shutdown) ∧
    (((startMultiReadLoop fuel sd startBlock).1 = some Status.StatusReady ∧
        (prefill readFast4 fuel 0 (fun _ => 0) (startMultiReadLoop fuel sd startBlock).2).1 =
          PrefillExit.readError) →
      (play fuel sd startBlock sampleCount).outcome = some false ∧
      (play fuel sd startBlock sampleCount).trace = []) := by
  unfold play
  simp only []
  cases hst : (startMultiReadLoop fuel sd startBlock).1 with
  | none => simp [PlayResult.trace]
  | some status =>
    simp only []
    by_cases hstatus : status = Status.StatusReady
    · subst hstatus
      simp only [ne_eq, not_true_eq_false, if_false]
      rcases hp : prefill readFast4 fuel 0 (fun _ => 0) (startMultiReadLoop fuel sd startBlock).2
        with ⟨e, buffer, s1⟩
      cases e with
      | running => simp [PlayResult.trace]
      | readError => simp [PlayResult.trace]
      | full =>
        simp only []
        have hm := mainLoop_shutdownCount readFast4 sampleCount fuel ⟨0, 0x100, buffer, s1, [], []⟩
        have hm0 : shutdownCount ([] : List Event) = 0 := rfl
        cases hml : (mainLoop readFast4 sampleCount fuel ⟨0, 0x100, buffer, s1, [], []⟩).2 with
        | none => simp [PlayResult.trace]
        | some e =>
          cases e with
          | readError =>
            simp only [PlayResult.trace, shutdownCount_append, hm, shutdownCount_fadeIn]
            simp [shutdownCount]
          | done =>
            simp only []
            cases hsr : stopRead fuel
              (mainLoop readFast4 sampleCount fuel ⟨0, 0x100, buffer, s1, [], []⟩).1.streamer with
            | none => simp [PlayResult.trace]
            | some r =>
              simp only [PlayResult.trace, shutdownCount_append, hm, shutdownCount_fadeIn,
                shutdownCount_fadeOut]
              simp [shutdownCount, ← List.append_assoc]
    · simp [hstatus, PlayResult.trace]


/-- C6: ring buffer invariant.  For every streamer `rd`, that is for every
sequence of results `StatusReady`, `StatusWait`, `StatusError` it may give,
and after any number of turns of the main loop started as `play` starts it, the
buffered sample count is in [0, 256], and `readFast4` has been called for a
top-up only with a free space `256 - bufferedSamples` strictly greater than
the reserved margin 4. -/
theorem C6_ring_buffer_invariant {σ : Type} (rd : σ → Fast4Result σ)
    (sampleCount fuel : Nat) (buffer : Nat → Nat) (s : σ) :
    (mainLoop rd sampleCount fuel ⟨0, 0x100, buffer, s, [], []⟩).1.bufferedSamples ≤ 256 ∧
    ∀ t ∈ (mainLoop rd sampleCount fuel ⟨0, 0x100, buffer, s, [], []⟩).1.topUps,
      4 < 256 - t.bufferedSamples ∧ t.bufferedSamples ≤ 256 :=
  mainLoop_bufferInv rd sampleCount fuel ⟨0, 0x100, buffer, s, [], []⟩
    ⟨Nat.le_refl 256, fun t ht => by simp at ht⟩
/-! ## The directory reader (C3) -/

theorem lor_shiftLeft (x b i : Nat) (hx : x < 2 ^ i) : x ||| (b <<< i) = 2 ^ i * b + x := by
  rw [Nat.lor_comm, Nat.shiftLeft_eq, Nat.mul_comm, ← Nat.mul_add_lt_is_or hx]

theorem le32_decode (b0 b1 b2 b3 : Nat) (h0 : b0 < 256) (h1 : b1 < 256) (h2 : b2 < 256) :
    (((0 ||| b0) ||| (b1 <<< 8)) ||| (b2 <<< 16)) ||| (b3 <<< 24) =
      b0 + 256 * b1 + 65536 * b2 + 16777216 * b3 := by
  rw [Nat.zero_or, lor_shiftLeft b0 b1 8 (by omega), lor_shiftLeft _ b2 16 (by omega),
    lor_shiftLeft _ b3 24 (by omega)]
  omega

theorem getLittleEndianUInt32_le32 (v : Nat) (rest : List Nat) (hv : v < 4294967296) :
    getLittleEndianUInt32 (le32 v ++ rest) = v := by
  simp only [getLittleEndianUInt32, le32, List.cons_append, List.nil_append, List.getD_cons_zero,
    List.getD_cons_succ]
  rw [le32_decode _ _ _ _ (Nat.mod_lt _ (by decide)) (Nat.mod_lt _ (by decide))
    (Nat.mod_lt _ (by decide))]
  omega

theorem response_accept (n : Nat) (wait rest : List Nat) (hw : ∀ b ∈ wait, b &&& 0x80 ≠ 0)
    (hl : wait.length ≤ n) :
    responseByte n (wait ++ 0 :: rest) = 0 ∧
      responseLength n (wait ++ 0 :: rest) = wait.length + 1 := by
  induction wait generalizing n with
  | nil => cases n <;> simp [responseByte, responseLength]
  | cons b wait ih =>
    cases n with
    | zero => simp at hl
    | succ n =>
      have hb : b &&& 0x80 ≠ 0 := hw b (by simp)
      have := ih n (fun c hc => hw c (by simp [hc])) (by simpa using hl)
      simp only [responseByte, responseLength, List.cons_append, List.headD_cons, List.tail_cons,
        hb, ne_eq, not_false_eq_true, if_true, this, List.length_cons]
      trivial

theorem startRead_eq (s : SDCardState) (block : Nat) :
    startRead s block =
      if s.spi.miso.headD 0xff ≠ 0xff then
        (Status.StatusWait, { s with spi := { s.spi with miso := s.spi.miso.tail } })
      else if responseByte 0x10 (s.spi.miso.drop 7) ≠ 0 then
        (Status.StatusError,
          { s with
            error := Error.Error_ReadSingleBlockFailed
            spi := { s.spi with
              miso := (s.spi.miso.drop 7).drop (responseLength 0x10 (s.spi.miso.drop 7))
              sent := s.spi.sent ++ commandFrame 17 block 0xff } })
      else
        (Status.StatusReady,
          { s with
            blockByteCount := 0
            blockReadState := ReadState.ReadStateWait
            blockReadMode := ReadMode.ReadModeSingleBlock
            spi := { s.spi with
              miso := (s.spi.miso.drop 7).drop (responseLength 0x10 (s.spi.miso.drop 7))
              sent := s.spi.sent ++ commandFrame 17 block 0xff } }) := by
  have hc := sendCommand_r1 (spiReceive s).2 Command.Cmd_ReadSingleBlock block (by decide)
    (by decide) (by decide) (by decide)
  simp only [spiReceive_snd, drop_tail, Nat.reduceAdd] at hc
  have hf : (Command.Cmd_ReadSingleBlock.code &&& 63 ||| 64) % 256 = 0x40 ||| 17 := by decide
  simp only [startRead, spiReceive_fst, spiReceive_snd, hc, R1_ReadyState, hf, commandFrame]

theorem synchronousStartRead_accept (busy : List Nat) :
    ∀ (fuel : Nat) (s : SDCardState) (block : Nat) (echo wait rest : List Nat),
      TranscriptOk busy echo wait → s.spi.miso = startTranscript busy echo wait ++ rest →
      busy.length < fuel →
      synchronousStartRead fuel s block = some (Status.StatusReady,
        { s with
          blockByteCount := 0
          blockReadState := ReadState.ReadStateWait
          blockReadMode := ReadMode.ReadModeSingleBlock
          spi := { s.spi with miso := rest, sent := s.spi.sent ++ commandFrame 17 block 0xff } }) := by
  induction busy with
  | nil =>
    intro fuel s block echo wait rest hok hm hf
    obtain ⟨_, he, hw, hwl⟩ := hok
    cases fuel with
    | zero => simp at hf
    | succ fuel =>
      have hm' : s.spi.miso = 0xff :: (echo ++ (wait ++ 0 :: rest)) := by
        simpa [startTranscript] using hm
      have hd : s.spi.miso.drop 7 = wait ++ 0 :: rest := by
        rw [hm']
        simp only [List.drop_succ_cons]
        rw [← he, List.drop_left]
      have hr := response_accept 0x10 wait rest hw hwl
      have hh : s.spi.miso.headD 0xff = 0xff := by rw [hm']; rfl
      have hdr : List.drop (wait.length + 1) (wait ++ 0 :: rest) = rest := by
        rw [List.drop_append]; simp
      rw [synchronousStartRead, startRead_eq, hd, hh]
      simp [hr.1, hr.2, hdr]
  | cons b busy ih =>
    intro fuel s block echo wait rest hok hm hf
    obtain ⟨hb, he, hw, hwl⟩ := hok
    cases fuel with
    | zero => simp at hf
    | succ fuel =>
      have hm' : s.spi.miso = b :: (startTranscript busy echo wait ++ rest) := by
        simpa [startTranscript] using hm
      have hb' : b ≠ 0xff := hb b (by simp)
      have key := ih fuel { s with spi := { s.spi with miso := startTranscript busy echo wait ++ rest } }
        block echo wait rest ⟨fun c hc => hb c (by simp [hc]), he, hw, hwl⟩ rfl
        (by simpa using hf)
      have hh : s.spi.miso.headD 0xff = b := by rw [hm']; rfl
      have ht : s.spi.miso.tail = startTranscript busy echo wait ++ rest := by rw [hm']; rfl
      rw [synchronousStartRead, startRead_eq, hh, ht]
      simp only [ne_eq, hb', not_false_eq_true, if_true]
      exact key

theorem store_nil (buffer : List Nat) : store buffer [] = buffer := by
  simp [store]

theorem store_full (buffer written : List Nat) (h : buffer.length ≤ written.length) :
    store buffer written = written := by
  simp [store, List.drop_of_length_le h]

theorem readData_token_inside (s : SDCardState) (n : Nat) (xs rest : List Nat)
    (hs : s.blockReadState = ReadState.ReadStateWait) (hc : s.blockByteCount + n < 512)
    (hx : xs.length = n) (hm : s.spi.miso = 0xfe :: (xs ++ rest)) :
    readData s n = ⟨Status.StatusReady, n, xs,
      { s with
        spi := { s.spi with miso := rest }
        blockByteCount := s.blockByteCount + n
        blockReadState := ReadState.ReadStateReadData }⟩ := by
  rw [readData_token s n _ hs hm]
  exact readData_inside
    { s with spi := { s.spi with miso := xs ++ rest }, blockReadState := ReadState.ReadStateReadData }
    n xs rest rfl hc hx rfl

theorem synchronousReadData_first (k : Nat) :
    ∀ (fuel : Nat) (s : SDCardState) (buffer xs rest : List Nat) (n : Nat),
      s.blockReadState = ReadState.ReadStateWait → s.blockByteCount + n < 512 →
      s.spi.miso = List.replicate k 0xff ++ 0xfe :: (xs ++ rest) → xs.length = n → k < fuel →
      synchronousReadData fuel s buffer n = some ⟨Status.StatusReady, n, store buffer xs,
        { s with
          spi := { s.spi with miso := rest }
          blockByteCount := s.blockByteCount + n
          blockReadState := ReadState.ReadStateReadData }⟩ := by
  induction k with
  | zero =>
    intro fuel s buffer xs rest n hs hc hm hx hf
    cases fuel with
    | zero => simp at hf
    | succ fuel =>
      have hm' : s.spi.miso = 0xfe :: (xs ++ rest) := by simpa using hm
      rw [synchronousReadData, readData_token_inside s n xs rest hs hc hx hm']
      simp
  | succ k ih =>
    intro fuel s buffer xs rest n hs hc hm hx hf
    cases fuel with
    | zero => simp at hf
    | succ fuel =>
      have hm' : s.spi.miso = 0xff :: (List.replicate k 0xff ++ 0xfe :: (xs ++ rest)) := by
        simpa [List.replicate_succ] using hm
      have key := ih fuel
        { s with spi := { s.spi with miso := List.replicate k 0xff ++ 0xfe :: (xs ++ rest) } }
        buffer xs rest n hs hc rfl hx (by omega)
      rw [synchronousReadData, readData_busy s n _ hs hm']
      simp only [if_true, store_nil]
      exact key

theorem readData_directoryEntry (s : SDCardState) (n : Nat) :
    (readData s n).state.directoryEntry = s.directoryEntry := by
  simp only [readData, readDataData, readDataCRC, spiReceive, spiSkip]
  split <;> (try split_ifs) <;> rfl

theorem Spi.receiveN_zeros (m : Nat) (p : Spi) (rest : List Nat)
    (hm : p.miso = 0 :: 0 :: 0 :: 0 :: rest) (h4 : 4 ≤ m) :
    ∃ w, (Spi.receiveN m p).1 = 0 :: 0 :: 0 :: 0 :: w := by
  obtain ⟨j, rfl⟩ : ∃ j, m = j + 1 + 1 + 1 + 1 := ⟨m - 4, by omega⟩
  simp [Spi.receiveN, Spi.receive, hm]

/-- The record read that meets the terminator: no error, and the start block
read is 0. -/
theorem readData_terminator (s : SDCardState) (buffer rest : List Nat)
    (hs : s.blockReadState = ReadState.ReadStateReadData) (hc : s.blockByteCount + 4 ≤ 512)
    (hm : s.spi.miso = le32 0 ++ rest) :
    (readData s 9).status ≠ Status.StatusError ∧
      getLittleEndianUInt32 (store buffer (readData s 9).written) = 0 := by
  have hne : (readData s 9).status ≠ Status.StatusError := by
    rw [readData]; simp only [hs]; exact readDataData_not_error _ _
  refine ⟨hne, ?_⟩
  have hmin : 4 ≤ min ((512 + 65536 - s.blockByteCount) % 65536) 9 := by omega
  obtain ⟨w, hw⟩ := Spi.receiveN_zeros _ s.spi rest (by simpa [le32] using hm) hmin
  have hwr : (readData s 9).written = 0 :: 0 :: 0 :: 0 :: w := by
    rw [readData]
    simp only [hs, readDataData, readDataCRC, blockSize]
    split_ifs <;> exact hw
  rw [hwr]
  simp [getLittleEndianUInt32, store]

theorem le32_length (v : Nat) : (le32 v).length = 4 := rfl

theorem encodeRecord_length (r : Record) : (encodeRecord r).length = 9 + r.name.length := by
  simp [encodeRecord, le32_length]; omega

theorem readDirectoryLoop_records (records : List Record) :
    ∀ (fuel : Nat) (s : SDCardState) (buffer : List Nat) (lastEntry : Bool) (rest : List Nat),
      s.blockReadState = ReadState.ReadStateReadData →
      s.spi.miso = encodeRecords records ++ (le32 0 ++ rest) →
      s.blockByteCount + (encodeRecords records).length + 4 ≤ 512 →
      (∀ r ∈ records, r.WellFormed) → buffer.length = 9 →
      (lastEntry = false → s.directoryEntry = []) → records.length < fuel →
      ∃ s', readDirectoryLoop fuel s buffer lastEntry = some (Status.StatusReady, s') ∧
        s'.directoryEntry = s.directoryEntry ++ records.map Record.entry := by
  induction records with
  | nil =>
    intro fuel s buffer lastEntry rest hs hm hc _ _ _ hf
    cases fuel with
    | zero => simp at hf
    | succ fuel =>
      have ht := readData_terminator s buffer rest hs (by simpa [encodeRecords] using hc)
        (by simpa [encodeRecords] using hm)
      refine ⟨(readData s 9).state, ?_, ?_⟩
      · rw [readDirectoryLoop]
        simp only [ht.1, if_false, ht.2, gt_iff_lt, Nat.lt_irrefl]
      · simp [readData_directoryEntry]
  | cons r records ih =>
    intro fuel s buffer lastEntry rest hs hm hc hwf hb hlast hf
    cases fuel with
    | zero => simp at hf
    | succ fuel =>
      obtain ⟨hsb, hsb32, hlen32, hnl, _⟩ := hwf r (by simp)
      have hel := encodeRecord_length r
      have hc' : s.blockByteCount + (9 + r.name.length) + (encodeRecords records).length + 4
          ≤ 512 := by
        simp only [encodeRecords, List.length_append, hel] at hc; omega
      -- the header
      have hm1 : s.spi.miso = (le32 r.startBlock ++ (le32 r.byteLength ++ [r.name.length])) ++
          (r.name ++ (encodeRecords records ++ (le32 0 ++ rest))) := by
        rw [hm]; simp [encodeRecords, encodeRecord]
      have h1 := readData_inside s 9 _ _ hs (by omega) (by simp [le32_length]) hm1
      have hst : store buffer (le32 r.startBlock ++ (le32 r.byteLength ++ [r.name.length])) =
          le32 r.startBlock ++ (le32 r.byteLength ++ [r.name.length]) :=
        store_full _ _ (by simp [le32_length, hb])
      have hsb' : getLittleEndianUInt32
          (le32 r.startBlock ++ (le32 r.byteLength ++ [r.name.length])) = r.startBlock :=
        getLittleEndianUInt32_le32 _ _ hsb32
      have hfs : getLittleEndianUInt32
          ((le32 r.startBlock ++ (le32 r.byteLength ++ [r.name.length])).drop 4) =
            r.byteLength := by
        rw [← le32_length r.startBlock, List.drop_left]
        exact getLittleEndianUInt32_le32 _ _ hlen32
      have hsl : (le32 r.startBlock ++ (le32 r.byteLength ++ [r.name.length])).getD 8 0 =
          r.name.length := by
        simp [le32]
      -- the name
      have h2 := readData_inside
        { s with
          spi := { s.spi with miso := r.name ++ (encodeRecords records ++ (le32 0 ++ rest)) }
          blockByteCount := s.blockByteCount + 9 }
        r.name.length r.name (encodeRecords records ++ (le32 0 ++ rest)) hs
        (by show s.blockByteCount + 9 + r.name.length < 512; omega) rfl rfl
      have hname : store (List.replicate r.name.length 0) r.name = r.name :=
        store_full _ _ (by simp)
      obtain ⟨s', hs', hd'⟩ := ih fuel
        { s with
          spi := { s.spi with miso := encodeRecords records ++ (le32 0 ++ rest) }
          blockByteCount := s.blockByteCount + 9 + r.name.length
          directoryEntry := s.directoryEntry ++ [r.entry] }
        (le32 r.startBlock ++ (le32 r.byteLength ++ [r.name.length])) true rest hs rfl
        (by show s.blockByteCount + 9 + r.name.length + (encodeRecords records).length + 4 ≤ 512
            omega)
        (fun q hq => hwf q (by simp [hq])) (by simp [le32_length]) (by simp)
        (by simpa using hf)
      refine ⟨s', ?_, ?_⟩
      · rw [readDirectoryLoop]
        simp only [h1, reduceCtorEq, if_false, hst, hsb', hfs, hsl, gt_iff_lt, hsb, if_true, h2,
          hname]
        cases lastEntry
        · have h0 := hlast rfl
          rw [h0] at hs'
          simpa [Record.entry] using hs'
        · simpa [Record.entry] using hs'
      · rw [hd']; simp

theorem cstr_of_no_nul (l : List Nat) (h : ∀ b ∈ l, b ≠ 0) : cstr l = l := by
  rw [cstr, List.takeWhile_eq_self_iff]
  intro b hb
  simpa using h b hb

/-- C3: for every block 0 that holds the tag HCDI, `n` well formed records and
the start block 0 of a terminator within its 512 bytes, delivered without
error (the read command for block 0 is accepted after any busy bytes, the
data token follows after `k` busy bytes), `readDirectory` returns
`StatusReady` and the directory list, empty before, holds exactly the `n`
entries of the records in their order on the media, with start block, file
size and file name of each record; the terminator is not appended. -/
theorem C3_readDirectory_round_trip (fuel k : Nat) (busy echo wait rest : List Nat)
    (records : List Record) (s : SDCardState)
    (hok : TranscriptOk busy echo wait)
    (hm : s.spi.miso = startTranscript busy echo wait ++
      (List.replicate k 0xff ++ 0xfe :: (encodeDirectory records ++ rest)))
    (hfit : (encodeDirectory records).length ≤ 512)
    (hwf : ∀ r ∈ records, r.WellFormed)
    (hempty : s.directoryEntry = [])
    (hfuel : busy.length + k + records.length < fuel) :
    ∃ s', readDirectory fuel s = some (Status.StatusReady, s') ∧
      s'.directoryEntry = records.map Record.entry ∧
      s'.directoryEntry.length = records.length ∧
      ∀ e ∈ s'.directoryEntry, cstr e.fileName = e.fileName := by
  have h1 := synchronousStartRead_accept busy fuel s 0 echo wait _ hok hm (by omega)
  have hfit' : 4 + (encodeRecords records).length + 4 ≤ 512 := by
    have : (encodeDirectory records).length = 4 + (encodeRecords records).length + 4 := by
      simp [encodeDirectory, magic, le32_length]; omega
    omega
  have h2 := synchronousReadData_first k fuel
    { s with
      blockByteCount := 0
      blockReadState := ReadState.ReadStateWait
      blockReadMode := ReadMode.ReadModeSingleBlock
      spi := { s.spi with
        miso := List.replicate k 0xff ++ 0xfe :: (encodeDirectory records ++ rest)
        sent := s.spi.sent ++ commandFrame 17 0 0xff } }
    (List.replicate 9 0xaa) magic (encodeRecords records ++ (le32 0 ++ rest)) 4 rfl
    (by show 0 + 4 < 512; omega) (by simp [encodeDirectory]) rfl (by omega)
  obtain ⟨s', hs', hd'⟩ := readDirectoryLoop_records records fuel
    { s with
      blockByteCount := 0 + 4
      blockReadState := ReadState.ReadStateReadData
      blockReadMode := ReadMode.ReadModeSingleBlock
      spi := { s.spi with
        miso := encodeRecords records ++ (le32 0 ++ rest)
        sent := s.spi.sent ++ commandFrame 17 0 0xff } }
    (store (List.replicate 9 0xaa) magic) false rest rfl rfl
    (by show 0 + 4 + (encodeRecords records).length + 4 ≤ 512; omega) hwf (by decide)
    (fun _ => hempty) (by omega)
  refine ⟨s', ?_, ?_, ?_, ?_⟩
  · rw [readDirectory, h1]
    simp only [reduceCtorEq, if_false, h2]
    have hmg : (store (List.replicate 9 0xaa) magic).take 4 = magic := by decide
    simp only [hmg, ne_eq, not_true_eq_false, if_false]
    exact hs'
  · rw [hd', hempty]; simp
  · rw [hd', hempty]; simp
  · intro e he
    rw [hd', hempty] at he
    simp only [List.nil_append, List.mem_map] at he
    obtain ⟨r, hr, rfl⟩ := he
    exact cstr_of_no_nul _ (hwf r hr).2.2.2.2

/-- C3, witness: the directory HCDI, (100, 2048, A.RAW), (200, 4096, B.RAW),
terminator. -/
theorem C3_readDirectory_example :
    ∃ s', readDirectory 5 exampleCard = some (Status.StatusReady, s') ∧
      s'.directoryEntry = exampleRecords.map Record.entry ∧
      s'.directoryEntry.length = exampleRecords.length ∧
      ∀ e ∈ s'.directoryEntry, cstr e.fileName = e.fileName :=
  C3_readDirectory_round_trip 5 1 [0x00] [0xff, 0xff, 0xff, 0xff, 0xff, 0xff] [0xff, 0xff]
    [0, 0, 0, 0, 0, 7] exampleRecords exampleCard
    (by simp [TranscriptOk]) rfl (by decide)
    (by simp [exampleRecords, Record.WellFormed]) rfl (by decide)

/-- The example directory evaluated: exactly the two entries, in order. -/
theorem readDirectory_example_entries :
    (readDirectory 5 exampleCard).map (fun r => (r.1, r.2.directoryEntry)) =
      some (Status.StatusReady,
        [⟨100, 2048, [0x41, 0x2e, 0x52, 0x41, 0x57]⟩, ⟨200, 4096, [0x42, 0x2e, 0x52, 0x41, 0x57]⟩]) := by
  decide

/-! ## The player: the ring buffer delivers the samples in order -/

theorem and_mask (x : Nat) : x &&& sampleBufferMask = x % 256 := by
  have := Nat.and_pow_two_sub_one_eq_mod x 8
  simpa [sampleBufferMask] using this

theorem drop_eq_cons2 (D : List Nat) (p x y : Nat) (t : List Nat) (h : D.drop p = x :: y :: t) :
    D.getD p 0 = x ∧ D.getD (p + 1) 0 = y ∧ D.drop (p + 2) = t ∧ p + 2 ≤ D.length := by
  induction p generalizing D with
  | zero =>
    simp only [List.drop_zero] at h
    subst h
    simp
  | succ p ih =>
    cases D with
    | nil => simp at h
    | cons a D =>
      simp only [List.drop_succ_cons] at h
      obtain ⟨h1, h2, h3, h4⟩ := ih D h
      refine ⟨by simpa using h1, by simpa using h2, by simpa using h3, ?_⟩
      simp only [List.length_cons]
      omega

theorem drop_eq_nil_length (D : List Nat) (p : Nat) (h : D.drop p = []) : D.length ≤ p := by
  simpa using h

theorem setValues_append (a b : List Event) : setValues (a ++ b) = setValues a ++ setValues b := by
  induction a with
  | nil => rfl
  | cons x a ih => cases x <;> simp [setValues, ih]

theorem storeFast4_nil (buffer : Nat → Nat) (pos : Nat) : storeFast4 buffer pos [] = buffer := rfl

theorem mainRefill_full {σ : Type} (rd : σ → Fast4Result σ) (l : LoopState σ)
    (h : ¬ l.bufferedSamples < 252) : mainRefill rd l = (l, none) := by
  simp [mainRefill, bufferSize, h]

theorem mainRefill_inv {σ : Type} (rd : σ → Fast4Result σ) (D : List Nat) (e : Nat)
    (rs : Script) (l : LoopState σ) (h : LoopInv rd D e rs l)
    (hb : l.bufferedSamples < 252) (hsafe : e + l.bufferedSamples < D.length) :
    ∃ rs', (mainRefill rd l).2 = none ∧ LoopInv rd D e rs' (mainRefill rd l).1 ∧
      rs'.length < rs.length ∧ (mainRefill rd l).1.dac = l.dac := by
  obtain ⟨hc, hle, hev, hlen, hf, hs, hbuf, hdac⟩ := h
  have hb' : l.bufferedSamples < bufferSize - 4 := by simpa [bufferSize] using hb
  cases rs with
  | nil =>
    have := drop_eq_nil_length D _ (by simpa [scriptSamples] using hs.symm)
    omega
  | cons q rs' =>
    cases q with
    | none =>
      obtain ⟨h1, h2, h3⟩ := hf
      refine ⟨rs', ?_, ?_, by simp, ?_⟩
      · simp [mainRefill, hb', h1]
      · simp only [mainRefill, hb', h1, h2, if_true, reduceCtorEq, if_false, storeFast4_nil]
        exact ⟨hc, hle, hev, hlen, h3, by simpa [scriptSamples] using hs, hbuf, hdac⟩
      · simp [mainRefill, hb', h1]
    | some q =>
      obtain ⟨a, b, c, d⟩ := q
      obtain ⟨h1, h2, h3⟩ := hf
      obtain ⟨hx, hy, hd, hl2⟩ := drop_eq_cons2 D _ _ _ _ (by simpa [scriptSamples] using hs.symm)
      refine ⟨rs', ?_, ?_, by simp, ?_⟩
      · simp [mainRefill, hb', h1]
      · simp only [mainRefill, hb', h1, h2, if_true, reduceCtorEq, if_false, storeFast4, and_mask, hc]
        refine ⟨rfl, by simp only []; omega, by simp only []; omega, by simp only []; omega, h3,
          ?_, ?_, hdac⟩
        · simp only []
          rw [← hd]
          congr 1
        · simp only []
          have hw : (e % 4294967296 % 256 + l.bufferedSamples) % 256 =
              (e + l.bufferedSamples) % 256 := by omega
          rw [hw]
          intro j hj
          simp only [Function.update_apply]
          by_cases hj1 : j = l.bufferedSamples + 1
          · subst hj1
            have : (e + (l.bufferedSamples + 1)) % 256 = (e + l.bufferedSamples) % 256 + 1 := by
              omega
            rw [if_pos this, ← hy]
            congr 1
          · have hne1 : ¬ (e + j) % 256 = (e + l.bufferedSamples) % 256 + 1 := by omega
            rw [if_neg hne1]
            by_cases hj0 : j = l.bufferedSamples
            · subst hj0
              rw [if_pos rfl, ← hx]
            · have hne0 : ¬ (e + j) % 256 = (e + l.bufferedSamples) % 256 := by omega
              rw [if_neg hne0]
              exact hbuf j (by omega)
      · simp [mainRefill, hb', h1]

theorem take_succ_getD (D : List Nat) (e : Nat) (h : e < D.length) :
    D.take (e + 1) = D.take e ++ [D.getD e 0] := by
  rw [List.take_succ, List.getD_eq_getElem?_getD, List.getElem?_eq_getElem h]
  rfl

theorem mainStep_pos {σ : Type} (rd : σ → Fast4Result σ) (sampleCount : Nat) (l : LoopState σ)
    (hb : 0 < l.bufferedSamples) :
    mainStep rd sampleCount l =
      if (afterSet l).currentSample > sampleCount then (afterSet l, some LoopExit.done)
      else mainRefill rd (afterSet l) := by
  simp only [mainStep, gt_iff_lt, hb, if_true, afterSet]

theorem mainStep_zero {σ : Type} (rd : σ → Fast4Result σ) (sampleCount : Nat) (l : LoopState σ)
    (hb : l.bufferedSamples = 0) :
    mainStep rd sampleCount l = mainRefill rd { l with dac := l.dac ++ [Event.pushValue] } := by
  simp only [mainStep, gt_iff_lt, hb, Nat.lt_irrefl, if_false]

theorem afterSet_inv {σ : Type} (rd : σ → Fast4Result σ) (D : List Nat) (e : Nat)
    (rs : Script) (l : LoopState σ) (h : LoopInv rd D e rs l) (hb : 0 < l.bufferedSamples) :
    LoopInv rd D (e + 1) rs (afterSet l) ∧
      (afterSet l).dac = l.dac ++ [Event.pushValue, Event.setValue (D.getD e 0 >>> 4)] := by
  obtain ⟨hc, hle, hev, hlen, hf, hs, hbuf, hdac⟩ := h
  have h0 := hbuf 0 hb
  have hslot : l.currentSample &&& sampleBufferMask = (e + 0) % 256 := by
    rw [and_mask, hc]; omega
  have hp : e + 1 + (l.bufferedSamples - 1) = e + l.bufferedSamples := by omega
  refine ⟨⟨?_, ?_, ?_, ?_, hf, ?_, ?_, ?_⟩, ?_⟩
  · show (l.currentSample + 1) % 4294967296 = (e + 1) % 4294967296
    rw [hc]; omega
  · show l.bufferedSamples - 1 ≤ 256
    omega
  · show (e + 1 + (l.bufferedSamples - 1)) % 2 = 0
    rw [hp]; exact hev
  · show e + 1 + (l.bufferedSamples - 1) ≤ D.length
    rw [hp]; exact hlen
  · show scriptSamples rs = D.drop (e + 1 + (l.bufferedSamples - 1))
    rw [hp]; exact hs
  · intro j hj
    have hj' : j < l.bufferedSamples - 1 := hj
    have := hbuf (j + 1) (by omega)
    have e1 : e + (j + 1) = e + 1 + j := by omega
    rw [e1] at this
    exact this
  · show setValues (l.dac ++ [Event.pushValue] ++
        [Event.setValue (l.sampleBuffer (l.currentSample &&& sampleBufferMask) >>> 4)]) = _
    rw [setValues_append, setValues_append, hdac, take_succ_getD D e (by omega), hslot, h0]
    simp [setValues]
  · show l.dac ++ [Event.pushValue] ++
        [Event.setValue (l.sampleBuffer (l.currentSample &&& sampleBufferMask) >>> 4)] = _
    rw [hslot, h0]
    simp

theorem mainRefill_dac {σ : Type} (rd : σ → Fast4Result σ) (l : LoopState σ) :
    (mainRefill rd l).1.dac = l.dac := by
  simp only [mainRefill]
  split_ifs <;> rfl

theorem mainStep_grow {σ : Type} (rd : σ → Fast4Result σ) (sampleCount : Nat)
    (l : LoopState σ) : ∃ ext, (mainStep rd sampleCount l).1.dac = l.dac ++ ext := by
  by_cases hb : 0 < l.bufferedSamples
  · rw [mainStep_pos rd sampleCount l hb]
    have ha : (afterSet l).dac = l.dac ++ ([Event.pushValue] ++
        [Event.setValue (l.sampleBuffer (l.currentSample &&& sampleBufferMask) >>> 4)]) := by
      simp only [afterSet, List.append_assoc]
    split
    · exact ⟨_, ha⟩
    · rw [mainRefill_dac]
      exact ⟨_, ha⟩
  · rw [mainStep_zero rd sampleCount l (by omega), mainRefill_dac]
    exact ⟨_, rfl⟩

theorem mainLoop_grow {σ : Type} (rd : σ → Fast4Result σ) (sampleCount fuel : Nat)
    (l : LoopState σ) : ∃ ext, (mainLoop rd sampleCount fuel l).1.dac = l.dac ++ ext := by
  induction fuel generalizing l with
  | zero => exact ⟨[], by simp [mainLoop]⟩
  | succ fuel ih =>
    obtain ⟨e1, h1⟩ := mainStep_grow rd sampleCount l
    rw [mainLoop]
    cases hr : (mainStep rd sampleCount l).2 with
    | some x => exact ⟨e1, by simpa [hr] using h1⟩
    | none =>
      obtain ⟨e2, h2⟩ := ih (mainStep rd sampleCount l).1
      exact ⟨e1 ++ e2, by simp only [hr, h2, h1, List.append_assoc]⟩

theorem nth_setValues_grow (dac ext : List Event) (n v : Nat)
    (h : (setValues dac)[n]? = some v) : (setValues (dac ++ ext))[n]? = some v := by
  rw [setValues_append]
  have hl : n < (setValues dac).length := by
    by_contra hc
    rw [List.getElem?_eq_none (by omega)] at h
    simp at h
  rw [List.getElem?_append_left hl]
  exact h

theorem nth_map_take (D : List Nat) (n : Nat) (h : n < D.length) :
    ((D.take (n + 1)).map (fun x => x >>> 4))[n]? = some (D.getD n 0 >>> 4) := by
  rw [take_succ_getD D n h]
  simp only [List.map_append, List.map_cons, List.map_nil]
  have hl : ((D.take n).map (fun x => x >>> 4)).length = n := by
    simp [Nat.min_eq_left (Nat.le_of_lt h)]
  rw [List.getElem?_append_right (by omega), hl]
  simp

/-- After enough turns the main loop has set the sample `n`, whatever it
does afterwards. -/
theorem mainLoop_nth {σ : Type} (rd : σ → Fast4Result σ) (D : List Nat)
    (sampleCount n : Nat) (hn : n ≤ sampleCount) (hD : n + 253 ≤ D.length) :
    ∀ (fuel e : Nat) (rs : Script) (l : LoopState σ), LoopInv rd D e rs l → e ≤ n →
      (n + 1 - e) + rs.length ≤ fuel →
      (setValues (mainLoop rd sampleCount fuel l).1.dac)[n]? = some (D.getD n 0 >>> 4) := by
  intro fuel
  induction fuel with
  | zero => intro e rs l _ he hf; omega
  | succ fuel ih =>
    intro e rs l h he hf
    rw [mainLoop]
    by_cases hb : 0 < l.bufferedSamples
    · obtain ⟨hinv, hdac⟩ := afterSet_inv rd D e rs l h hb
      have hcs : (afterSet l).currentSample = (e + 1) % 4294967296 := hinv.1
      have hsv := hinv.2.2.2.2.2.2.2
      have hb1 : (afterSet l).bufferedSamples = l.bufferedSamples - 1 := rfl
      have hlen := h.2.2.2.1
      rw [mainStep_pos rd sampleCount l hb]
      by_cases hx : (afterSet l).currentSample > sampleCount
      · -- the loop is left: the last sample set is the sample `n`
        have hen : e = n := by
          rw [hcs] at hx
          have : (e + 1) % 4294967296 ≤ e + 1 := Nat.mod_le _ _
          omega
        subst hen
        simp only [hx, if_true]
        rw [hsv]
        exact nth_map_take D e (by omega)
      · simp only [hx, if_false]
        by_cases hen : e = n
        · -- the sample `n` has just been set
          subst hen
          have hnow : (setValues (mainRefill rd (afterSet l)).1.dac)[e]? =
              some (D.getD e 0 >>> 4) := by
            rw [mainRefill_dac, hsv]
            exact nth_map_take D e (by omega)
          cases hr : (mainRefill rd (afterSet l)).2 with
          | some x => simpa [hr] using hnow
          | none =>
            simp only [hr]
            obtain ⟨ext, hext⟩ := mainLoop_grow rd sampleCount fuel (mainRefill rd (afterSet l)).1
            rw [hext]
            exact nth_setValues_grow _ _ _ _ hnow
        · by_cases hfull : (afterSet l).bufferedSamples < 252
          · obtain ⟨rs', h1, h2, h3, _⟩ := mainRefill_inv rd D (e + 1) rs (afterSet l) hinv hfull
              (by rw [hb1]; omega)
            simp only [h1]
            exact ih (e + 1) rs' _ h2 (by omega) (by omega)
          · rw [mainRefill_full rd _ hfull]
            exact ih (e + 1) rs _ hinv (by omega) (by omega)
    · have hb0 : l.bufferedSamples = 0 := by omega
      rw [mainStep_zero rd sampleCount l hb0]
      obtain ⟨hc, hle, hev, hlen, hf', hs, hbuf, hdac⟩ := h
      have hinv : LoopInv rd D e rs { l with dac := l.dac ++ [Event.pushValue] } :=
        ⟨hc, hle, hev, hlen, hf', hs, hbuf, by
          show setValues (l.dac ++ [Event.pushValue]) = _
          rw [setValues_append, hdac]; simp [setValues]⟩
      obtain ⟨rs', h1, h2, h3, _⟩ := mainRefill_inv rd D e rs _ hinv
        (by show l.bufferedSamples < 252; omega) (by show e + l.bufferedSamples < D.length; omega)
      simp only [h1]
      exact ih e rs' _ h2 he (by omega)

/-- With enough turns the main loop sets the samples 0 to `sampleCount` and
is left in the regular way. -/
theorem mainLoop_done {σ : Type} (rd : σ → Fast4Result σ) (D : List Nat)
    (sampleCount : Nat) (hsc : sampleCount + 1 < 4294967296)
    (hD : sampleCount + 253 ≤ D.length) :
    ∀ (fuel e : Nat) (rs : Script) (l : LoopState σ), LoopInv rd D e rs l → e ≤ sampleCount →
      (sampleCount + 1 - e) + rs.length ≤ fuel →
      ∃ rs', (mainLoop rd sampleCount fuel l).2 = some LoopExit.done ∧
        LoopInv rd D (sampleCount + 1) rs' (mainLoop rd sampleCount fuel l).1 := by
  intro fuel
  induction fuel with
  | zero => intro e rs l _ he hf; omega
  | succ fuel ih =>
    intro e rs l h he hf
    rw [mainLoop]
    by_cases hb : 0 < l.bufferedSamples
    · obtain ⟨hinv, hdac⟩ := afterSet_inv rd D e rs l h hb
      have hcs : (afterSet l).currentSample = (e + 1) % 4294967296 := hinv.1
      have hb1 : (afterSet l).bufferedSamples = l.bufferedSamples - 1 := rfl
      have hlen := h.2.2.2.1
      rw [mainStep_pos rd sampleCount l hb]
      by_cases hx : (afterSet l).currentSample > sampleCount
      · have hen : e = sampleCount := by
          rw [hcs] at hx
          have : (e + 1) % 4294967296 ≤ e + 1 := Nat.mod_le _ _
          omega
        subst hen
        rw [if_pos hx]
        exact ⟨rs, rfl, hinv⟩
      · simp only [hx, if_false]
        have hen : e < sampleCount := by
          rw [hcs] at hx
          have : (e + 1) % 4294967296 = e + 1 := Nat.mod_eq_of_lt (by omega)
          omega
        by_cases hfull : (afterSet l).bufferedSamples < 252
        · obtain ⟨rs', h1, h2, h3, _⟩ := mainRefill_inv rd D (e + 1) rs (afterSet l) hinv hfull
            (by rw [hb1]; omega)
          simp only [h1]
          exact ih (e + 1) rs' _ h2 (by omega) (by omega)
        · rw [mainRefill_full rd _ hfull]
          exact ih (e + 1) rs _ hinv (by omega) (by omega)
    · have hb0 : l.bufferedSamples = 0 := by omega
      rw [mainStep_zero rd sampleCount l hb0]
      obtain ⟨hc, hle, hev, hlen, hf', hs, hbuf, hdac⟩ := h
      have hinv : LoopInv rd D e rs { l with dac := l.dac ++ [Event.pushValue] } :=
        ⟨hc, hle, hev, hlen, hf', hs, hbuf, by
          show setValues (l.dac ++ [Event.pushValue]) = _
          rw [setValues_append, hdac]; simp [setValues]⟩
      obtain ⟨rs', h1, h2, h3, _⟩ := mainRefill_inv rd D e rs _ hinv
        (by show l.bufferedSamples < 252; omega) (by show e + l.bufferedSamples < D.length; omega)
      simp only [h1]
      exact ih e rs' _ h2 he (by omega)

theorem mainRefill_not_done {σ : Type} (rd : σ → Fast4Result σ) (l : LoopState σ) :
    (mainRefill rd l).2 ≠ some LoopExit.done := by
  simp only [mainRefill]
  split_ifs <;> simp

/-- With `sampleCount = 0xffffffff` the test `++currentSample > sampleCount`
never holds. -/
theorem mainStep_never_done {σ : Type} (rd : σ → Fast4Result σ) (sampleCount : Nat)
    (hsc : 4294967295 ≤ sampleCount) (l : LoopState σ) :
    (mainStep rd sampleCount l).2 ≠ some LoopExit.done := by
  by_cases hb : 0 < l.bufferedSamples
  · rw [mainStep_pos rd sampleCount l hb]
    have hlt : (afterSet l).currentSample < 4294967296 := Nat.mod_lt _ (by decide)
    have hx : ¬ (afterSet l).currentSample > sampleCount := by omega
    simp only [hx, if_false]
    exact mainRefill_not_done rd _
  · rw [mainStep_zero rd sampleCount l (by omega)]
    exact mainRefill_not_done rd _

theorem mainLoop_never_done {σ : Type} (rd : σ → Fast4Result σ) (sampleCount : Nat)
    (hsc : 4294967295 ≤ sampleCount) (fuel : Nat) (l : LoopState σ) :
    (mainLoop rd sampleCount fuel l).2 ≠ some LoopExit.done := by
  induction fuel generalizing l with
  | zero => simp [mainLoop]
  | succ fuel ih =>
    rw [mainLoop]
    have hs := mainStep_never_done rd sampleCount hsc l
    cases hr : (mainStep rd sampleCount l).2 with
    | some x =>
      rw [hr] at hs
      simpa using hs
    | none => simpa using ih _

theorem prefill_inv {σ : Type} (rd : σ → Fast4Result σ) (D : List Nat) (hD : 256 ≤ D.length)
    (rs : Script) :
    ∀ (fuel i : Nat) (buffer : Nat → Nat) (s : σ), Follows rd s rs →
      scriptSamples rs = D.drop i → i % 2 = 0 → i ≤ 256 →
      (∀ j < i, buffer j = D.getD j 0) → rs.length < fuel →
      ∃ buffer' s' rs', prefill rd fuel i buffer s = (PrefillExit.full, buffer', s') ∧
        Follows rd s' rs' ∧ scriptSamples rs' = D.drop 256 ∧
        (∀ j < 256, buffer' j = D.getD j 0) ∧ rs'.length ≤ rs.length := by
  have hfull : ∀ (fuel : Nat) (rs : Script) (buffer : Nat → Nat) (s : σ), Follows rd s rs →
      scriptSamples rs = D.drop 256 → (∀ j < 256, buffer j = D.getD j 0) → rs.length < fuel →
      ∃ buffer' s' rs', prefill rd fuel 256 buffer s = (PrefillExit.full, buffer', s') ∧
        Follows rd s' rs' ∧ scriptSamples rs' = D.drop 256 ∧
        (∀ j < 256, buffer' j = D.getD j 0) ∧ rs'.length ≤ rs.length := by
    intro fuel rs buffer s hf hs hbuf hfu
    cases fuel with
    | zero => omega
    | succ fuel =>
      refine ⟨buffer, s, rs, ?_, hf, hs, hbuf, Nat.le_refl _⟩
      simp [prefill, bufferSize]
  induction rs with
  | nil =>
    intro fuel i buffer s hf hs hev hle hbuf hfu
    have hl : D.length ≤ i := by
      have : D.drop i = [] := by simpa [scriptSamples] using hs.symm
      simpa using this
    have hi : i = 256 := by omega
    subst hi
    exact hfull fuel [] buffer s hf hs hbuf hfu
  | cons q rs' ih =>
    intro fuel i buffer s hf hs hev hle hbuf hfu
    by_cases hi : i = 256
    · subst hi
      exact hfull fuel (q :: rs') buffer s hf hs hbuf hfu
    · have hlt : i < bufferSize := by simp only [bufferSize]; omega
      cases fuel with
      | zero => omega
      | succ fuel =>
        cases q with
        | none =>
          obtain ⟨h1, h2, h3⟩ := hf
          obtain ⟨b', s', rs'', e1, e2, e3, e4, e5⟩ := ih fuel i buffer (rd s).state h3
            (by simpa [scriptSamples] using hs) hev hle hbuf (by simpa using hfu)
          refine ⟨b', s', rs'', ?_, e2, e3, e4, by simp; omega⟩
          rw [prefill]
          simp only [hlt, if_true, h1, h2, reduceCtorEq, if_false, storeFast4_nil]
          exact e1
        | some q =>
          obtain ⟨a, b, c, d⟩ := q
          obtain ⟨h1, h2, h3⟩ := hf
          obtain ⟨hx, hy, hd, hl2⟩ := drop_eq_cons2 D _ _ _ _
            (by simpa [scriptSamples] using hs.symm)
          obtain ⟨b', s', rs'', e1, e2, e3, e4, e5⟩ := ih fuel (i + 2)
            (storeFast4 buffer i [a, b, c, d]) (rd s).state h3 hd.symm (by omega) (by omega)
            (by
              intro j hj
              simp only [storeFast4, Function.update_apply]
              by_cases hj1 : j = i + 1
              · rw [if_pos hj1, hj1, hy]
              · rw [if_neg hj1]
                by_cases hj0 : j = i
                · rw [if_pos hj0, hj0, hx]
                · rw [if_neg hj0]
                  exact hbuf j (by omega))
            (by simpa using hfu)
          refine ⟨b', s', rs'', ?_, e2, e3, e4, by simp; omega⟩
          rw [prefill]
          simp only [hlt, if_true, h1, h2]
          exact e1


/-! ## `readFast4` over a stream of blocks -/

theorem readFast4_busy (s : SDCardState) (m : List Nat)
    (hs : s.blockReadState = ReadState.ReadStateWait) (hm : s.spi.miso = 0xff :: m) :
    readFast4 s = ⟨Status.StatusWait, [], { s with spi := { s.spi with miso := m } }⟩ := by
  simp [readFast4, hs, spiReceive, Spi.receive, hm]

theorem readFast4_token (s : SDCardState) (m : List Nat)
    (hs : s.blockReadState = ReadState.ReadStateWait) (hm : s.spi.miso = 0xfe :: m) :
    readFast4 s = ⟨Status.StatusWait, [],
      { s with spi := { s.spi with miso := m }, blockReadState := ReadState.ReadStateReadData }⟩ := by
  simp [readFast4, hs, spiReceive, Spi.receive, hm, BlockDataStart]

theorem readFast4_data (s : SDCardState) (a b c d : Nat) (m : List Nat)
    (hs : s.blockReadState = ReadState.ReadStateReadData) (hc : s.blockByteCount + 4 ≤ 512)
    (hm : s.spi.miso = a :: b :: c :: d :: m) :
    readFast4 s = ⟨Status.StatusReady, [a, b, c, d],
      { s with
        spi := { s.spi with miso := m }
        blockByteCount := s.blockByteCount + 4
        blockReadState :=
          if s.blockByteCount + 4 = 512 then ReadState.ReadStateReadCRC
          else ReadState.ReadStateReadData }⟩ := by
  have h4 : Spi.receiveN 4 s.spi = ([a, b, c, d], { s.spi with miso := m }) :=
    Spi.receiveN_append [a, b, c, d] m s.spi hm
  have hmod : (s.blockByteCount + 4) % 65536 = s.blockByteCount + 4 := by omega
  simp only [readFast4, hs, h4, hmod, blockSize]
  by_cases he : s.blockByteCount + 4 = 512
  · simp [he, hs]
  · have : ¬ (s.blockByteCount + 4 ≥ 512) := by omega
    simp [he, this, hs]

theorem readFast4_crc (s : SDCardState) (c1 c2 : Nat) (m : List Nat)
    (hs : s.blockReadState = ReadState.ReadStateReadCRC) (hm : s.spi.miso = c1 :: c2 :: m) :
    readFast4 s = ⟨Status.StatusWait, [],
      { s with spi := { s.spi with miso := m }, blockByteCount := 0,
               blockReadState := ReadState.ReadStateWait }⟩ := by
  have h2 : Spi.receiveN 2 s.spi = ([c1, c2], { s.spi with miso := m }) :=
    Spi.receiveN_append [c1, c2] m s.spi hm
  simp [readFast4, hs, spiSkip, h2]

/-- The calls over the payload of a block and its trailer. -/
theorem follows_payload (R : Script) (rest : List Nat) (c1 c2 : Nat)
    (hR : ∀ t : SDCardState, t.blockReadState = ReadState.ReadStateWait →
      t.blockByteCount = 0 → t.spi.miso = rest → Follows readFast4 t R) (m : Nat) :
    ∀ (s : SDCardState) (xs : List Nat),
      xs.length = 4 * m → s.blockByteCount + 4 * m = 512 →
      s.blockReadState = (if m = 0 then ReadState.ReadStateReadCRC else ReadState.ReadStateReadData) →
      s.spi.miso = xs ++ c1 :: c2 :: rest →
      Follows readFast4 s (chunkScript xs ++ none :: R) := by
  induction m with
  | zero =>
    intro s xs hx hc hs hm
    have hx0 : xs = [] := by simpa using hx
    subst hx0
    simp only [if_true] at hs
    have hcrc := readFast4_crc s c1 c2 rest hs (by simpa using hm)
    simp only [chunkScript, List.nil_append, Follows, hcrc, true_and]
    exact hR _ rfl rfl rfl
  | succ m ih =>
    intro s xs hx hc hs hm
    obtain ⟨a, b, c, d, xs', rfl⟩ : ∃ a b c d xs', xs = a :: b :: c :: d :: xs' := by
      rcases xs with _ | ⟨a, _ | ⟨b, _ | ⟨c, _ | ⟨d, xs'⟩⟩⟩⟩ <;> simp at hx
      · omega
      · omega
      · omega
      · exact ⟨a, b, c, d, xs', rfl⟩
    simp only [Nat.add_one_ne_zero, if_false] at hs
    have hd := readFast4_data s a b c d (xs' ++ c1 :: c2 :: rest) hs (by omega)
      (by simpa using hm)
    simp only [chunkScript, List.cons_append, Follows, hd, true_and]
    apply ih
    · simp only [List.length_cons] at hx; omega
    · show s.blockByteCount + 4 + 4 * m = 512; omega
    · show (if s.blockByteCount + 4 = 512 then ReadState.ReadStateReadCRC
          else ReadState.ReadStateReadData) = _
      by_cases hm0 : m = 0
      · have : s.blockByteCount + 4 = 512 := by omega
        simp [hm0, this]
      · have : ¬ s.blockByteCount + 4 = 512 := by omega
        simp [hm0, this]
    · rfl

/-- The calls over the busy bytes and the token of a block. -/
theorem follows_busy (R : Script) (rest : List Nat)
    (hR : ∀ t : SDCardState, t.blockReadState = ReadState.ReadStateReadData →
      t.blockByteCount = 0 → t.spi.miso = rest → Follows readFast4 t R) (k : Nat) :
    ∀ (s : SDCardState), s.blockReadState = ReadState.ReadStateWait → s.blockByteCount = 0 →
      s.spi.miso = List.replicate k 0xff ++ 0xfe :: rest →
      Follows readFast4 s (List.replicate (k + 1) none ++ R) := by
  induction k with
  | zero =>
    intro s hs hc hm
    have ht := readFast4_token s rest hs (by simpa using hm)
    simp only [List.replicate, List.cons_append, List.nil_append, Follows, ht, true_and]
    exact hR _ rfl hc rfl
  | succ k ih =>
    intro s hs hc hm
    have hb := readFast4_busy s (List.replicate k 0xff ++ 0xfe :: rest) hs
      (by simpa [List.replicate_succ] using hm)
    rw [List.replicate_succ, List.cons_append]
    simp only [Follows, hb, true_and]
    exact ih _ hs hc rfl

/-- Over well formed blocks `readFast4` follows the script of the blocks. -/
theorem follows_blocks (blocks : List Block) (tail : List Nat) :
    (∀ b ∈ blocks, b.Ok) →
    ∀ (s : SDCardState), s.blockReadState = ReadState.ReadStateWait → s.blockByteCount = 0 →
      s.spi.miso = encodeBlocks blocks ++ tail →
      Follows readFast4 s (blocksScript blocks) := by
  induction blocks with
  | nil => intro _ s _ _ _; simp [blocksScript, Follows]
  | cons b bs ih =>
    intro hok s hs hc hm
    have hb := (hok b (by simp)).1
    have ih' := ih (fun x hx => hok x (by simp [hx]))
    simp only [blocksScript, blockScript, List.append_assoc]
    apply follows_busy _ (b.payload ++ b.crc1 :: b.crc2 :: (encodeBlocks bs ++ tail)) _ b.busy s hs hc
      (by rw [hm]; simp [encodeBlocks, encodeBlock])
    intro t ht htc htm
    have := follows_payload (blocksScript bs) (encodeBlocks bs ++ tail) b.crc1 b.crc2
      (fun u hu huc hum => ih' u hu huc hum) 128 t b.payload (by omega) (by omega)
      (by simpa using ht) htm
    simpa using this


theorem startMultiRead_eq (s : SDCardState) (block : Nat) :
    startMultiRead s block =
      if s.spi.miso.headD 0xff ≠ 0xff then
        (Status.StatusWait, { s with spi := { s.spi with miso := s.spi.miso.tail } })
      else if responseByte 0x10 (s.spi.miso.drop 7) ≠ 0 then
        (Status.StatusError,
          { s with
            error := Error.Error_ReadSingleBlockFailed
            spi := { s.spi with
              miso := (s.spi.miso.drop 7).drop (responseLength 0x10 (s.spi.miso.drop 7))
              sent := s.spi.sent ++ commandFrame 18 block 0xff } })
      else
        (Status.StatusReady,
          { s with
            blockByteCount := 0
            blockReadState := ReadState.ReadStateWait
            blockReadMode := ReadMode.ReadModeMultipleBlocks
            spi := { s.spi with
              miso := (s.spi.miso.drop 7).drop (responseLength 0x10 (s.spi.miso.drop 7))
              sent := s.spi.sent ++ commandFrame 18 block 0xff } }) := by
  have hc := sendCommand_r1 (spiReceive s).2 Command.Cmd_ReadMultiBlock block (by decide)
    (by decide) (by decide) (by decide)
  simp only [spiReceive_snd, drop_tail, Nat.reduceAdd] at hc
  have hf : (Command.Cmd_ReadMultiBlock.code &&& 63 ||| 64) % 256 = 0x40 ||| 18 := by decide
  simp only [startMultiRead, spiReceive_fst, spiReceive_snd, hc, R1_ReadyState, hf, commandFrame]

theorem startMultiReadLoop_accept (busy : List Nat) :
    ∀ (fuel : Nat) (s : SDCardState) (block : Nat) (echo wait rest : List Nat),
      TranscriptOk busy echo wait → s.spi.miso = startTranscript busy echo wait ++ rest →
      busy.length < fuel →
      startMultiReadLoop fuel s block = (some Status.StatusReady,
        { s with
          blockByteCount := 0
          blockReadState := ReadState.ReadStateWait
          blockReadMode := ReadMode.ReadModeMultipleBlocks
          spi := { s.spi with miso := rest, sent := s.spi.sent ++ commandFrame 18 block 0xff } }) := by
  induction busy with
  | nil =>
    intro fuel s block echo wait rest hok hm hf
    obtain ⟨_, he, hw, hwl⟩ := hok
    cases fuel with
    | zero => simp at hf
    | succ fuel =>
      have hm' : s.spi.miso = 0xff :: (echo ++ (wait ++ 0 :: rest)) := by
        simpa [startTranscript] using hm
      have hd : s.spi.miso.drop 7 = wait ++ 0 :: rest := by
        rw [hm']
        simp only [List.drop_succ_cons]
        rw [← he, List.drop_left]
      have hr := response_accept 0x10 wait rest hw hwl
      have hh : s.spi.miso.headD 0xff = 0xff := by rw [hm']; rfl
      have hdr : List.drop (wait.length + 1) (wait ++ 0 :: rest) = rest := by
        rw [List.drop_append]; simp
      rw [startMultiReadLoop, startMultiRead_eq, hd, hh]
      simp [hr.1, hr.2, hdr]
  | cons b busy ih =>
    intro fuel s block echo wait rest hok hm hf
    obtain ⟨hb, he, hw, hwl⟩ := hok
    cases fuel with
    | zero => simp at hf
    | succ fuel =>
      have hm' : s.spi.miso = b :: (startTranscript busy echo wait ++ rest) := by
        simpa [startTranscript] using hm
      have hb' : b ≠ 0xff := hb b (by simp)
      have key := ih fuel { s with spi := { s.spi with miso := startTranscript busy echo wait ++ rest } }
        block echo wait rest ⟨fun c hc => hb c (by simp [hc]), he, hw, hwl⟩ rfl
        (by simpa using hf)
      have hh : s.spi.miso.headD 0xff = b := by rw [hm']; rfl
      have ht : s.spi.miso.tail = startTranscript busy echo wait ++ rest := by rw [hm']; rfl
      rw [startMultiReadLoop, startMultiRead_eq, hh, ht]
      simp only [ne_eq, hb', not_false_eq_true, if_true]
      exact key


theorem scriptSamples_append (a b : Script) :
    scriptSamples (a ++ b) = scriptSamples a ++ scriptSamples b := by
  induction a with
  | nil => rfl
  | cons q a ih =>
    cases q with
    | none => simpa [scriptSamples] using ih
    | some q =>
      obtain ⟨x, y, z, w⟩ := q
      simp [scriptSamples, ih]

theorem scriptSamples_replicate_none (k : Nat) : scriptSamples (List.replicate k none) = [] := by
  induction k with
  | zero => rfl
  | succ k ih => simpa [List.replicate_succ, scriptSamples] using ih

theorem samples16_append (m : Nat) :
    ∀ xs ys : List Nat, xs.length = 2 * m → samples16 (xs ++ ys) = samples16 xs ++ samples16 ys := by
  induction m with
  | zero =>
    intro xs ys hx
    have : xs = [] := by simpa using hx
    subst this
    simp [samples16]
  | succ m ih =>
    intro xs ys hx
    rcases xs with _ | ⟨a, _ | ⟨b, xs⟩⟩
    · simp at hx
    · simp at hx; omega
    · simp only [List.cons_append, samples16, List.cons.injEq, true_and]
      exact ih xs ys (by simp only [List.length_cons] at hx; omega)

theorem samples16_length (m : Nat) :
    ∀ xs : List Nat, xs.length = 2 * m → (samples16 xs).length = m := by
  induction m with
  | zero =>
    intro xs hx
    have : xs = [] := by simpa using hx
    subst this
    rfl
  | succ m ih =>
    intro xs hx
    rcases xs with _ | ⟨a, _ | ⟨b, xs⟩⟩
    · simp at hx
    · simp at hx; omega
    · simp only [samples16, List.length_cons]
      rw [ih xs (by simp only [List.length_cons] at hx; omega)]

theorem scriptSamples_chunkScript (m : Nat) :
    ∀ xs : List Nat, xs.length = 4 * m → scriptSamples (chunkScript xs) = samples16 xs := by
  induction m with
  | zero =>
    intro xs hx
    have : xs = [] := by simpa using hx
    subst this
    rfl
  | succ m ih =>
    intro xs hx
    rcases xs with _ | ⟨a, _ | ⟨b, _ | ⟨c, _ | ⟨d, xs⟩⟩⟩⟩
    · simp at hx
    · simp at hx; omega
    · simp at hx; omega
    · simp at hx; omega
    · simp only [chunkScript, scriptSamples, samples16, List.cons.injEq, true_and]
      exact ih xs (by simp only [List.length_cons] at hx; omega)

theorem chunkScript_length (m : Nat) :
    ∀ xs : List Nat, xs.length = 4 * m → (chunkScript xs).length = m := by
  induction m with
  | zero =>
    intro xs hx
    have : xs = [] := by simpa using hx
    subst this
    rfl
  | succ m ih =>
    intro xs hx
    rcases xs with _ | ⟨a, _ | ⟨b, _ | ⟨c, _ | ⟨d, xs⟩⟩⟩⟩
    · simp at hx
    · simp at hx; omega
    · simp at hx; omega
    · simp at hx; omega
    · simp only [chunkScript, List.length_cons]
      rw [ih xs (by simp only [List.length_cons] at hx; omega)]

theorem payloadOf_length (blocks : List Block) (hok : ∀ b ∈ blocks, b.Ok) :
    (payloadOf blocks).length = 2 * (256 * blocks.length) := by
  induction blocks with
  | nil => rfl
  | cons b bs ih =>
    have hb := (hok b (by simp)).1
    have := ih (fun x hx => hok x (by simp [hx]))
    simp only [payloadOf, List.length_append, List.length_cons, hb, this]
    omega

theorem scriptSamples_blocks (blocks : List Block) (hok : ∀ b ∈ blocks, b.Ok) :
    scriptSamples (blocksScript blocks) = samples16 (payloadOf blocks) := by
  induction blocks with
  | nil => rfl
  | cons b bs ih =>
    have hb := (hok b (by simp)).1
    have := ih (fun x hx => hok x (by simp [hx]))
    show scriptSamples (blockScript b ++ blocksScript bs) = samples16 (b.payload ++ payloadOf bs)
    rw [scriptSamples_append, this, samples16_append 256 b.payload _ (by omega)]
    congr 1
    unfold blockScript
    rw [scriptSamples_append, scriptSamples_replicate_none, scriptSamples_append,
      scriptSamples_chunkScript 128 b.payload (by omega)]
    simp [scriptSamples]

theorem samples16_lt (xs : List Nat) (h : ∀ x ∈ xs, x < 256) (n : Nat) :
    (samples16 xs).getD n 0 < 65536 := by
  induction xs using samples16.induct generalizing n with
  | case1 a b rest ih =>
    have ha := h a (by simp)
    have hb := h b (by simp)
    cases n with
    | zero => simp [samples16]; omega
    | succ n =>
      simp only [samples16, List.getD_cons_succ]
      exact ih (fun x hx => h x (by simp [hx])) n
  | case2 xs hx =>
    rw [samples16]
    · simp
    · exact hx

theorem payloadOf_lt (blocks : List Block) (hok : ∀ b ∈ blocks, b.Ok) :
    ∀ x ∈ payloadOf blocks, x < 256 := by
  induction blocks with
  | nil => intro x hx; simp [payloadOf] at hx
  | cons b bs ih =>
    intro x hx
    simp only [payloadOf, List.mem_append] at hx
    rcases hx with hx | hx
    · exact (hok b (by simp)).2 x hx
    · exact ih (fun y hy => hok y (by simp [hy])) x hx

/-! ## The player: claims C2 and C4 -/

theorem readFast4_mode (s : SDCardState) :
    (readFast4 s).state.blockReadMode = s.blockReadMode := by
  simp only [readFast4, spiReceive, spiSkip]
  split <;> (try split_ifs) <;> rfl

theorem mainRefill_streamer {σ : Type} (rd : σ → Fast4Result σ) (P : σ → Prop)
    (hP : ∀ s, P s → P (rd s).state) (l : LoopState σ) (h : P l.streamer) :
    P (mainRefill rd l).1.streamer := by
  simp only [mainRefill]
  split_ifs <;> first | exact h | exact hP _ h

theorem mainStep_streamer {σ : Type} (rd : σ → Fast4Result σ) (P : σ → Prop)
    (hP : ∀ s, P s → P (rd s).state) (sampleCount : Nat) (l : LoopState σ) (h : P l.streamer) :
    P (mainStep rd sampleCount l).1.streamer := by
  by_cases hb : 0 < l.bufferedSamples
  · rw [mainStep_pos rd sampleCount l hb]
    split
    · exact h
    · exact mainRefill_streamer rd P hP _ h
  · rw [mainStep_zero rd sampleCount l (by omega)]
    exact mainRefill_streamer rd P hP _ h

theorem mainLoop_streamer {σ : Type} (rd : σ → Fast4Result σ) (P : σ → Prop)
    (hP : ∀ s, P s → P (rd s).state) (sampleCount fuel : Nat) (l : LoopState σ)
    (h : P l.streamer) : P (mainLoop rd sampleCount fuel l).1.streamer := by
  induction fuel generalizing l with
  | zero => exact h
  | succ fuel ih =>
    rw [mainLoop]
    have hs := mainStep_streamer rd P hP sampleCount l h
    cases hr : (mainStep rd sampleCount l).2 with
    | some x => simpa [hr] using hs
    | none => simpa [hr] using ih _ hs

theorem prefill_streamer {σ : Type} (rd : σ → Fast4Result σ) (P : σ → Prop)
    (hP : ∀ s, P s → P (rd s).state) (fuel : Nat) :
    ∀ (i : Nat) (buffer : Nat → Nat) (s : σ), P s → P (prefill rd fuel i buffer s).2.2 := by
  induction fuel with
  | zero => intro i buffer s h; exact h
  | succ fuel ih =>
    intro i buffer s h
    simp only [prefill]
    split_ifs <;> first | exact h | exact hP s h | exact ih _ _ _ (hP s h)

theorem stopRead_multi (fuel : Nat) (s : SDCardState)
    (h : s.blockReadMode = ReadMode.ReadModeMultipleBlocks) : ∃ r, stopRead fuel s = some r := by
  simp only [stopRead, h, reduceCtorEq, if_false]
  split_ifs <;> exact ⟨_, rfl⟩

/-- Over an accepted read command and a stream of well formed blocks, `play`
reaches its main loop with the buffer full of the first 256 samples. -/
theorem play_reaches_mainLoop (fuel : Nat) (sd : SDCardState) (startBlock : Nat)
    (busy echo wait : List Nat) (blocks : List Block) (tail : List Nat)
    (hok : TranscriptOk busy echo wait)
    (hm : sd.spi.miso = startTranscript busy echo wait ++ (encodeBlocks blocks ++ tail))
    (hb : ∀ b ∈ blocks, b.Ok) (hlen : 1 ≤ blocks.length)
    (hf1 : busy.length < fuel) (hf2 : (blocksScript blocks).length < fuel) :
    ∃ (buffer : Nat → Nat) (s1 : SDCardState) (rs : Script),
      LoopInv readFast4 (samples16 (payloadOf blocks)) 0 rs ⟨0, 0x100, buffer, s1, [], []⟩ ∧
      rs.length ≤ (blocksScript blocks).length ∧
      ∀ sampleCount : Nat,
        (play fuel sd startBlock sampleCount).steady =
          (mainLoop readFast4 sampleCount fuel ⟨0, 0x100, buffer, s1, [], []⟩).1.dac ∧
        ((mainLoop readFast4 sampleCount fuel ⟨0, 0x100, buffer, s1, [], []⟩).2 =
            some LoopExit.done →
          (play fuel sd startBlock sampleCount).outcome = some true ∧
          (play fuel sd startBlock sampleCount).fadeIn = fadeIn 0x800 0 ∧
          (play fuel sd startBlock sampleCount).ending =
            fadeOut 0x800 0x800 ++ [Event.shutdown]) := by
  have hD : (samples16 (payloadOf blocks)).length = 256 * blocks.length :=
    samples16_length _ _ (payloadOf_length blocks hb)
  have h1 := startMultiReadLoop_accept busy fuel sd startBlock echo wait _ hok hm hf1
  have hfol := follows_blocks blocks tail hb
    { sd with
      blockByteCount := 0
      blockReadState := ReadState.ReadStateWait
      blockReadMode := ReadMode.ReadModeMultipleBlocks
      spi := { sd.spi with
        miso := encodeBlocks blocks ++ tail
        sent := sd.spi.sent ++ commandFrame 18 startBlock 0xff } } rfl rfl rfl
  have hmode := prefill_streamer readFast4
    (fun s => s.blockReadMode = ReadMode.ReadModeMultipleBlocks)
    (fun s hs => (readFast4_mode s).trans hs) fuel 0 (fun _ => 0) _
    (show ({ sd with
      blockByteCount := 0
      blockReadState := ReadState.ReadStateWait
      blockReadMode := ReadMode.ReadModeMultipleBlocks
      spi := { sd.spi with
        miso := encodeBlocks blocks ++ tail
        sent := sd.spi.sent ++ commandFrame 18 startBlock 0xff } } : SDCardState).blockReadMode =
        ReadMode.ReadModeMultipleBlocks from rfl)
  obtain ⟨buffer, s1, rs, hp, hf, hs, hbuf, hrl⟩ := prefill_inv readFast4
    (samples16 (payloadOf blocks)) (by omega) (blocksScript blocks) fuel 0 (fun _ => 0) _ hfol
    (by rw [scriptSamples_blocks blocks hb]; rfl) (by decide) (by decide)
    (fun j hj => by omega) hf2
  rw [hp] at hmode
  have hmode1 : s1.blockReadMode = ReadMode.ReadModeMultipleBlocks := hmode
  refine ⟨buffer, s1, rs, ⟨rfl, Nat.le_refl _, by simp only [], by simp only []; omega, hf,
    by simpa using hs, fun j hj => by simpa [Nat.mod_eq_of_lt hj] using hbuf j hj, rfl⟩, hrl, ?_⟩
  intro sampleCount
  have hml := mainLoop_streamer readFast4
    (fun s => s.blockReadMode = ReadMode.ReadModeMultipleBlocks)
    (fun s hs => (readFast4_mode s).trans hs) sampleCount fuel
    ⟨0, 0x100, buffer, s1, [], []⟩ hmode1
  obtain ⟨r, hr⟩ := stopRead_multi fuel _ hml
  unfold play
  simp only [h1, ne_eq, not_true_eq_false, if_false, hp]
  cases hx : (mainLoop readFast4 sampleCount fuel ⟨0, 0x100, buffer, s1, [], []⟩).2 with
  | none => simp
  | some x =>
    cases x with
    | readError => simp
    | done => simp [hr]

theorem shiftRight4_lt (x : Nat) (h : x < 65536) : x >>> 4 < 4096 := by
  rw [Nat.shiftRight_eq_div_pow]
  omega

theorem exampleBlocks_ok : ∀ b ∈ exampleBlocks, b.Ok := by
  intro b hb
  simp only [exampleBlocks, List.mem_cons, List.mem_singleton, List.not_mem_nil, or_false] at hb
  rcases hb with rfl | rfl | rfl | rfl | rfl | rfl <;>
    exact ⟨List.length_replicate _ _, fun x hx => by
      rw [List.eq_of_mem_replicate hx]; decide⟩

/-- C2: for every accepted read command, every stream of well formed blocks
(any busy bytes, token, 512 payload bytes, 2 trailer bytes each) and every
`n ≤ sampleCount`, the `n`-th value, counted from 0, that the main loop of
`play` hands to `setValue` is the `n`-th 16 bit little-endian sample of the
payload shifted right by 4, which is below 4096: no sample is dropped,
duplicated or reordered, whatever the busy times and also when the buffer
runs empty.  The value is set once `play` has run long enough and stays in
place.  The stream has to go on for as far as the loop reads ahead, 253 samples
beyond `n`. -/
theorem C2_nth_value_is_nth_sample (sd : SDCardState) (startBlock sampleCount n : Nat)
    (busy echo wait : List Nat) (blocks : List Block) (tail : List Nat)
    (hok : TranscriptOk busy echo wait)
    (hm : sd.spi.miso = startTranscript busy echo wait ++ (encodeBlocks blocks ++ tail))
    (hb : ∀ b ∈ blocks, b.Ok) (hn : n ≤ sampleCount) (hlen : n + 253 ≤ 256 * blocks.length) :
    ∃ fuel₀, ∀ fuel, fuel₀ ≤ fuel →
      (setValues (play fuel sd startBlock sampleCount).steady)[n]? =
        some ((samples16 (payloadOf blocks)).getD n 0 >>> 4) ∧
      (samples16 (payloadOf blocks)).getD n 0 >>> 4 < 4096 := by
  refine ⟨busy.length + (blocksScript blocks).length + n + 2, fun fuel hfuel => ⟨?_, ?_⟩⟩
  · have hD : (samples16 (payloadOf blocks)).length = 256 * blocks.length :=
      samples16_length _ _ (payloadOf_length blocks hb)
    obtain ⟨buffer, s1, rs, hinv, hrl, hplay⟩ := play_reaches_mainLoop fuel sd startBlock busy echo
      wait blocks tail hok hm hb (by omega) (by omega) (by omega)
    rw [(hplay sampleCount).1]
    exact mainLoop_nth readFast4 _ sampleCount n hn (by omega) fuel 0 rs _ hinv (Nat.zero_le _)
      (by omega)
  · exact shiftRight4_lt _ (samples16_lt _ (payloadOf_lt blocks hb) n)

/-- C2, witness: the sample 1024 of `play(100, 1024)` over six blocks. -/
theorem C2_nth_value_witness :
    ∃ fuel₀, ∀ fuel, fuel₀ ≤ fuel →
      (setValues (play fuel playCard 100 1024).steady)[1024]? =
        some ((samples16 (payloadOf exampleBlocks)).getD 1024 0 >>> 4) ∧
      (samples16 (payloadOf exampleBlocks)).getD 1024 0 >>> 4 < 4096 :=
  C2_nth_value_is_nth_sample playCard 100 1024 1024 [] [0xff, 0xff, 0xff, 0xff, 0xff, 0xff]
    [0xff] exampleBlocks [] (by simp [TranscriptOk]) rfl exampleBlocks_ok (Nat.le_refl _)
    (by decide)

/-- For every `sampleCount` below `0xffffffff`, over an accepted read command
and a stream of well formed blocks that goes on for 253 samples beyond
`sampleCount`, `play` returns true once it has run long enough, its main loop
has handed exactly the `sampleCount + 1` first samples to `setValue`, and the
output stage has seen the fade in, these values, the fade out and the
shutdown. -/
theorem play_emits_sampleCount_succ (sd : SDCardState) (startBlock sampleCount : Nat)
    (busy echo wait : List Nat) (blocks : List Block) (tail : List Nat)
    (hok : TranscriptOk busy echo wait)
    (hm : sd.spi.miso = startTranscript busy echo wait ++ (encodeBlocks blocks ++ tail))
    (hb : ∀ b ∈ blocks, b.Ok) (hsc : sampleCount + 1 < 4294967296)
    (hlen : sampleCount + 253 ≤ 256 * blocks.length) :
    ∃ fuel₀, ∀ fuel, fuel₀ ≤ fuel →
      (play fuel sd startBlock sampleCount).outcome = some true ∧
      setValues (play fuel sd startBlock sampleCount).steady =
        ((samples16 (payloadOf blocks)).take (sampleCount + 1)).map (fun x => x >>> 4) ∧
      (setValues (play fuel sd startBlock sampleCount).steady).length = sampleCount + 1 ∧
      (play fuel sd startBlock sampleCount).trace =
        fadeIn 0x800 0 ++ (play fuel sd startBlock sampleCount).steady ++
          (fadeOut 0x800 0x800 ++ [Event.shutdown]) := by
  refine ⟨busy.length + (blocksScript blocks).length + sampleCount + 2, fun fuel hfuel => ?_⟩
  have hD : (samples16 (payloadOf blocks)).length = 256 * blocks.length :=
    samples16_length _ _ (payloadOf_length blocks hb)
  obtain ⟨buffer, s1, rs, hinv, hrl, hplay⟩ := play_reaches_mainLoop fuel sd startBlock busy echo
    wait blocks tail hok hm hb (by omega) (by omega) (by omega)
  obtain ⟨rs', hdone, hfin⟩ := mainLoop_done readFast4 _ sampleCount hsc (by omega) fuel 0 rs _
    hinv (Nat.zero_le _) (by omega)
  obtain ⟨h1, h2, h3⟩ := (hplay sampleCount).2 hdone
  have hsv := hfin.2.2.2.2.2.2.2
  refine ⟨h1, ?_, ?_, ?_⟩
  · rw [(hplay sampleCount).1]; exact hsv
  · rw [(hplay sampleCount).1, hsv]
    simp only [List.length_map, List.length_take]
    omega
  · rw [PlayResult.trace, h2, h3]

/-- The call `play(100, 1024)` over six blocks sets exactly 1025 values. -/
theorem play_100_1024_emits_1025 :
    ∃ fuel₀, ∀ fuel, fuel₀ ≤ fuel →
      (play fuel playCard 100 1024).outcome = some true ∧
      setValues (play fuel playCard 100 1024).steady =
        ((samples16 (payloadOf exampleBlocks)).take (1024 + 1)).map (fun x => x >>> 4) ∧
      (setValues (play fuel playCard 100 1024).steady).length = 1024 + 1 ∧
      (play fuel playCard 100 1024).trace =
        fadeIn 0x800 0 ++ (play fuel playCard 100 1024).steady ++
          (fadeOut 0x800 0x800 ++ [Event.shutdown]) :=
  play_emits_sampleCount_succ playCard 100 1024 [] [0xff, 0xff, 0xff, 0xff, 0xff, 0xff]
    [0xff] exampleBlocks [] (by simp [TranscriptOk]) rfl exampleBlocks_ok (by decide)
    (by decide)


set_option maxRecDepth 100000 in
/-- A run of `play(100, 2)` over one block, evaluated: it returns true, sets
the three samples 0, 1, 2 and shuts the output stage down once. -/
theorem play_small_evaluated :
    (play 200 oneBlockCard 100 2).outcome = some true ∧
    setValues (play 200 oneBlockCard 100 2).steady = [160, 385, 609] ∧
    shutdownCount (play 200 oneBlockCard 100 2).trace = 1 := by
  decide

/-- C4 fails for `sampleCount = 0xffffffff`: the 32 bit cursor wraps to 0
before it can exceed `sampleCount`, so the main loop is never left in the
regular way and `play(startBlock, 0xffffffff)` never returns true, however
long it runs and whatever the card delivers. -/
theorem C4_play_max_sampleCount_never_returns (fuel : Nat) (sd : SDCardState) (startBlock : Nat) :
    (play fuel sd startBlock 4294967295).outcome ≠ some true := by
  unfold play
  simp only []
  cases hst : (startMultiReadLoop fuel sd startBlock).1 with
  | none => simp
  | some status =>
    simp only []
    by_cases hstatus : status = Status.StatusReady
    · subst hstatus
      simp only [ne_eq, not_true_eq_false, if_false]
      rcases hp : prefill readFast4 fuel 0 (fun _ => 0) (startMultiReadLoop fuel sd startBlock).2
        with ⟨x, buffer, s1⟩
      cases x with
      | running => simp
      | readError => simp
      | full =>
        simp only []
        have hm := mainLoop_never_done readFast4 4294967295 (Nat.le_refl _) fuel
          ⟨0, 0x100, buffer, s1, [], []⟩
        cases hml : (mainLoop readFast4 4294967295 fuel ⟨0, 0x100, buffer, s1, [], []⟩).2 with
        | none => simp
        | some x =>
          cases x with
          | readError => simp
          | done => exact absurd hml hm
    · simp [hstatus]



/-! ## The read session: claims C13 and C15 -/

set_option maxRecDepth 100000 in
/-- C13, counterexample: in a session that `readData` left 510 bytes into a block,
`readFast4` returns Ready and stores four bytes of which only the first two are
payload; the other two are the trailer of the block. -/
theorem C13_misaligned_delivers_trailer :
    (readData blockStart 510).status = Status.StatusReady ∧
    (readData blockStart 510).state.blockByteCount = 510 ∧
    (readFast4 (readData blockStart 510).state).status = Status.StatusReady ∧
    (readFast4 (readData blockStart 510).state).written = [7, 7, 0xaa, 0xbb] := by
  decide

theorem Spi.receiveN_take (n : Nat) (p : Spi) (xs rest : List Nat) (hm : p.miso = xs ++ rest)
    (hn : n ≤ xs.length) : (Spi.receiveN n p).1 = xs.take n := by
  have h : p.miso = xs.take n ++ (xs.drop n ++ rest) := by
    rw [hm, ← List.append_assoc, List.take_append_drop]
  have hl : (xs.take n).length = n := by simp; omega
  have := Spi.receiveN_append (xs.take n) _ p h
  rw [hl] at this
  rw [this]

/-- C13, amended: `readFast4` returns Ready exactly when it stored four bytes, and
stores none with every other status; with Ready the session was inside a block
and the bytes are the next four of the bus, which are payload bytes whenever at
least four bytes of the block were still to be read. -/
theorem C13_zero_or_four (s : SDCardState) :
    ((readFast4 s).status = Status.StatusReady ↔ (readFast4 s).written.length = 4) ∧
    ((readFast4 s).status ≠ Status.StatusReady → (readFast4 s).written = []) ∧
    ((readFast4 s).status = Status.StatusReady →
      s.blockReadState = ReadState.ReadStateReadData ∧
      (readFast4 s).written = (Spi.receiveN 4 s.spi).1) ∧
    (∀ xs rest : List Nat, (readFast4 s).status = Status.StatusReady →
      s.blockByteCount + 4 ≤ 512 → xs.length = 512 - s.blockByteCount →
      s.spi.miso = xs ++ rest → (readFast4 s).written = xs.take 4) := by
  have hl := Spi.receiveN_length 4 s.spi
  cases hs : s.blockReadState
  · simp only [readFast4, hs, spiReceive]
    split_ifs <;> simp
  · simp only [readFast4, hs, blockSize]
    split_ifs <;> simp only [hl, true_and, ne_eq, not_true_eq_false, false_implies, and_self,
      implies_true, true_implies] <;>
      exact fun xs rest hc hx hm => Spi.receiveN_take 4 s.spi xs rest hm (by omega)
  · simp [readFast4, hs, spiSkip]
  · simp [readFast4, hs]

theorem Advances.refl (mode : ReadMode) (a : ReadState) : Advances mode a a := Or.inl rfl

theorem readData_mode (s : SDCardState) (n : Nat) :
    (readData s n).state.blockReadMode = s.blockReadMode := by
  simp only [readData, readDataData, readDataCRC, spiReceive, spiSkip]
  split <;> (try split_ifs) <;> rfl

/-- C15, counterexample: a byte that is neither busy nor the token takes a waiting
session to Ended with both operations, and `readFast4` takes a single block
session from the trailer back to Waiting; neither lies on the chain. -/
theorem C15_error_leaves_chain :
    (readData badToken 4).state.blockReadState = ReadState.ReadStateEnd ∧
    (readFast4 badToken).state.blockReadState = ReadState.ReadStateEnd ∧
    ¬ Advances badToken.blockReadMode badToken.blockReadState ReadState.ReadStateEnd ∧
    (readFast4 trailerSingle).state.blockReadState = ReadState.ReadStateWait ∧
    ¬ Advances trailerSingle.blockReadMode trailerSingle.blockReadState
      ReadState.ReadStateWait := by
  unfold Advances
  decide

/-- C15, amended: `readData` leaves the state unchanged, advances it along the chain
of the mode, or fails in Waiting and ends the session; `readFast4` leaves the
state unchanged, advances it one step along the chain of the continuous mode
whatever the mode is, or fails in Waiting and ends the session; the mode never
changes. -/
theorem C15_state_machine (s : SDCardState) (n : Nat) :
    (Advances s.blockReadMode s.blockReadState (readData s n).state.blockReadState ∨
      ((readData s n).status = Status.StatusError ∧
        s.blockReadState = ReadState.ReadStateWait ∧
        (readData s n).state.blockReadState = ReadState.ReadStateEnd)) ∧
    ((readFast4 s).state.blockReadState = s.blockReadState ∨
      (readFast4 s).state.blockReadState =
        nextReadState ReadMode.ReadModeMultipleBlocks s.blockReadState ∨
      ((readFast4 s).status = Status.StatusError ∧
        s.blockReadState = ReadState.ReadStateWait ∧
        (readFast4 s).state.blockReadState = ReadState.ReadStateEnd)) ∧
    (readData s n).state.blockReadMode = s.blockReadMode ∧
    (readFast4 s).state.blockReadMode = s.blockReadMode := by
  refine ⟨?_, ?_, readData_mode s n, readFast4_mode s⟩
  · cases hs : s.blockReadState <;> cases hm : s.blockReadMode <;>
      simp only [readData, readDataData, readDataCRC, spiReceive, spiSkip, hs, hm, Advances,
        nextReadState] <;> (try split_ifs) <;> simp
  · cases hs : s.blockReadState <;>
      simp only [readFast4, spiReceive, spiSkip, hs, nextReadState, reduceCtorEq, if_false] <;>
      (try split_ifs) <;> simp

/-! ## Stopping a session: claims C11 and C12 -/

theorem waitUntilReadyLoop_frame (startTime timeoutMillis : Nat) :
    ∀ (n : Nat) (s : SDCardState),
      SameSession s (waitUntilReadyLoop startTime timeoutMillis n s).2 ∧
      (waitUntilReadyLoop startTime timeoutMillis n s).2.spi.sent = s.spi.sent := by
  intro n
  induction n with
  | zero => intro s; exact ⟨⟨rfl, rfl, rfl, rfl, rfl, rfl⟩, rfl⟩
  | succ n ih =>
    intro s
    simp only [waitUntilReadyLoop]
    split_ifs
    · exact ⟨⟨rfl, rfl, rfl, rfl, rfl, rfl⟩, rfl⟩
    · exact ih (millis (spiReceive s).2).2
    · exact ⟨⟨rfl, rfl, rfl, rfl, rfl, rfl⟩, rfl⟩

/-- The bound on the turns of `waitUntilReadyLoop` does not matter once it is
above the number of bytes that the bus still holds: a turn that goes on has
taken a byte other than `0xff` from the bus, and an exhausted bus reads
`0xff`. -/
theorem waitUntilReadyLoop_fuel (startTime timeoutMillis : Nat) :
    ∀ (n m : Nat) (s : SDCardState), s.spi.miso.length < n → s.spi.miso.length < m →
      waitUntilReadyLoop startTime timeoutMillis n s =
        waitUntilReadyLoop startTime timeoutMillis m s := by
  intro n
  induction n with
  | zero => intro m s hn; omega
  | succ n ih =>
    intro m s hn hm
    obtain ⟨m, rfl⟩ : ∃ k, m = k + 1 := ⟨m - 1, by omega⟩
    simp only [waitUntilReadyLoop]
    by_cases hr : (spiReceive s).1 = 0xff
    · rw [if_pos hr, if_pos hr]
    · rw [if_neg hr, if_neg hr]
      have hne : s.spi.miso ≠ [] := by
        intro he
        apply hr
        simp [spiReceive, Spi.receive, he]
      have hlen : (millis (spiReceive s).2).2.spi.miso.length + 1 = s.spi.miso.length := by
        show s.spi.miso.tail.length + 1 = s.spi.miso.length
        rw [List.length_tail]
        have := List.length_pos.mpr hne
        omega
      split_ifs
      · exact ih m _ (by omega) (by omega)
      · rfl

theorem waitUntilReady_frame (s : SDCardState) (t : Nat) :
    SameSession s (waitUntilReady s t).2 ∧ (waitUntilReady s t).2.spi.sent = s.spi.sent :=
  waitUntilReadyLoop_frame _ _ _ (millis s).2

theorem stopRead_multi_eq (fuel : Nat) (s : SDCardState)
    (h : s.blockReadMode ≠ ReadMode.ReadModeSingleBlock) :
    ∃ st s2, stopRead fuel s = some (st, s2) ∧
      s2.spi.sent = s.spi.sent ++ commandFrame 12 0 0xff ∧
      (st = Status.StatusReady ↔ responseByte 0x10 (s.spi.miso.drop 7) = 0) ∧
      SameSession s s2 := by
  have hsk : ∀ p : Spi, (Spi.receiveN 1 p).2 = { p with miso := p.miso.drop 1 } := by
    intro p
    simp [Spi.receiveN, Spi.receive]
  simp only [stopRead, h, if_false, spiSend6, spiSkip, hsk, pollResponse_eq, R1_ReadyState,
    List.drop_drop, Nat.reduceAdd]
  split_ifs with hr
  · refine ⟨_, _, rfl, ?_, ?_, ⟨rfl, rfl, rfl, rfl, rfl, rfl⟩⟩
    · simp [commandFrame, Command.code]
    · simpa using hr
  · refine ⟨_, _, rfl, ?_, ?_, (waitUntilReady_frame _ 300).1⟩
    · rw [(waitUntilReady_frame _ 300).2]
      simp [commandFrame, Command.code]
    · simpa using hr

theorem stopReadDrain_wait (xs rest : List Nat) (c1 c2 : Nat) :
    ∀ (k fuel : Nat) (s : SDCardState),
      s.blockReadMode = ReadMode.ReadModeSingleBlock →
      s.blockReadState = ReadState.ReadStateWait →
      s.blockByteCount < 512 → xs.length = 512 - s.blockByteCount →
      s.spi.miso = List.replicate k 0xff ++ 0xfe :: (xs ++ c1 :: c2 :: rest) → k < fuel →
      stopReadDrain fuel s 512 = some
        { s with
          spi := { s.spi with miso := rest }
          blockByteCount := 0
          blockReadState := ReadState.ReadStateEnd
          nullStores := s.nullStores ++ xs.enum } := by
  intro k
  induction k with
  | zero =>
    intro fuel s hmode hs hc hx hm hf
    obtain ⟨fuel, rfl⟩ : ∃ f, fuel = f + 1 := ⟨fuel - 1, by omega⟩
    simp only [List.replicate, List.nil_append] at hm
    have h1 := readData_token s 512 _ hs hm
    have h2 := (readData_last
      { s with
        spi := { s.spi with miso := xs ++ c1 :: c2 :: rest }
        blockReadState := ReadState.ReadStateReadData }
      512 xs rest c1 c2 rfl hc hx (by omega) rfl).trans (if_pos hmode)
    rw [stopReadDrain, h1, h2]
    simp
  | succ k ih =>
    intro fuel s hmode hs hc hx hm hf
    obtain ⟨fuel, rfl⟩ : ∃ f, fuel = f + 1 := ⟨fuel - 1, by omega⟩
    have hm2 : s.spi.miso = 0xff :: (List.replicate k 0xff ++ 0xfe :: (xs ++ c1 :: c2 :: rest)) := by
      rw [hm]; rfl
    have h1 := readData_busy s 512 _ hs hm2
    rw [stopReadDrain, h1]
    simp only [reduceCtorEq, if_false, List.enum_nil, List.append_nil]
    rw [ih fuel
      { s with spi := { s.spi with
          miso := List.replicate k 0xff ++ 0xfe :: (xs ++ c1 :: c2 :: rest) } }
      hmode hs hc hx rfl (by omega)]

/-- C12, code and claim apart: for a single block session over a bus that delivers
what is left of the block (in Waiting after `k` busy bytes and the token),
`stopRead` with more than `k` turns of its loop leaves the session Ended with
the count 0 and has taken from the bus the bytes up to and including the two
trailer bytes, so that the bus goes on with `rest`, as the claim says; but the
payload bytes `xs` that were left are stored through the null buffer pointer of
the drain, to the addresses 0, 1, ..  In Waiting and inside the payload there
is at least one such store, `512 - blockByteCount` of them; only a session in
front of its trailer is drained without a store, and a session that has ended
is left as it is. -/
theorem C12_stopRead_single (fuel k : Nat) (s : SDCardState) (xs rest : List Nat)
    (c1 c2 : Nat)
    (hmode : s.blockReadMode = ReadMode.ReadModeSingleBlock)
    (hx : s.blockReadState = ReadState.ReadStateWait ∨
        s.blockReadState = ReadState.ReadStateReadData →
      s.blockByteCount < 512 ∧ xs.length = 512 - s.blockByteCount)
    (hm : s.spi.miso = drainInput s.blockReadState k xs c1 c2 ++ rest)
    (hfuel : k < fuel) :
    stopRead fuel s = some (Status.StatusReady,
      if s.blockReadState = ReadState.ReadStateEnd then s
      else
        { s with
          spi := { s.spi with miso := rest }
          blockByteCount := 0
          blockReadState := ReadState.ReadStateEnd
          nullStores := s.nullStores ++
            if s.blockReadState = ReadState.ReadStateReadCRC then [] else xs.enum }) ∧
    (s.blockReadState = ReadState.ReadStateWait ∨
        s.blockReadState = ReadState.ReadStateReadData →
      xs.enum ≠ [] ∧ xs.enum.length = 512 - s.blockByteCount) := by
  obtain ⟨fuel, rfl⟩ : ∃ f, fuel = f + 1 := ⟨fuel - 1, by omega⟩
  refine ⟨?_, fun h => ?_⟩
  · cases hs : s.blockReadState with
    | ReadStateWait =>
      obtain ⟨hc, hl⟩ := hx (Or.inl hs)
      simp only [hs, drainInput, List.append_assoc, List.cons_append, List.nil_append] at hm
      simp only [stopRead, hmode, if_true, hs, ne_eq, reduceCtorEq, not_false_eq_true, blockSize,
        if_false, stopReadDrain_wait xs rest c1 c2 k (fuel + 1) s hmode hs hc hl hm hfuel,
        Option.map_some']
    | ReadStateReadData =>
      obtain ⟨hc, hl⟩ := hx (Or.inr hs)
      simp only [hs, drainInput, List.append_assoc, List.cons_append, List.nil_append] at hm
      have h2 := (readData_last s 512 xs rest c1 c2 hs hc hl (by omega) hm).trans (if_pos hmode)
      simp only [stopRead, hmode, if_true, hs, ne_eq, reduceCtorEq, not_false_eq_true, blockSize,
        if_false, stopReadDrain, h2, Option.map_some']
    | ReadStateReadCRC =>
      simp only [hs, drainInput, List.cons_append, List.nil_append] at hm
      have h2 : Spi.receiveN 2 s.spi = ([c1, c2], { s.spi with miso := rest }) :=
        Spi.receiveN_append [c1, c2] rest _ hm
      simp only [stopRead, hmode, if_true, hs, ne_eq, reduceCtorEq, not_false_eq_true, blockSize,
        if_false, stopReadDrain, readData, readDataCRC, spiSkip, h2, Option.map_some',
        List.enum_nil]
    | ReadStateEnd =>
      simp [stopRead, hmode, hs]
  · obtain ⟨hc, hl⟩ := hx h
    have hlen : xs.enum.length = 512 - s.blockByteCount := by rw [List.enum_length, hl]
    refine ⟨fun he => ?_, hlen⟩
    rw [he] at hlen
    simp at hlen
    omega

/-- C12, witness: a session 500 bytes into its block; the drain stores the 12
payload bytes that are left to the addresses 0 to 11. -/
theorem C12_stopRead_single_witness :
    stopRead 1 singleMid = some (Status.StatusReady,
      if singleMid.blockReadState = ReadState.ReadStateEnd then singleMid
      else
        { singleMid with
          spi := { singleMid.spi with miso := [1, 2, 3] }
          blockByteCount := 0
          blockReadState := ReadState.ReadStateEnd
          nullStores := singleMid.nullStores ++
            if singleMid.blockReadState = ReadState.ReadStateReadCRC then []
            else (List.replicate 12 7).enum }) ∧
    (singleMid.blockReadState = ReadState.ReadStateWait ∨
        singleMid.blockReadState = ReadState.ReadStateReadData →
      (List.replicate 12 7).enum ≠ [] ∧
        (List.replicate 12 7).enum.length = 512 - singleMid.blockByteCount) :=
  C12_stopRead_single 1 0 singleMid (List.replicate 12 7) [1, 2, 3] 0xaa 0xbb rfl
    (fun _ => ⟨by decide, by decide⟩) (by decide) (by decide)

/-- The drain of `singleMid` evaluated: `stopRead` returns Ready, and the state
it leaves lists twelve stores through the null pointer, to the addresses 0 to
11, where there was none before. -/
theorem stopRead_singleMid_null_stores :
    singleMid.nullStores = [] ∧
    ∃ s1, stopRead 1 singleMid = some (Status.StatusReady, s1) ∧
      s1.blockReadState = ReadState.ReadStateEnd ∧ s1.spi.miso = [1, 2, 3] ∧
      s1.nullStores = [(0, 7), (1, 7), (2, 7), (3, 7), (4, 7), (5, 7), (6, 7), (7, 7),
        (8, 7), (9, 7), (10, 7), (11, 7)] := by
  refine ⟨rfl, _, rfl, ?_, ?_, ?_⟩ <;> decide

/-! ## The two read operations: claim C14 -/

theorem session_eta (s : SDCardState) (p : Spi) (hs : s.blockReadState = ReadState.ReadStateWait)
    (hc : s.blockByteCount = 0) :
    { s with spi := p, blockByteCount := 0, blockReadState := ReadState.ReadStateWait } =
      { s with spi := p } := by
  cases s
  simp only at hs hc
  subst hs hc
  rfl

theorem fastRun_add (n m : Nat) :
    ∀ s : SDCardState, fastRun (n + m) s =
      ((fastRun n s).1 ++ (fastRun m (fastRun n s).2).1, (fastRun m (fastRun n s).2).2) := by
  induction n with
  | zero => intro s; simp [fastRun]
  | succ n ih =>
    intro s
    rw [Nat.add_right_comm, fastRun, ih]
    simp [fastRun]

theorem dataRun_add (keep : Status → Bool) (n m : Nat) :
    ∀ s : SDCardState, dataRun keep (n + m) s =
      ((dataRun keep n s).1 ++ (dataRun keep m (dataRun keep n s).2).1,
        (dataRun keep m (dataRun keep n s).2).2) := by
  induction n with
  | zero => intro s; simp [dataRun]
  | succ n ih =>
    intro s
    rw [Nat.add_right_comm, dataRun, ih]
    simp [dataRun]

theorem fastRun_busy (m : List Nat) :
    ∀ (k : Nat) (s : SDCardState), s.blockReadState = ReadState.ReadStateWait →
      s.spi.miso = List.replicate k 0xff ++ m →
      fastRun k s = ([], { s with spi := { s.spi with miso := m } }) := by
  intro k
  induction k with
  | zero =>
    intro s hs hm
    simp only [List.replicate, List.nil_append] at hm
    simp only [fastRun, ← hm]
  | succ k ih =>
    intro s hs hm
    have hm2 : s.spi.miso = 0xff :: (List.replicate k 0xff ++ m) := by rw [hm]; rfl
    rw [fastRun, readFast4_busy s _ hs hm2]
    simp only [reduceCtorEq, if_false, List.nil_append]
    rw [ih { s with spi := { s.spi with miso := List.replicate k 0xff ++ m } } hs rfl]

theorem dataRun_busy (keep : Status → Bool) (m : List Nat) :
    ∀ (k : Nat) (s : SDCardState), s.blockReadState = ReadState.ReadStateWait →
      s.spi.miso = List.replicate k 0xff ++ m →
      dataRun keep k s = ([], { s with spi := { s.spi with miso := m } }) := by
  intro k
  induction k with
  | zero =>
    intro s hs hm
    simp only [List.replicate, List.nil_append] at hm
    simp only [dataRun, ← hm]
  | succ k ih =>
    intro s hs hm
    have hm2 : s.spi.miso = 0xff :: (List.replicate k 0xff ++ m) := by rw [hm]; rfl
    rw [dataRun, readData_busy s 4 _ hs hm2]
    simp only [ite_self, List.nil_append]
    rw [ih { s with spi := { s.spi with miso := List.replicate k 0xff ++ m } } hs rfl]

theorem take4 (xs : List Nat) (h : 4 ≤ xs.length) :
    ∃ a b c d ys, xs = a :: b :: c :: d :: ys := by
  rcases xs with _|⟨a,_|⟨b,_|⟨c,_|⟨d,ys⟩⟩⟩⟩ <;> simp at h
  exact ⟨a, b, c, d, ys, rfl⟩

/-- The calls of `readFast4` over what is left of a block and its trailer. -/
theorem fastRun_payload (rest : List Nat) (c1 c2 : Nat) :
    ∀ (j : Nat) (s : SDCardState) (xs : List Nat),
      xs.length = 4 * j → s.blockByteCount + 4 * j = 512 →
      s.blockReadState =
        (if j = 0 then ReadState.ReadStateReadCRC else ReadState.ReadStateReadData) →
      s.spi.miso = xs ++ c1 :: c2 :: rest →
      fastRun (j + 1) s = (xs,
        { s with
          spi := { s.spi with miso := rest }
          blockByteCount := 0
          blockReadState := ReadState.ReadStateWait }) := by
  intro j
  induction j with
  | zero =>
    intro s xs hx hc hs hm
    have : xs = [] := List.length_eq_zero.mp (by omega)
    subst this
    simp only [if_true] at hs
    rw [fastRun, readFast4_crc s c1 c2 rest hs hm]
    simp [fastRun]
  | succ j ih =>
    intro s xs hx hc hs hm
    obtain ⟨a, b, c, d, ys, rfl⟩ := take4 xs (by omega)
    simp only [Nat.add_one_ne_zero, if_false] at hs
    rw [fastRun, readFast4_data s a b c d (ys ++ c1 :: c2 :: rest) hs (by omega) hm]
    simp only [if_true]
    rw [ih
      { s with
        spi := { s.spi with miso := ys ++ c1 :: c2 :: rest }
        blockByteCount := s.blockByteCount + 4
        blockReadState :=
          if s.blockByteCount + 4 = 512 then ReadState.ReadStateReadCRC
          else ReadState.ReadStateReadData }
      ys (by simp at hx; omega) (by show s.blockByteCount + 4 + 4 * j = 512; omega)
      (by
        show (if s.blockByteCount + 4 = 512 then ReadState.ReadStateReadCRC
          else ReadState.ReadStateReadData) = _
        by_cases hj : j = 0
        · have : s.blockByteCount + 4 = 512 := by omega
          simp [hj, this]
        · have : ¬ s.blockByteCount + 4 = 512 := by omega
          simp [hj, this])
      rfl]
    rfl

/-- The calls of `readData` over what is left of a block and its trailer: the
last call stores four bytes and returns Wait. -/
theorem dataRun_payload (keep : Status → Bool) (hk : keep Status.StatusReady = true)
    (rest : List Nat) (c1 c2 : Nat) :
    ∀ (j : Nat) (s : SDCardState) (xs : List Nat),
      s.blockReadMode = ReadMode.ReadModeMultipleBlocks →
      xs.length = 4 * (j + 1) → s.blockByteCount + 4 * (j + 1) = 512 →
      s.blockReadState = ReadState.ReadStateReadData →
      s.spi.miso = xs ++ c1 :: c2 :: rest →
      dataRun keep (j + 1) s =
        (xs.take (4 * j) ++ (if keep Status.StatusWait then xs.drop (4 * j) else []),
        { s with
          spi := { s.spi with miso := rest }
          blockByteCount := 0
          blockReadState := ReadState.ReadStateWait }) := by
  intro j
  induction j with
  | zero =>
    intro s xs hmode hx hc hs hm
    have h := readData_last s 4 xs rest c1 c2 hs (by omega) (by omega) (by omega) hm
    rw [if_neg (by rw [hmode]; decide)] at h
    rw [dataRun, h]
    simp [dataRun]
  | succ j ih =>
    intro s xs hmode hx hc hs hm
    obtain ⟨a, b, c, d, ys, rfl⟩ := take4 xs (by omega)
    have h := readData_inside s 4 [a, b, c, d] (ys ++ c1 :: c2 :: rest) hs (by omega) rfl hm
    have e := ih
      { s with
        spi := { s.spi with miso := ys ++ c1 :: c2 :: rest }
        blockByteCount := s.blockByteCount + 4 }
      ys hmode (by simp at hx; omega) (by show s.blockByteCount + 4 + 4 * (j + 1) = 512; omega)
      hs rfl
    have h4 : 4 * (j + 1) = 4 * j + 1 + 1 + 1 + 1 := by omega
    rw [dataRun, h]
    simp only [hk, if_true]
    rw [e, h4]
    simp only [List.take_succ_cons, List.drop_succ_cons, List.cons_append, List.nil_append]

theorem fastRun_block (s : SDCardState) (b : Block) (rest : List Nat)
    (hs : s.blockReadState = ReadState.ReadStateWait) (hc : s.blockByteCount = 0)
    (hb : b.payload.length = 512) (hm : s.spi.miso = encodeBlock b ++ rest) :
    fastRun (b.busy + 130) s = (b.payload, { s with spi := { s.spi with miso := rest } }) := by
  have hm1 : s.spi.miso =
      List.replicate b.busy 0xff ++ 0xfe :: (b.payload ++ b.crc1 :: b.crc2 :: rest) := by
    rw [hm, encodeBlock]; simp
  have e1 := fastRun_busy (0xfe :: (b.payload ++ b.crc1 :: b.crc2 :: rest)) b.busy s hs hm1
  have e2 : fastRun 1 { s with
        spi := { s.spi with miso := 0xfe :: (b.payload ++ b.crc1 :: b.crc2 :: rest) } } =
      ([], { s with
        spi := { s.spi with miso := b.payload ++ b.crc1 :: b.crc2 :: rest }
        blockReadState := ReadState.ReadStateReadData }) := by
    rw [fastRun, readFast4_token
      { s with spi := { s.spi with miso := 0xfe :: (b.payload ++ b.crc1 :: b.crc2 :: rest) } }
      (b.payload ++ b.crc1 :: b.crc2 :: rest) hs rfl]
    simp [fastRun]
  have hl : b.payload.length = 4 * 128 := hb
  have hcnt : s.blockByteCount + 4 * 128 = 512 := by omega
  have e3 := fastRun_payload rest b.crc1 b.crc2 128
    { s with
      spi := { s.spi with miso := b.payload ++ b.crc1 :: b.crc2 :: rest }
      blockReadState := ReadState.ReadStateReadData }
    b.payload hl hcnt (by simp) rfl
  have hn : b.busy + 130 = b.busy + (1 + (128 + 1)) := by omega
  rw [hn, fastRun_add, e1, fastRun_add, e2, e3]
  exact Prod.ext rfl (session_eta s _ hs hc)

theorem dataRun_block (keep : Status → Bool) (hk : keep Status.StatusReady = true)
    (s : SDCardState) (b : Block) (rest : List Nat)
    (hmode : s.blockReadMode = ReadMode.ReadModeMultipleBlocks)
    (hs : s.blockReadState = ReadState.ReadStateWait) (hc : s.blockByteCount = 0)
    (hb : b.payload.length = 512) (hm : s.spi.miso = encodeBlock b ++ rest) :
    dataRun keep (b.busy + 128) s =
      (b.payload.take 508 ++ (if keep Status.StatusWait then b.payload.drop 508 else []),
        { s with spi := { s.spi with miso := rest } }) := by
  have hm1 : s.spi.miso =
      List.replicate b.busy 0xff ++ 0xfe :: (b.payload ++ b.crc1 :: b.crc2 :: rest) := by
    rw [hm, encodeBlock]; simp
  obtain ⟨a0, a1, a2, a3, ys, hp⟩ := take4 b.payload (by omega)
  have e1 := dataRun_busy keep (0xfe :: (b.payload ++ b.crc1 :: b.crc2 :: rest)) b.busy s hs hm1
  have hcnt4 : s.blockByteCount + 4 < 512 := by omega
  have hmy : (0xfe :: (b.payload ++ b.crc1 :: b.crc2 :: rest)) =
      0xfe :: ([a0, a1, a2, a3] ++ (ys ++ b.crc1 :: b.crc2 :: rest)) := by
    rw [hp]; rfl
  have h1 := readData_token_inside
    { s with spi := { s.spi with miso := 0xfe :: (b.payload ++ b.crc1 :: b.crc2 :: rest) } }
    4 [a0, a1, a2, a3] (ys ++ b.crc1 :: b.crc2 :: rest) hs hcnt4 rfl hmy
  have e2 : dataRun keep 1 { s with
        spi := { s.spi with miso := 0xfe :: (b.payload ++ b.crc1 :: b.crc2 :: rest) } } =
      ([a0, a1, a2, a3], { s with
        spi := { s.spi with miso := ys ++ b.crc1 :: b.crc2 :: rest }
        blockByteCount := s.blockByteCount + 4
        blockReadState := ReadState.ReadStateReadData }) := by
    rw [dataRun, h1]; simp [dataRun, hk]
  have hl : ys.length = 4 * (126 + 1) := by
    rw [hp] at hb; simp at hb; omega
  have hcnt : s.blockByteCount + 4 + 4 * (126 + 1) = 512 := by omega
  have e3 := dataRun_payload keep hk rest b.crc1 b.crc2 126
    { s with
      spi := { s.spi with miso := ys ++ b.crc1 :: b.crc2 :: rest }
      blockByteCount := s.blockByteCount + 4
      blockReadState := ReadState.ReadStateReadData }
    ys hmode hl hcnt rfl rfl
  have hn : b.busy + 128 = b.busy + (1 + (126 + 1)) := by omega
  have h508 : (508 : Nat) = 4 * 126 + 1 + 1 + 1 + 1 := by norm_num
  rw [hn, dataRun_add, e1, dataRun_add, e2, e3]
  refine Prod.ext ?_ (session_eta s _ hs hc)
  rw [hp, h508]
  simp only [List.take_succ_cons, List.drop_succ_cons, List.cons_append, List.nil_append]

theorem fastRun_blocks (tail : List Nat) :
    ∀ (blocks : List Block) (s : SDCardState),
      s.blockReadState = ReadState.ReadStateWait → s.blockByteCount = 0 →
      (∀ b ∈ blocks, b.payload.length = 512) →
      s.spi.miso = encodeBlocks blocks ++ tail →
      fastRun (fastCalls blocks) s =
        (payloadOf blocks, { s with spi := { s.spi with miso := tail } }) := by
  intro blocks
  induction blocks with
  | nil =>
    intro s hs hc hb hm
    simp only [encodeBlocks, List.nil_append] at hm
    simp only [fastCalls, fastRun, payloadOf, ← hm]
  | cons b bs ih =>
    intro s hs hc hb hm
    have hm1 : s.spi.miso = encodeBlock b ++ (encodeBlocks bs ++ tail) := by
      rw [hm, encodeBlocks, List.append_assoc]
    rw [fastCalls, fastRun_add, fastRun_block s b _ hs hc (hb b (by simp)) hm1]
    simp only
    rw [ih { s with spi := { s.spi with miso := encodeBlocks bs ++ tail } } hs hc
      (fun x hx => hb x (by simp [hx])) rfl]
    rfl

theorem dataRun_blocks (keep : Status → Bool) (hk : keep Status.StatusReady = true)
    (tail : List Nat) :
    ∀ (blocks : List Block) (s : SDCardState),
      s.blockReadMode = ReadMode.ReadModeMultipleBlocks →
      s.blockReadState = ReadState.ReadStateWait → s.blockByteCount = 0 →
      (∀ b ∈ blocks, b.payload.length = 512) →
      s.spi.miso = encodeBlocks blocks ++ tail →
      dataRun keep (dataCalls blocks) s =
        (if keep Status.StatusWait then payloadOf blocks else payloadHeads blocks,
          { s with spi := { s.spi with miso := tail } }) := by
  intro blocks
  induction blocks with
  | nil =>
    intro s hmode hs hc hb hm
    simp only [encodeBlocks, List.nil_append] at hm
    simp only [dataCalls, dataRun, payloadOf, payloadHeads, ite_self, ← hm]
  | cons b bs ih =>
    intro s hmode hs hc hb hm
    have hm1 : s.spi.miso = encodeBlock b ++ (encodeBlocks bs ++ tail) := by
      rw [hm, encodeBlocks, List.append_assoc]
    rw [dataCalls, dataRun_add, dataRun_block keep hk s b _ hmode hs hc (hb b (by simp)) hm1]
    simp only
    rw [ih { s with spi := { s.spi with miso := encodeBlocks bs ++ tail } } hmode hs hc
      (fun x hx => hb x (by simp [hx])) rfl]
    refine Prod.ext ?_ rfl
    cases hw : keep Status.StatusWait
    · simp [payloadHeads]
    · simp [payloadOf]

theorem payloadHeads_length :
    ∀ blocks : List Block, (∀ b ∈ blocks, b.payload.length = 512) →
      (payloadHeads blocks).length = 508 * blocks.length ∧
      (payloadOf blocks).length = 512 * blocks.length := by
  intro blocks
  induction blocks with
  | nil => intro _; exact ⟨rfl, rfl⟩
  | cons b bs ih =>
    intro hb
    have h1 := hb b (by simp)
    obtain ⟨h2, h3⟩ := ih (fun x hx => hb x (by simp [hx]))
    simp only [payloadHeads, payloadOf, List.length_append, List.length_take, List.length_cons,
      h1, h2, h3]
    omega

theorem fastRun_prefix (n N : Nat) (s : SDCardState) (h : n ≤ N) :
    (fastRun n s).1 <+: (fastRun N s).1 := by
  obtain ⟨m, rfl⟩ := Nat.exists_eq_add_of_le h
  rw [fastRun_add]
  exact List.prefix_append _ _

theorem dataRun_prefix (keep : Status → Bool) (n N : Nat) (s : SDCardState) (h : n ≤ N) :
    (dataRun keep n s).1 <+: (dataRun keep N s).1 := by
  obtain ⟨m, rfl⟩ := Nat.exists_eq_add_of_le h
  rw [dataRun_add]
  exact List.prefix_append _ _

/-- C14, code and claim apart: in a continuous session in Waiting over well formed
blocks, the calls of `readFast4` deliver, four bytes at each Ready, the
payloads of the blocks one after the other without tokens and trailers.  The
calls of `readData` with four bytes store the same bytes and end in the same
state with the bus after the last trailer, but the call that stores the last
four bytes of a block returns Wait: a client that takes the bytes of the calls
that return Ready (and of any other status but Wait) gets every payload without
its last four bytes, 508 of 512 bytes per block, and so another sequence than
the client of `readFast4` as soon as there is one block; every shorter run of
it has delivered a prefix of that shortened sequence. -/
theorem C14_readData_client_misses_block_ends (keep : Status → Bool) (s : SDCardState)
    (blocks : List Block) (tail : List Nat)
    (hk : keep Status.StatusReady = true) (hw : keep Status.StatusWait = false)
    (hmode : s.blockReadMode = ReadMode.ReadModeMultipleBlocks)
    (hs : s.blockReadState = ReadState.ReadStateWait) (hc : s.blockByteCount = 0)
    (hb : ∀ b ∈ blocks, b.payload.length = 512)
    (hm : s.spi.miso = encodeBlocks blocks ++ tail) :
    (fastRun (fastCalls blocks) s).1 = payloadOf blocks ∧
    (dataRun keep (dataCalls blocks) s).1 = payloadHeads blocks ∧
    (dataRun everyStore (dataCalls blocks) s).1 = payloadOf blocks ∧
    (fastRun (fastCalls blocks) s).2 = { s with spi := { s.spi with miso := tail } } ∧
    (dataRun keep (dataCalls blocks) s).2 = { s with spi := { s.spi with miso := tail } } ∧
    (payloadOf blocks).length = 512 * blocks.length ∧
    (payloadHeads blocks).length = 508 * blocks.length ∧
    (blocks ≠ [] →
      (dataRun keep (dataCalls blocks) s).1 ≠ (fastRun (fastCalls blocks) s).1) ∧
    (∀ n ≤ fastCalls blocks, (fastRun n s).1 <+: payloadOf blocks) ∧
    (∀ n ≤ dataCalls blocks, (dataRun keep n s).1 <+: payloadHeads blocks) := by
  have hf := fastRun_blocks tail blocks s hs hc hb hm
  have hd := dataRun_blocks keep hk tail blocks s hmode hs hc hb hm
  have he := dataRun_blocks everyStore rfl tail blocks s hmode hs hc hb hm
  rw [hw] at hd
  simp only [Bool.false_eq_true, if_false] at hd
  simp only [everyStore, if_true] at he
  obtain ⟨l1, l2⟩ := payloadHeads_length blocks hb
  refine ⟨by rw [hf], by rw [hd], by rw [he], by rw [hf], by rw [hd], l2, l1, ?_, ?_, ?_⟩
  · intro hne h
    rw [hf, hd] at h
    have hl := congrArg List.length h
    rw [l1, l2] at hl
    have : 0 < blocks.length := List.length_pos.mpr hne
    omega
  · intro n hn
    have := fastRun_prefix n _ s hn
    rwa [hf] at this
  · intro n hn
    have := dataRun_prefix keep n _ s hn
    rwa [hd] at this

/-- C14, witness: two blocks, the second after two busy bytes, and the client that
takes the bytes at Ready. -/
theorem C14_readData_client_misses_block_ends_witness :
    (fastRun (fastCalls twoBlocks) twoBlockSession).1 = payloadOf twoBlocks ∧
    (dataRun atReady (dataCalls twoBlocks) twoBlockSession).1 = payloadHeads twoBlocks ∧
    (dataRun everyStore (dataCalls twoBlocks) twoBlockSession).1 = payloadOf twoBlocks ∧
    (fastRun (fastCalls twoBlocks) twoBlockSession).2 =
      { twoBlockSession with spi := { twoBlockSession.spi with miso := [0xff, 0xff, 0xff] } } ∧
    (dataRun atReady (dataCalls twoBlocks) twoBlockSession).2 =
      { twoBlockSession with spi := { twoBlockSession.spi with miso := [0xff, 0xff, 0xff] } } ∧
    (payloadOf twoBlocks).length = 512 * twoBlocks.length ∧
    (payloadHeads twoBlocks).length = 508 * twoBlocks.length ∧
    (twoBlocks ≠ [] →
      (dataRun atReady (dataCalls twoBlocks) twoBlockSession).1 ≠
        (fastRun (fastCalls twoBlocks) twoBlockSession).1) ∧
    (∀ n ≤ fastCalls twoBlocks, (fastRun n twoBlockSession).1 <+: payloadOf twoBlocks) ∧
    (∀ n ≤ dataCalls twoBlocks,
      (dataRun atReady n twoBlockSession).1 <+: payloadHeads twoBlocks) :=
  C14_readData_client_misses_block_ends atReady twoBlockSession twoBlocks [0xff, 0xff, 0xff]
    rfl rfl rfl rfl rfl (by simp [twoBlocks]) rfl

set_option maxRecDepth 100000 in
/-- The two clients over `twoBlockSession`: the client of `readFast4` has 1024
bytes, the client of `readData` that takes the bytes at Ready, or at Ready and
EndOfBlock, has 1016; the eight bytes that are missing are the last four of
each block.  The call number 128 of `readData` stores the last four bytes of the
first block and returns Wait. -/
theorem twoBlockSession_clients :
    (fastRun (fastCalls twoBlocks) twoBlockSession).1.length = 1024 ∧
    (dataRun atReady (dataCalls twoBlocks) twoBlockSession).1.length = 1016 ∧
    (dataRun atReadyOrEnd (dataCalls twoBlocks) twoBlockSession).1.length = 1016 ∧
    (dataRun everyStore (dataCalls twoBlocks) twoBlockSession).1.length = 1024 ∧
    (dataRun atReady 127 twoBlockSession).2.blockByteCount = 508 ∧
    (readData (dataRun atReady 127 twoBlockSession).2 4).status = Status.StatusWait ∧
    (readData (dataRun atReady 127 twoBlockSession).2 4).written = [231, 238, 245, 252] ∧
    ((payloadOf twoBlocks).drop 508).take 4 = [231, 238, 245, 252] := by
  have hb : ∀ b ∈ twoBlocks, b.payload.length = 512 := by simp [twoBlocks]
  have hf := fastRun_blocks [0xff, 0xff, 0xff] twoBlocks twoBlockSession rfl rfl hb rfl
  have h1 := dataRun_blocks atReady rfl [0xff, 0xff, 0xff] twoBlocks twoBlockSession
    rfl rfl rfl hb rfl
  have h2 := dataRun_blocks atReadyOrEnd rfl [0xff, 0xff, 0xff] twoBlocks twoBlockSession
    rfl rfl rfl hb rfl
  have h3 := dataRun_blocks everyStore rfl [0xff, 0xff, 0xff] twoBlocks twoBlockSession
    rfl rfl rfl hb rfl
  obtain ⟨l1, l2⟩ := payloadHeads_length twoBlocks hb
  refine ⟨by rw [hf, l2]; rfl, by rw [h1]; exact l1, by rw [h2]; exact l1,
    by rw [h3]; exact l2, ?_, ?_, ?_, ?_⟩ <;> decide

/-! ## The directory: claims C16 and C17 -/

/-- C16: for a name and a directory of C strings, `findFile` returns the earliest
entry whose name equals the given one byte for byte, and nothing exactly when
no entry has that name. -/
theorem C16_findFile_first_match (s : SDCardState) (name : List Nat)
    (hname : ∀ b ∈ name, b ≠ 0)
    (hdir : ∀ e ∈ s.directoryEntry, ∀ b ∈ e.fileName, b ≠ 0) :
    (∀ e : DirectoryEntry, findFile s name = some e ↔
      ∃ pre post, s.directoryEntry = pre ++ e :: post ∧ e.fileName = name ∧
        ∀ x ∈ pre, x.fileName ≠ name) ∧
    (findFile s name = none ↔ ∀ x ∈ s.directoryEntry, x.fileName ≠ name) := by
  have hn := cstr_of_no_nul name hname
  constructor
  · intro e
    rw [findFile, List.find?_eq_some]
    constructor
    · rintro ⟨hp, pre, post, hl, hpre⟩
      have he : e ∈ s.directoryEntry := by rw [hl]; simp
      refine ⟨pre, post, hl, ?_, ?_⟩
      · have := of_decide_eq_true hp
        rw [hn, cstr_of_no_nul _ (hdir e he)] at this
        exact this.symm
      · intro x hx hxn
        have hxm : x ∈ s.directoryEntry := by rw [hl]; simp [hx]
        have := hpre x hx
        rw [hn, cstr_of_no_nul _ (hdir x hxm)] at this
        simp [hxn] at this
    · rintro ⟨pre, post, hl, hen, hpre⟩
      have he : e ∈ s.directoryEntry := by rw [hl]; simp
      refine ⟨?_, pre, post, hl, ?_⟩
      · rw [hn, cstr_of_no_nul _ (hdir e he)]
        simp [hen]
      · intro x hx
        have hxm : x ∈ s.directoryEntry := by rw [hl]; simp [hx]
        rw [hn, cstr_of_no_nul _ (hdir x hxm)]
        have := hpre x hx
        simp
        exact fun h => this h.symm
  · rw [findFile, List.find?_eq_none]
    constructor
    · intro h x hx hxn
      have := h x hx
      rw [hn, cstr_of_no_nul _ (hdir x hx)] at this
      simp [hxn] at this
    · intro h x hx
      rw [hn, cstr_of_no_nul _ (hdir x hx)]
      have := h x hx
      simp
      exact fun h' => this h'.symm

/-- C16, witness: the directory A.RAW, B.RAW and the name B.RAW. -/
theorem C16_findFile_example :
    (∀ e : DirectoryEntry, findFile exampleCatalog [0x42, 0x2e, 0x52, 0x41, 0x57] = some e ↔
      ∃ pre post, exampleCatalog.directoryEntry = pre ++ e :: post ∧
        e.fileName = [0x42, 0x2e, 0x52, 0x41, 0x57] ∧
        ∀ x ∈ pre, x.fileName ≠ [0x42, 0x2e, 0x52, 0x41, 0x57]) ∧
    (findFile exampleCatalog [0x42, 0x2e, 0x52, 0x41, 0x57] = none ↔
      ∀ x ∈ exampleCatalog.directoryEntry, x.fileName ≠ [0x42, 0x2e, 0x52, 0x41, 0x57]) :=
  C16_findFile_first_match exampleCatalog [0x42, 0x2e, 0x52, 0x41, 0x57] (by decide) (by decide)

/-- On the directory A.RAW at 100, B.RAW at 200 the name B.RAW finds the entry of
block 200 and the name b.raw finds nothing. -/
theorem findFile_example_evaluated :
    findFile exampleCatalog [0x42, 0x2e, 0x52, 0x41, 0x57] =
      some ⟨200, 4096, [0x42, 0x2e, 0x52, 0x41, 0x57]⟩ ∧
    findFile exampleCatalog [0x62, 0x2e, 0x72, 0x61, 0x77] = none := by
  decide

/-- C17: when the read of block 0 is accepted and the block starts with four bytes
other than the tag, `readDirectory` returns Error with `Error_UnknownMagic`,
leaves the directory as it was and takes nothing from the bus after the four
bytes. -/
theorem C17_unknown_magic (fuel k : Nat) (busy echo wait m rest : List Nat) (s : SDCardState)
    (hok : TranscriptOk busy echo wait)
    (hm : s.spi.miso = startTranscript busy echo wait ++
      (List.replicate k 0xff ++ 0xfe :: (m ++ rest)))
    (hlen : m.length = 4) (hne : m ≠ magic) (hfuel : busy.length + k < fuel) :
    ∃ s', readDirectory fuel s = some (Status.StatusError, s') ∧
      s'.error = Error.Error_UnknownMagic ∧ s'.directoryEntry = s.directoryEntry ∧
      s'.spi.miso = rest := by
  have h1 := synchronousStartRead_accept busy fuel s 0 echo wait _ hok hm (by omega)
  have h2 := synchronousReadData_first k fuel
    { s with
      blockByteCount := 0
      blockReadState := ReadState.ReadStateWait
      blockReadMode := ReadMode.ReadModeSingleBlock
      spi := { s.spi with
        miso := List.replicate k 0xff ++ 0xfe :: (m ++ rest)
        sent := s.spi.sent ++ commandFrame 17 0 0xff } }
    (List.replicate 9 0xaa) m rest 4 rfl (by show 0 + 4 < 512; omega) rfl hlen (by omega)
  have htake : (store (List.replicate 9 0xaa) m).take 4 = m := by
    rw [store, ← hlen, List.take_left]
  have heq : readDirectory fuel s = some (Status.StatusError,
      { s with
        error := Error.Error_UnknownMagic
        blockByteCount := 0 + 4
        blockReadState := ReadState.ReadStateReadData
        blockReadMode := ReadMode.ReadModeSingleBlock
        spi := { s.spi with miso := rest, sent := s.spi.sent ++ commandFrame 17 0 0xff } }) := by
    rw [readDirectory, h1]
    simp only [reduceCtorEq, if_false, h2, htake, ne_eq, hne, not_false_eq_true, if_true]
  exact ⟨_, heq, rfl, rfl, rfl⟩

/-- C17, witness: a block that starts with H, C, D, X. -/
theorem C17_unknown_magic_witness :
    ∃ s', readDirectory 4 wrongTagCard = some (Status.StatusError, s') ∧
      s'.error = Error.Error_UnknownMagic ∧ s'.directoryEntry = wrongTagCard.directoryEntry ∧
      s'.spi.miso = [100, 0, 0, 0, 9] :=
  C17_unknown_magic 4 2 [0x00] [0xff, 0xff, 0xff, 0xff, 0xff, 0xff] [0xff]
    [0x48, 0x43, 0x44, 0x58] [100, 0, 0, 0, 9] wrongTagCard (by simp [TranscriptOk]) rfl rfl
    (by decide) (by decide)

/-! ## The command frame: claim C18 -/

theorem tail5 (l : List Nat) : l.tail.tail.tail.tail.tail = l.drop 5 := by
  rcases l with _|⟨_,_|⟨_,_|⟨_,_|⟨_,_|⟨_,_⟩⟩⟩⟩⟩ <;> rfl

theorem spiSend5 (s : SDCardState) (a b c d e : Nat) :
    spiSend (spiSend (spiSend (spiSend (spiSend s a) b) c) d) e =
      { s with spi := { s.spi with
          miso := s.spi.miso.drop 5
          sent := s.spi.sent ++ [a % 256, b % 256, c % 256, d % 256, e % 256] } } := by
  simp [spiSend, Spi.send, tail5]

theorem sendCommand_split (s : SDCardState) (c : Command) (argument : Nat) :
    sendCommand s c argument = sendFrame (sendEscape s c) c argument := rfl

theorem sendEscape_eq (s : SDCardState) (c : Command) :
    sendEscape s c = { s with spi := { s.spi with
      miso := s.spi.miso.drop (escapeTransfers c s.spi.miso)
      sent := s.spi.sent ++ (if c.isApp then escapeBytes else []) } } := by
  by_cases h : c.code &&& 0x100 ≠ 0
  · have hb : c.isApp = true := by simp [Command.isApp, h]
    simp only [sendEscape, h, ne_eq, not_false_eq_true, if_true, spiSend5, pollResponse_eq,
      escapeTransfers, hb, escapeBytes, List.drop_drop]
    rfl
  · have hb : c.isApp = false := by simpa [Command.isApp] using h
    simp [sendEscape, h, escapeTransfers, hb]

theorem sendFrame_eq (s0 : SDCardState) (c : Command) (argument : Nat) :
    (sendFrame s0 c argument).1 = responseByte 0x10 (s0.spi.miso.drop 6) ∧
    (sendFrame s0 c argument).2.2.spi.sent =
      s0.spi.sent ++ commandFrame c.index argument c.crc := by
  have hidx : ((c.code &&& 0x3f) ||| 0x40) % 256 = 0x40 ||| c.index := by
    cases c <;> decide
  have hcrc : (if c = Command.Cmd_GoIdleState then 0x95
      else if c = Command.Cmd_SendIfCond then 0x87 else 0xff) % 256 = c.crc := by
    cases c <;> decide
  simp only [sendFrame, spiSend6, pollResponse_eq, hidx, hcrc]
  split_ifs <;> simp [commandFrame, Spi.receiveN_sent]

/-- C18: `sendCommand` sends, after what was sent before, the escape (index 55, zero
argument, five bytes) exactly when the command is the application command, and
then the frame of six bytes with the index, the argument from the high byte down
and the CRC byte 0x95 for index 0, 0x87 for index 8 and 0xff otherwise; the
response is polled after the transfers of the escape and of the frame. -/
theorem C18_command_frame (s : SDCardState) (c : Command) (argument : Nat) :
    (sendCommand s c argument).2.2.spi.sent =
      s.spi.sent ++ (if c.isApp then escapeBytes else []) ++
        commandFrame c.index argument c.crc ∧
    (sendCommand s c argument).1 =
      responseByte 0x10 (s.spi.miso.drop (escapeTransfers c s.spi.miso + 6)) ∧
    (c.isApp = true ↔ c = Command.ACmd_SendOpCond) ∧
    (c.crc = if c.index = 0 then 0x95 else if c.index = 8 then 0x87 else 0xff) ∧
    c.index < 64 := by
  rw [sendCommand_split]
  obtain ⟨h1, h2⟩ := sendFrame_eq (sendEscape s c) c argument
  refine ⟨?_, ?_, ?_, ?_, ?_⟩
  · rw [h2, sendEscape_eq]
  · rw [h1, sendEscape_eq]
    simp [List.drop_drop, Nat.add_comm]
  · cases c <;> decide
  · cases c <;> decide
  · cases c <;> decide

/-! ## The bring-up: claims C19 and C20 -/

theorem SameSession.trans {a b c : SDCardState} (h1 : SameSession a b) (h2 : SameSession b c) :
    SameSession a c := by
  unfold SameSession at h1 h2 ⊢
  refine ⟨?_, ?_, ?_, ?_, ?_, ?_⟩
  · rw [h2.1, h1.1]
  · rw [h2.2.1, h1.2.1]
  · rw [h2.2.2.1, h1.2.2.1]
  · rw [h2.2.2.2.1, h1.2.2.2.1]
  · rw [h2.2.2.2.2.1, h1.2.2.2.2.1]
  · rw [h2.2.2.2.2.2, h1.2.2.2.2.2]

theorem sendCommand_session (s : SDCardState) (c : Command) (argument : Nat) :
    SameSession s (sendCommand s c argument).2.2 := by
  rw [sendCommand_split, sendEscape_eq]
  simp only [sendFrame, spiSend6, pollResponse_eq]
  split_ifs <;> exact ⟨rfl, rfl, rfl, rfl, rfl, rfl⟩

theorem waitAndSendCommand_session (s : SDCardState) (c : Command) (argument : Nat) :
    SameSession s (waitAndSendCommand s c argument).2.2 :=
  (waitUntilReady_frame s 300).1.trans (sendCommand_session _ c argument)

theorem sendOpCondLoop_session (startTime argument : Nat) :
    ∀ (fuel : Nat) (s : SDCardState) (r : Bool × SDCardState),
      sendOpCondLoop fuel startTime argument s = some r → SameSession s r.2 := by
  intro fuel
  induction fuel with
  | zero => intro s r h; simp [sendOpCondLoop] at h
  | succ fuel ih =>
    intro s r h
    have hw := waitAndSendCommand_session s Command.ACmd_SendOpCond argument
    simp only [sendOpCondLoop] at h
    have hmi : SameSession (waitAndSendCommand s Command.ACmd_SendOpCond argument).2.2
        (millis (waitAndSendCommand s Command.ACmd_SendOpCond argument).2.2).2 :=
      ⟨rfl, rfl, rfl, rfl, rfl, rfl⟩
    split_ifs at h with h1 h2
    · cases h
      exact hw.trans hmi
    · exact (hw.trans hmi).trans (ih _ _ h)
    · cases h
      exact hw

theorem initializeBlockLength_ready (result : Nat) (ocr : Option Nat) (s : SDCardState)
    (h : (initializeBlockLength result ocr s).status = Status.StatusReady) :
    (initializeBlockLength result ocr s).result = result ∧
    (initializeBlockLength result ocr s).ocr = ocr ∧
    (initializeBlockLength result ocr s).state.cardType = s.cardType := by
  have hw := waitAndSendCommand_session s Command.Cmd_SetBlockLenght blockSize
  revert h
  simp only [initializeBlockLength]
  split_ifs
  · simp
  · intro _
    exact ⟨rfl, rfl, hw.2.1⟩

theorem initializeOpCond_ready (fuel startTime result : Nat) (s : SDCardState) (r : InitResult)
    (h : initializeOpCond fuel startTime result s = some r)
    (hr : r.status = Status.StatusReady) :
    r.result = result ∧
    (s.cardType ≠ CardType.CardTypeSD2 → r.ocr = none ∧ r.state.cardType = s.cardType) ∧
    (s.cardType = CardType.CardTypeSD2 →
      ∃ (s1 : SDCardState) (v : Nat),
        (waitAndSendCommand s1 Command.Cmd_ReadOCR 0).2.1 = some v ∧ r.ocr = some v ∧
        r.state.cardType =
          if v &&& 0xc0000000 ≠ 0 then CardType.CardTypeSDHC else CardType.CardTypeSD2) := by
  simp only [initializeOpCond] at h
  cases hl : sendOpCondLoop fuel startTime
      (if s.cardType = CardType.CardTypeSD2 then 0x40000000 else 0x00000000) s with
  | none => simp [hl] at h
  | some p =>
    obtain ⟨b, s1⟩ := p
    have hs1 : s1.cardType = s.cardType := (sendOpCondLoop_session _ _ _ _ _ hl).2.1
    cases b with
    | false =>
      simp only [hl, Option.some.injEq] at h
      subst h
      cases hr
    | true =>
      simp only [hl] at h
      by_cases hc : s.cardType = CardType.CardTypeSD2
      · have hc1 : s1.cardType = CardType.CardTypeSD2 := hs1.trans hc
        have hw := waitAndSendCommand_session s1 Command.Cmd_ReadOCR 0
        have hv : ∃ v, (waitAndSendCommand s1 Command.Cmd_ReadOCR 0).2.1 = some v := by
          simp [waitAndSendCommand, sendCommand, Command.code]
        obtain ⟨v, hv⟩ := hv
        simp only [hc1, if_true, hv, Option.getD_some] at h
        split_ifs at h with h1 h2
        · simp only [Option.some.injEq] at h
          subst h
          cases hr
        · simp only [Option.some.injEq] at h
          subst h
          obtain ⟨e1, e2, e3⟩ := initializeBlockLength_ready _ _ _ hr
          exact ⟨e1, fun hn => absurd hc hn, fun _ => ⟨s1, v, hv, e2, by rw [e3, if_pos h2]⟩⟩
        · simp only [Option.some.injEq] at h
          subst h
          obtain ⟨e1, e2, e3⟩ := initializeBlockLength_ready _ _ _ hr
          exact ⟨e1, fun hn => absurd hc hn,
            fun _ => ⟨s1, v, hv, e2, by rw [e3, if_neg h2, hw.2.1, hc1]⟩⟩
      · have hc1 : ¬ s1.cardType = CardType.CardTypeSD2 := by rw [hs1]; exact hc
        simp only [hc1, if_false, Option.some.injEq] at h
        subst h
        obtain ⟨e1, e2, e3⟩ := initializeBlockLength_ready _ _ _ hr
        exact ⟨e1, fun _ => ⟨e2, e3.trans hs1⟩, fun hn => absurd hn hc⟩

theorem waitAndSendCommand_sent (s : SDCardState) (c : Command) (argument : Nat) :
    (waitAndSendCommand s c argument).2.2.spi.sent =
      s.spi.sent ++ (if c.isApp then escapeBytes else []) ++
        commandFrame c.index argument c.crc := by
  rw [waitAndSendCommand, sendCommand_split, (sendFrame_eq _ c argument).2, sendEscape_eq]
  simp only []
  rw [(waitUntilReady_frame s 300).2]

theorem waitAndSendCommand_value (s : SDCardState) (c : Command) (argument : Nat)
    (h : c.code &&& 0x00c0 ≠ 0) : ∃ v, (waitAndSendCommand s c argument).2.1 = some v := by
  simp [waitAndSendCommand, sendCommand, h]

theorem sentWithout_refl (x : Nat) (s : SDCardState) : SentWithout x s s :=
  ⟨[], by simp, by simp⟩

theorem sentWithout_step {x : Nat} {a b c : SDCardState} (h1 : SentWithout x a b)
    (h2 : SentWithout x b c) : SentWithout x a c := by
  obtain ⟨e1, h1, n1⟩ := h1
  obtain ⟨e2, h2, n2⟩ := h2
  refine ⟨e1 ++ e2, by rw [h2, h1, List.append_assoc], ?_⟩
  intro hx
  rcases List.mem_append.mp hx with h | h
  · exact n1 h
  · exact n2 h

theorem spiWait_sent (s : SDCardState) (n : Nat) : SentWithout (0x40 ||| 58) s (spiWait s n) := by
  induction n with
  | zero => exact sentWithout_refl _ s
  | succ n ih =>
    refine sentWithout_step ih ⟨[0xff], ?_, by decide⟩
    simp [spiWait, spiSend, Spi.send]

theorem millis_sent (x : Nat) (s : SDCardState) : SentWithout x s (millis s).2 :=
  ⟨[], by simp [millis], by simp⟩

/-- The commands of the bring-up other than the read of the register, with the
arguments they are sent with, send no byte `0x7a`. -/
theorem waitAndSendCommand_without (s : SDCardState) (c : Command) (argument : Nat)
    (h : (0x40 ||| 58) ∉ (if c.isApp then escapeBytes else []) ++
      commandFrame c.index argument c.crc) :
    SentWithout (0x40 ||| 58) s (waitAndSendCommand s c argument).2.2 :=
  ⟨_, by rw [waitAndSendCommand_sent, List.append_assoc], h⟩

theorem goIdleLoop_sent (startTime : Nat) :
    ∀ (fuel : Nat) (s : SDCardState) (r : Bool × SDCardState),
      goIdleLoop fuel startTime s = some r → SentWithout (0x40 ||| 58) s r.2 := by
  intro fuel
  induction fuel with
  | zero => intro s r h; simp [goIdleLoop] at h
  | succ fuel ih =>
    intro s r h
    have hw := waitAndSendCommand_without s Command.Cmd_GoIdleState 0 (by decide)
    have hmi := millis_sent (0x40 ||| 58) (waitAndSendCommand s Command.Cmd_GoIdleState 0).2.2
    simp only [goIdleLoop] at h
    split_ifs at h with h1 h2
    · cases h
      exact sentWithout_step hw hmi
    · exact sentWithout_step (sentWithout_step hw hmi) (ih _ _ h)
    · cases h
      exact hw

theorem sendOpCondLoop_sent (startTime : Nat) :
    ∀ (fuel : Nat) (s : SDCardState) (r : Bool × SDCardState),
      sendOpCondLoop fuel startTime 0 s = some r → SentWithout (0x40 ||| 58) s r.2 := by
  intro fuel
  induction fuel with
  | zero => intro s r h; simp [sendOpCondLoop] at h
  | succ fuel ih =>
    intro s r h
    have hw := waitAndSendCommand_without s Command.ACmd_SendOpCond 0 (by decide)
    have hmi := millis_sent (0x40 ||| 58) (waitAndSendCommand s Command.ACmd_SendOpCond 0).2.2
    simp only [sendOpCondLoop] at h
    split_ifs at h with h1 h2
    · cases h
      exact sentWithout_step hw hmi
    · exact sentWithout_step (sentWithout_step hw hmi) (ih _ _ h)
    · cases h
      exact hw

theorem initializeBlockLength_state (result : Nat) (ocr : Option Nat) (s : SDCardState)
    (h : (initializeBlockLength result ocr s).status = Status.StatusReady) :
    (initializeBlockLength result ocr s).state =
      (waitAndSendCommand s Command.Cmd_SetBlockLenght blockSize).2.2 ∧
    (initializeBlockLength result ocr s).state.spi.sent =
      s.spi.sent ++ commandFrame 16 512 0xff := by
  have hs := waitAndSendCommand_sent s Command.Cmd_SetBlockLenght blockSize
  revert h
  simp only [initializeBlockLength]
  split_ifs
  · simp
  · intro _
    have h1 : Command.Cmd_SetBlockLenght.isApp = false := by decide
    have h2 : Command.Cmd_SetBlockLenght.index = 16 := by decide
    have h3 : Command.Cmd_SetBlockLenght.crc = 0xff := rfl
    have h4 : blockSize = 512 := rfl
    refine ⟨rfl, ?_⟩
    rw [hs, h1, h2, h3, h4]
    simp

/-- The Ready path of `initializeOpCond` for a card that is not of type SD2:
the loop ended with the card ready, and the block length follows at once. -/
theorem initializeOpCond_legacy (fuel startTime result : Nat) (s : SDCardState) (r : InitResult)
    (hc : s.cardType ≠ CardType.CardTypeSD2)
    (h : initializeOpCond fuel startTime result s = some r)
    (hr : r.status = Status.StatusReady) :
    ∃ s5, sendOpCondLoop fuel startTime 0 s = some (true, s5) ∧
      r = initializeBlockLength result none s5 := by
  simp only [initializeOpCond, if_neg hc] at h
  cases hl : sendOpCondLoop fuel startTime 0 s with
  | none => simp [hl] at h
  | some p =>
    obtain ⟨b, s1⟩ := p
    have hs1 : s1.cardType = s.cardType := (sendOpCondLoop_session _ _ _ _ _ hl).2.1
    have hc1 : ¬ s1.cardType = CardType.CardTypeSD2 := by rw [hs1]; exact hc
    cases b with
    | false =>
      simp only [hl, Option.some.injEq] at h
      subst h
      cases hr
    | true =>
      simp only [hl, hc1, if_false, Option.some.injEq] at h
      exact ⟨s1, rfl, h.symm⟩

/-- The Ready path of `initializeOpCond` for a card of type SD2: the loop ended
with the card ready, the read of the register was answered with `0x00`, and the
block length follows with the card type set from the value read. -/
theorem initializeOpCond_v2 (fuel startTime result : Nat) (s : SDCardState) (r : InitResult)
    (hc : s.cardType = CardType.CardTypeSD2)
    (h : initializeOpCond fuel startTime result s = some r)
    (hr : r.status = Status.StatusReady) :
    ∃ s5 v, sendOpCondLoop fuel startTime 0x40000000 s = some (true, s5) ∧
      (waitAndSendCommand s5 Command.Cmd_ReadOCR 0).1 = 0 ∧
      (waitAndSendCommand s5 Command.Cmd_ReadOCR 0).2.1 = some v ∧
      r = initializeBlockLength result (some v)
        (if v &&& 0xc0000000 ≠ 0 then
          { (waitAndSendCommand s5 Command.Cmd_ReadOCR 0).2.2 with
            cardType := CardType.CardTypeSDHC }
        else (waitAndSendCommand s5 Command.Cmd_ReadOCR 0).2.2) := by
  simp only [initializeOpCond, if_pos hc] at h
  cases hl : sendOpCondLoop fuel startTime 0x40000000 s with
  | none => simp [hl] at h
  | some p =>
    obtain ⟨b, s1⟩ := p
    have hs1 : s1.cardType = s.cardType := (sendOpCondLoop_session _ _ _ _ _ hl).2.1
    have hc1 : s1.cardType = CardType.CardTypeSD2 := hs1.trans hc
    cases b with
    | false =>
      simp only [hl, Option.some.injEq] at h
      subst h
      cases hr
    | true =>
      obtain ⟨v, hv⟩ := waitAndSendCommand_value s1 Command.Cmd_ReadOCR 0 (by decide)
      simp only [hl, hc1, if_true, hv, Option.getD_some, R1_ReadyState] at h
      split_ifs at h with h1 h2
      · simp only [Option.some.injEq] at h
        subst h
        cases hr
      · simp only [Option.some.injEq] at h
        exact ⟨s1, v, rfl, not_not.mp h1, hv, by rw [if_pos h2]; exact h.symm⟩
      · simp only [Option.some.injEq] at h
        exact ⟨s1, v, rfl, not_not.mp h1, hv, by rw [if_neg h2]; exact h.symm⟩

/-- C19: when `initialize` returns Ready, the go-idle loop of this bring-up ended
with the card idle in a state `s3`, and `result` is the response that the card
gave to `Cmd_SendIfCond` sent from there.  The card type is SD1 exactly when
that response has the illegal command bit `0x04`.  Then the operating condition
loop, run with the argument 0, ended with the card ready in a state `s5`, the
rest of the bring-up is the block length command sent from `s5`, no register
value is kept, and among all the bytes that the bring-up sent there is no
`0x7a`, the first byte of the frame of command 58: the register is not read.
Otherwise the loop ran with the argument `0x40000000`, the frame of command 58
followed by that of command 16 is what was sent after it, the card answered
command 58 with `0x00` and the value `v`, and the card type is SDHC when `v` has
one of the bits 31 and 30, SD2 when it has neither: a function of these two
bits alone. -/
theorem C19_classification (fuel : Nat) (s : SDCardState) (r : InitResult)
    (h : initializeCard fuel s = some r) (hr : r.status = Status.StatusReady) :
    ∃ s3 : SDCardState,
      goIdleLoop fuel ((millis s).1 % 65536) (spiWait (spiWait (millis s).2 100) 2) =
        some (true, s3) ∧
      r.result = (waitAndSendCommand s3 Command.Cmd_SendIfCond 0x01aa).1 ∧
      (r.state.cardType = CardType.CardTypeSD1 ↔ r.result &&& 0x04 ≠ 0) ∧
      (r.result &&& 0x04 ≠ 0 →
        r.ocr = none ∧
        (∃ s5 : SDCardState,
          sendOpCondLoop fuel ((millis s).1 % 65536) 0
              { (waitAndSendCommand s3 Command.Cmd_SendIfCond 0x01aa).2.2 with
                cardType := CardType.CardTypeSD1 } = some (true, s5) ∧
            r = initializeBlockLength r.result none s5 ∧
            r.state.spi.sent = s5.spi.sent ++ commandFrame 16 512 0xff) ∧
        ∃ extra, r.state.spi.sent = s.spi.sent ++ extra ∧ (0x40 ||| 58) ∉ extra) ∧
      (r.result &&& 0x04 = 0 →
        ∃ (s5 : SDCardState) (v : Nat),
          sendOpCondLoop fuel ((millis s).1 % 65536) 0x40000000
              { (waitAndSendCommand s3 Command.Cmd_SendIfCond 0x01aa).2.2 with
                cardType := CardType.CardTypeSD2 } = some (true, s5) ∧
            (waitAndSendCommand s5 Command.Cmd_ReadOCR 0).1 = 0 ∧
            (waitAndSendCommand s5 Command.Cmd_ReadOCR 0).2.1 = some v ∧
            r.ocr = some v ∧
            r.state.cardType =
              (if v &&& 0xc0000000 ≠ 0 then CardType.CardTypeSDHC
                else CardType.CardTypeSD2) ∧
            r.state.spi.sent =
              s5.spi.sent ++ commandFrame 58 0 0xff ++ commandFrame 16 512 0xff) := by
  simp only [initializeCard] at h
  cases hl : goIdleLoop fuel ((millis s).1 % 65536) (spiWait (spiWait (millis s).2 100) 2) with
  | none => simp [hl] at h
  | some p =>
    obtain ⟨b, s3⟩ := p
    cases b with
    | false =>
      simp only [hl, Option.some.injEq] at h
      subst h
      cases hr
    | true =>
      simp only [hl, R1_IllegalCommand] at h
      refine ⟨s3, rfl, ?_⟩
      split_ifs at h with h1 h2
      · obtain ⟨s5, hloop, hre⟩ := initializeOpCond_legacy _ _ _ _ _ (by simp) h hr
        have hr2 := hr
        rw [hre] at hr2
        obtain ⟨e1, e2, e3⟩ := initializeBlockLength_ready _ _ _ hr2
        obtain ⟨-, e5⟩ := initializeBlockLength_state _ _ _ hr2
        have hres : r.result = (waitAndSendCommand s3 Command.Cmd_SendIfCond 0x01aa).1 := by
          rw [hre]; exact e1
        have hty : r.state.cardType = CardType.CardTypeSD1 := by
          rw [hre, e3]
          exact (sendOpCondLoop_session _ _ _ _ _ hloop).2.1
        have hw : SentWithout (0x40 ||| 58) s r.state := by
          have a1 := millis_sent (0x40 ||| 58) s
          have a2 := spiWait_sent (spiWait (millis s).2 100) 2
          have a3 := spiWait_sent (millis s).2 100
          have a4 := goIdleLoop_sent _ _ _ _ hl
          have a5 := waitAndSendCommand_without s3 Command.Cmd_SendIfCond 0x01aa (by decide)
          have a6 : SentWithout (0x40 ||| 58)
              (waitAndSendCommand s3 Command.Cmd_SendIfCond 0x01aa).2.2
              { (waitAndSendCommand s3 Command.Cmd_SendIfCond 0x01aa).2.2 with
                cardType := CardType.CardTypeSD1 } := ⟨[], by simp, by simp⟩
          have a7 := sendOpCondLoop_sent _ _ _ _ hloop
          have a8 : SentWithout (0x40 ||| 58) s5 r.state :=
            ⟨commandFrame 16 512 0xff, by rw [hre]; exact e5, by decide⟩
          exact sentWithout_step (sentWithout_step (sentWithout_step (sentWithout_step
            (sentWithout_step (sentWithout_step (sentWithout_step a1 a3) a2) a4) a5) a6) a7) a8
        refine ⟨hres, ?_, ?_, ?_⟩
        · rw [hty, hres]
          exact ⟨fun _ => h1, fun _ => rfl⟩
        · intro _
          refine ⟨by rw [hre]; exact e2, ⟨s5, hloop, ?_, by rw [hre]; exact e5⟩, hw⟩
          rw [hres]
          exact hre
        · intro h0
          rw [hres] at h0
          exact absurd h0 h1
      · simp only [Option.some.injEq] at h
        subst h
        cases hr
      · obtain ⟨s5, v, hloop, hz, hv, hre⟩ := initializeOpCond_v2 _ _ _ _ _ rfl h hr
        have hr2 := hr
        rw [hre] at hr2
        obtain ⟨e1, e2, e3⟩ := initializeBlockLength_ready _ _ _ hr2
        obtain ⟨-, e5⟩ := initializeBlockLength_state _ _ _ hr2
        have hres : r.result = (waitAndSendCommand s3 Command.Cmd_SendIfCond 0x01aa).1 := by
          rw [hre]; exact e1
        have hs5 : s5.cardType = CardType.CardTypeSD2 :=
          (sendOpCondLoop_session _ _ _ _ _ hloop).2.1
        have hc58 : (waitAndSendCommand s5 Command.Cmd_ReadOCR 0).2.2.cardType =
            CardType.CardTypeSD2 :=
          (waitAndSendCommand_session s5 Command.Cmd_ReadOCR 0).2.1.trans hs5
        have hs58 := waitAndSendCommand_sent s5 Command.Cmd_ReadOCR 0
        have hty : r.state.cardType =
            (if v &&& 0xc0000000 ≠ 0 then CardType.CardTypeSDHC
              else CardType.CardTypeSD2) := by
          rw [hre, e3]
          split_ifs
          · rfl
          · exact hc58
        have hsent : r.state.spi.sent =
            s5.spi.sent ++ commandFrame 58 0 0xff ++ commandFrame 16 512 0xff := by
          rw [hre, e5]
          have : (if v &&& 0xc0000000 ≠ 0 then
              { (waitAndSendCommand s5 Command.Cmd_ReadOCR 0).2.2 with
                cardType := CardType.CardTypeSDHC }
            else (waitAndSendCommand s5 Command.Cmd_ReadOCR 0).2.2).spi.sent =
              (waitAndSendCommand s5 Command.Cmd_ReadOCR 0).2.2.spi.sent := by
            split_ifs <;> rfl
          have k1 : Command.Cmd_ReadOCR.isApp = false := by decide
          have k2 : Command.Cmd_ReadOCR.index = 58 := by decide
          have k3 : Command.Cmd_ReadOCR.crc = 0xff := rfl
          rw [this, hs58, k1, k2, k3]
          simp
        refine ⟨hres, ?_, ?_, ?_⟩
        · rw [hty, hres]
          constructor
          · intro hh
            split_ifs at hh
          · intro hh
            exact absurd hh h1
        · intro h0
          rw [hres] at h0
          exact absurd h0 h1
        · intro _
          exact ⟨s5, v, hloop, hz, hv, by rw [hre]; exact e2, hty, hsent⟩

set_option maxRecDepth 100000 in
/-- C19, witness: the bring-up of a card of version 2 whose register reads
`0xc0000000`, and the bring-up of a card of version 1. -/
theorem C19_classification_witness :
    (∃ s3 : SDCardState,
        goIdleLoop 1 ((millis (v2Card [0xc0, 0, 0, 0])).1 % 65536)
            (spiWait (spiWait (millis (v2Card [0xc0, 0, 0, 0])).2 100) 2) =
          some (true, s3) ∧
        v2Ready.result = (waitAndSendCommand s3 Command.Cmd_SendIfCond 0x01aa).1 ∧
        (v2Ready.state.cardType = CardType.CardTypeSD1 ↔ v2Ready.result &&& 0x04 ≠ 0) ∧
        (v2Ready.result &&& 0x04 ≠ 0 →
          v2Ready.ocr = none ∧
          (∃ s5 : SDCardState,
            sendOpCondLoop 1 ((millis (v2Card [0xc0, 0, 0, 0])).1 % 65536) 0
                { (waitAndSendCommand s3 Command.Cmd_SendIfCond 0x01aa).2.2 with
                  cardType := CardType.CardTypeSD1 } = some (true, s5) ∧
              v2Ready = initializeBlockLength v2Ready.result none s5 ∧
              v2Ready.state.spi.sent = s5.spi.sent ++ commandFrame 16 512 0xff) ∧
          ∃ extra, v2Ready.state.spi.sent = (v2Card [0xc0, 0, 0, 0]).spi.sent ++ extra ∧
            (0x40 ||| 58) ∉ extra) ∧
        (v2Ready.result &&& 0x04 = 0 →
          ∃ (s5 : SDCardState) (v : Nat),
            sendOpCondLoop 1 ((millis (v2Card [0xc0, 0, 0, 0])).1 % 65536) 0x40000000
                { (waitAndSendCommand s3 Command.Cmd_SendIfCond 0x01aa).2.2 with
                  cardType := CardType.CardTypeSD2 } = some (true, s5) ∧
              (waitAndSendCommand s5 Command.Cmd_ReadOCR 0).1 = 0 ∧
              (waitAndSendCommand s5 Command.Cmd_ReadOCR 0).2.1 = some v ∧
              v2Ready.ocr = some v ∧
              v2Ready.state.cardType =
                (if v &&& 0xc0000000 ≠ 0 then CardType.CardTypeSDHC
                  else CardType.CardTypeSD2) ∧
              v2Ready.state.spi.sent =
                s5.spi.sent ++ commandFrame 58 0 0xff ++ commandFrame 16 512 0xff)) ∧
    (∃ s3 : SDCardState,
        goIdleLoop 1 ((millis legacyCard).1 % 65536)
            (spiWait (spiWait (millis legacyCard).2 100) 2) =
          some (true, s3) ∧
        legacyReady.result = (waitAndSendCommand s3 Command.Cmd_SendIfCond 0x01aa).1 ∧
        (legacyReady.state.cardType = CardType.CardTypeSD1 ↔
          legacyReady.result &&& 0x04 ≠ 0) ∧
        (legacyReady.result &&& 0x04 ≠ 0 →
          legacyReady.ocr = none ∧
          (∃ s5 : SDCardState,
            sendOpCondLoop 1 ((millis legacyCard).1 % 65536) 0
                { (waitAndSendCommand s3 Command.Cmd_SendIfCond 0x01aa).2.2 with
                  cardType := CardType.CardTypeSD1 } = some (true, s5) ∧
              legacyReady = initializeBlockLength legacyReady.result none s5 ∧
              legacyReady.state.spi.sent = s5.spi.sent ++ commandFrame 16 512 0xff) ∧
          ∃ extra, legacyReady.state.spi.sent = legacyCard.spi.sent ++ extra ∧
            (0x40 ||| 58) ∉ extra) ∧
        (legacyReady.result &&& 0x04 = 0 →
          ∃ (s5 : SDCardState) (v : Nat),
            sendOpCondLoop 1 ((millis legacyCard).1 % 65536) 0x40000000
                { (waitAndSendCommand s3 Command.Cmd_SendIfCond 0x01aa).2.2 with
                  cardType := CardType.CardTypeSD2 } = some (true, s5) ∧
              (waitAndSendCommand s5 Command.Cmd_ReadOCR 0).1 = 0 ∧
              (waitAndSendCommand s5 Command.Cmd_ReadOCR 0).2.1 = some v ∧
              legacyReady.ocr = some v ∧
              legacyReady.state.cardType =
                (if v &&& 0xc0000000 ≠ 0 then CardType.CardTypeSDHC
                  else CardType.CardTypeSD2) ∧
              legacyReady.state.spi.sent =
                s5.spi.sent ++ commandFrame 58 0 0xff ++ commandFrame 16 512 0xff)) :=
  ⟨C19_classification 1 (v2Card [0xc0, 0, 0, 0]) v2Ready (by decide) rfl,
    C19_classification 1 legacyCard legacyReady (by decide) rfl⟩

set_option maxRecDepth 100000 in
/-- The bring-up evaluated on three cards: a card of version 1, and cards of
version 2 whose register has neither or both of the bits 31 and 30. -/
theorem initializeCard_examples :
    (initializeCard 1 legacyCard).map (fun r => (r.status, r.result, r.ocr, r.state.cardType)) =
      some (Status.StatusReady, 0x05, none, CardType.CardTypeSD1) ∧
    (initializeCard 1 (v2Card [0x00, 0xff, 0x80, 0x00])).map
        (fun r => (r.status, r.result, r.ocr, r.state.cardType)) =
      some (Status.StatusReady, 0x01, some 0x00ff8000, CardType.CardTypeSD2) ∧
    (initializeCard 1 (v2Card [0xc0, 0xff, 0x80, 0x00])).map
        (fun r => (r.status, r.result, r.ocr, r.state.cardType)) =
      some (Status.StatusReady, 0x01, some 0xc0ff8000, CardType.CardTypeSDHC) := by
  decide

set_option maxRecDepth 100000 in
/-- C20, code and claim apart: the bring-up of a card of version 2 whose register
reads `0x80000000` (power-up bit alone) returns Ready with the card type SDHC,
and so does the register `0x40000000`; the test is
`(responseValue & 0xc0000000) != 0`. -/
theorem C20_one_bit_gives_SDHC :
    (initializeCard 1 (v2Card [0x80, 0, 0, 0])).map
        (fun r => (r.status, r.result, r.ocr, r.state.cardType)) =
      some (Status.StatusReady, 0x01, some 0x80000000, CardType.CardTypeSDHC) ∧
    (initializeCard 1 (v2Card [0x40, 0, 0, 0])).map
        (fun r => (r.status, r.result, r.ocr, r.state.cardType)) =
      some (Status.StatusReady, 0x01, some 0x40000000, CardType.CardTypeSDHC) := by
  decide

/-! ## The bring-up and the error code: claims C21 and C22 -/

set_option maxRecDepth 100000 in
/-- C21, counterexample: a card that echoes `0x000002aa` or `0xffffffaa` to the
interface condition sent with `0x000001aa` passes the check, and the bring-up
goes on and returns Ready. -/
theorem C21_high_bytes_not_compared :
    (initializeCard 1 (echoCard [0x00, 0x00, 0x02, 0xaa])).map
        (fun r => (r.status, r.result, r.state.error, r.state.cardType)) =
      some (Status.StatusReady, 0x01, Error.NoError, CardType.CardTypeSD2) ∧
    (initializeCard 1 (echoCard [0xff, 0xff, 0xff, 0xaa])).map
        (fun r => (r.status, r.result, r.state.error, r.state.cardType)) =
      some (Status.StatusReady, 0x01, Error.NoError, CardType.CardTypeSD2) := by
  decide

/-- C21, amended: once the card went idle and the response to `Cmd_SendIfCond`
lacks the illegal command bit, the bring-up compares the low byte of the value
echoed with `0xaa`: if it differs, `initialize` returns Error with
`Error_SendIfCondFailed` and the frame of command 8 is the last thing sent; if it
is equal, whatever the three high bytes are, the bring-up goes on with the card
type SD2. -/
theorem C21_echo_low_byte (fuel : Nat) (s s3 : SDCardState)
    (hidle : goIdleLoop fuel ((millis s).1 % 65536) (spiWait (spiWait (millis s).2 100) 2) =
      some (true, s3))
    (hlegal : (waitAndSendCommand s3 Command.Cmd_SendIfCond 0x01aa).1 &&& 0x04 = 0) :
    ∃ v, (waitAndSendCommand s3 Command.Cmd_SendIfCond 0x01aa).2.1 = some v ∧
      (v &&& 0xff ≠ 0xaa →
        ∃ r, initializeCard fuel s = some r ∧ r.status = Status.StatusError ∧
          r.state.error = Error.Error_SendIfCondFailed ∧
          r.state.spi.sent = s3.spi.sent ++ commandFrame 8 0x01aa 0x87) ∧
      (v &&& 0xff = 0xaa →
        initializeCard fuel s =
          initializeOpCond fuel ((millis s).1 % 65536)
            (waitAndSendCommand s3 Command.Cmd_SendIfCond 0x01aa).1
            { (waitAndSendCommand s3 Command.Cmd_SendIfCond 0x01aa).2.2 with
              cardType := CardType.CardTypeSD2 }) := by
  obtain ⟨v, hv⟩ := waitAndSendCommand_value s3 Command.Cmd_SendIfCond 0x01aa (by decide)
  have hsent := waitAndSendCommand_sent s3 Command.Cmd_SendIfCond 0x01aa
  refine ⟨v, hv, ?_, ?_⟩
  · intro hne
    have heq : initializeCard fuel s = some ⟨Status.StatusError,
        (waitAndSendCommand s3 Command.Cmd_SendIfCond 0x01aa).1, none,
        { (waitAndSendCommand s3 Command.Cmd_SendIfCond 0x01aa).2.2 with
          error := Error.Error_SendIfCondFailed }⟩ := by
      simp only [initializeCard, hidle, R1_IllegalCommand, hlegal, ne_eq, not_true_eq_false,
        if_false, hv, Option.getD_some, hne, not_false_eq_true, if_true]
    refine ⟨_, heq, rfl, rfl, ?_⟩
    show (waitAndSendCommand s3 Command.Cmd_SendIfCond 0x01aa).2.2.spi.sent = _
    have h1 : Command.Cmd_SendIfCond.isApp = false := by decide
    have h2 : Command.Cmd_SendIfCond.index = 8 := by decide
    have h3 : Command.Cmd_SendIfCond.crc = 0x87 := rfl
    rw [hsent, h1, h2, h3]
    simp
  · intro he
    simp only [initializeCard, hidle, R1_IllegalCommand, hlegal, ne_eq, not_true_eq_false,
      if_false, hv, Option.getD_some, he]

set_option maxRecDepth 100000 in
/-- C21, witness: a card that echoes `0x000001ab`. -/
theorem C21_echo_low_byte_witness :
    ∃ v, (waitAndSendCommand (echoCardIdle [0x00, 0x00, 0x01, 0xab])
        Command.Cmd_SendIfCond 0x01aa).2.1 = some v ∧
      (v &&& 0xff ≠ 0xaa →
        ∃ r, initializeCard 1 (echoCard [0x00, 0x00, 0x01, 0xab]) = some r ∧
          r.status = Status.StatusError ∧
          r.state.error = Error.Error_SendIfCondFailed ∧
          r.state.spi.sent =
            (echoCardIdle [0x00, 0x00, 0x01, 0xab]).spi.sent ++ commandFrame 8 0x01aa 0x87) ∧
      (v &&& 0xff = 0xaa →
        initializeCard 1 (echoCard [0x00, 0x00, 0x01, 0xab]) =
          initializeOpCond 1 ((millis (echoCard [0x00, 0x00, 0x01, 0xab])).1 % 65536)
            (waitAndSendCommand (echoCardIdle [0x00, 0x00, 0x01, 0xab])
              Command.Cmd_SendIfCond 0x01aa).1
            { (waitAndSendCommand (echoCardIdle [0x00, 0x00, 0x01, 0xab])
                Command.Cmd_SendIfCond 0x01aa).2.2 with
              cardType := CardType.CardTypeSD2 }) :=
  C21_echo_low_byte 1 (echoCard [0x00, 0x00, 0x01, 0xab]) (echoCardIdle [0x00, 0x00, 0x01, 0xab])
    (by decide) (by decide)

theorem readFast4_error_kept (s : SDCardState) : (readFast4 s).state.error = s.error := by
  simp only [readFast4, spiReceive, spiSkip]
  split <;> (try split_ifs) <;> rfl

theorem stopRead_error_kept (fuel : Nat) (s s2 : SDCardState)
    (h : stopRead fuel s = some (Status.StatusError, s2)) : s2.error = s.error := by
  by_cases hm : s.blockReadMode = ReadMode.ReadModeSingleBlock
  · simp only [stopRead, hm, if_true] at h
    split_ifs at h
    · cases hd : stopReadDrain fuel s blockSize with
      | none => simp [hd] at h
      | some s0 => simp [hd] at h
    · simp at h
  · obtain ⟨st, s3, h3, -, -, hf⟩ := stopRead_multi_eq fuel s hm
    rw [h] at h3
    cases h3
    exact hf.1

/-- C22, code and claim apart: `readFast4` returns `StatusError` on a wrong token
and `stopRead` returns `StatusError` on a silent card while the error code stays
`NoError`; in general `readFast4` never changes the error code, and a `stopRead`
that returns `StatusError` leaves it as it was. -/
theorem C22_error_code_not_written :
    ((readFast4 badToken).status = Status.StatusError ∧
      (readFast4 badToken).state.error = Error.NoError) ∧
    (∃ s2, stopRead 1 stopped = some (Status.StatusError, s2) ∧ s2.error = Error.NoError) ∧
    (∀ s : SDCardState, (readFast4 s).state.error = s.error) ∧
    (∀ (fuel : Nat) (s s2 : SDCardState),
      stopRead fuel s = some (Status.StatusError, s2) → s2.error = s.error) := by
  refine ⟨by decide, ⟨_, rfl, by decide⟩, readFast4_error_kept, stopRead_error_kept⟩

theorem readData_error (s : SDCardState) (n : Nat)
    (h : (readData s n).status = Status.StatusError) :
    (readData s n).state.error = Error.Error_ReadFailed := by
  revert h
  cases hs : s.blockReadState
  · simp only [readData, hs, spiReceive]
    split_ifs
    · simp
    · intro h; exact absurd h (readDataData_not_error _ _)
    · simp
  · simp only [readData, hs]
    intro h; exact absurd h (readDataData_not_error _ _)
  · simp only [readData, hs]
    intro h; exact absurd h (readDataCRC_status _ _ _).2
  · simp [readData, hs]

theorem startRead_error (s : SDCardState) (block : Nat)
    (h : (startRead s block).1 = Status.StatusError) :
    (startRead s block).2.error = Error.Error_ReadSingleBlockFailed := by
  revert h
  simp only [startRead]
  split_ifs <;> simp

theorem startMultiRead_error (s : SDCardState) (block : Nat)
    (h : (startMultiRead s block).1 = Status.StatusError) :
    (startMultiRead s block).2.error = Error.Error_ReadSingleBlockFailed := by
  revert h
  simp only [startMultiRead]
  split_ifs <;> simp

theorem synchronousStartRead_error (block : Nat) :
    ∀ (fuel : Nat) (s s1 : SDCardState),
      synchronousStartRead fuel s block = some (Status.StatusError, s1) →
      s1.error = Error.Error_ReadSingleBlockFailed := by
  intro fuel
  induction fuel with
  | zero => intro s s1 h; simp [synchronousStartRead] at h
  | succ fuel ih =>
    intro s s1 h
    simp only [synchronousStartRead] at h
    split_ifs at h with hw
    · exact ih _ _ h
    · have he : (startRead s block).1 = Status.StatusError := by
        have := congrArg (fun o => o.map Prod.fst) h
        simpa using this
      have h2 : (startRead s block).2 = s1 := by
        have := congrArg (fun o => o.map Prod.snd) h
        simpa using this
      rw [← h2]
      exact startRead_error s block he

theorem synchronousReadData_error :
    ∀ (fuel : Nat) (s : SDCardState) (buffer : List Nat) (n : Nat) (r : ReadResult),
      synchronousReadData fuel s buffer n = some r → r.status = Status.StatusError →
      r.state.error = Error.Error_ReadFailed := by
  intro fuel
  induction fuel with
  | zero => intro s buffer n r h; simp [synchronousReadData] at h
  | succ fuel ih =>
    intro s buffer n r h hr
    simp only [synchronousReadData] at h
    split_ifs at h with hw
    · exact ih _ _ _ _ h hr
    · simp only [Option.some.injEq] at h
      subst h
      exact readData_error s n hr

theorem readDirectoryLoop_error :
    ∀ (fuel : Nat) (s : SDCardState) (buffer : List Nat) (lastEntry : Bool) (s1 : SDCardState),
      readDirectoryLoop fuel s buffer lastEntry = some (Status.StatusError, s1) →
      s1.error = Error.Error_ReadFailed := by
  intro fuel
  induction fuel with
  | zero => intro s buffer lastEntry s1 h; simp [readDirectoryLoop] at h
  | succ fuel ih =>
    intro s buffer lastEntry s1 h
    simp only [readDirectoryLoop] at h
    split_ifs at h with h1 h2 h3
    · simp only [Option.some.injEq, Prod.mk.injEq, true_and] at h
      rw [← h]; exact readData_error s 9 h1
    · simp only [Option.some.injEq, Prod.mk.injEq, true_and] at h
      rw [← h]; exact readData_error _ _ h3
    · exact ih _ _ _ _ h
    · exact ih _ _ _ _ h
    · simp at h

/-- The operations other than `readFast4` and `stopRead` write the error code
of their failure before they return `StatusError`. -/
theorem error_written_on_failure :
    (∀ (s : SDCardState) (n : Nat), (readData s n).status = Status.StatusError →
      (readData s n).state.error = Error.Error_ReadFailed) ∧
    (∀ (s : SDCardState) (block : Nat), (startRead s block).1 = Status.StatusError →
      (startRead s block).2.error = Error.Error_ReadSingleBlockFailed) ∧
    (∀ (s : SDCardState) (block : Nat), (startMultiRead s block).1 = Status.StatusError →
      (startMultiRead s block).2.error = Error.Error_ReadSingleBlockFailed) ∧
    (∀ (fuel : Nat) (s s1 : SDCardState),
      readDirectory fuel s = some (Status.StatusError, s1) →
      s1.error = Error.Error_ReadSingleBlockFailed ∨ s1.error = Error.Error_ReadFailed ∨
        s1.error = Error.Error_UnknownMagic) ∧
    (∀ (fuel : Nat) (s : SDCardState) (r : InitResult),
      initializeCard fuel s = some r → r.status = Status.StatusError →
      r.state.error = Error.Error_TimeOut ∨ r.state.error = Error.Error_SendIfCondFailed ∨
        r.state.error = Error.Error_ReadOCRFailed ∨
        r.state.error = Error.Error_SetBlockLengthFailed) := by
  refine ⟨readData_error, startRead_error, startMultiRead_error, ?_, ?_⟩
  · intro fuel s s1 h
    simp only [readDirectory] at h
    cases h1 : synchronousStartRead fuel s 0 with
    | none => simp [h1] at h
    | some p =>
      obtain ⟨st, s0⟩ := p
      simp only [h1] at h
      split_ifs at h with he
      · simp only [Option.some.injEq, Prod.mk.injEq, true_and] at h
        subst h; subst he
        exact Or.inl (synchronousStartRead_error 0 fuel s s0 h1)
      · cases h2 : synchronousReadData fuel s0 (List.replicate 9 0xaa) 4 with
        | none => rw [h2] at h; simp at h
        | some r =>
          rw [h2] at h
          simp only [] at h
          split_ifs at h with he2 hm
          · simp only [Option.some.injEq, Prod.mk.injEq, true_and] at h
            subst h
            exact Or.inr (Or.inl (synchronousReadData_error _ _ _ _ _ h2 he2))
          · simp only [Option.some.injEq, Prod.mk.injEq, true_and] at h
            subst h
            exact Or.inr (Or.inr rfl)
          · exact Or.inr (Or.inl (readDirectoryLoop_error _ _ _ _ _ h))
  · intro fuel s r h hr
    have hbl : ∀ (res : Nat) (o : Option Nat) (t : SDCardState),
        (initializeBlockLength res o t).status = Status.StatusError →
        (initializeBlockLength res o t).state.error = Error.Error_SetBlockLengthFailed := by
      intro res o t
      simp only [initializeBlockLength]
      split_ifs <;> simp
    have hop : ∀ (st res : Nat) (t : SDCardState) (r : InitResult),
        initializeOpCond fuel st res t = some r → r.status = Status.StatusError →
        r.state.error = Error.Error_TimeOut ∨ r.state.error = Error.Error_SendIfCondFailed ∨
          r.state.error = Error.Error_ReadOCRFailed ∨
          r.state.error = Error.Error_SetBlockLengthFailed := by
      intro st res t r h hr
      simp only [initializeOpCond] at h
      cases hl : sendOpCondLoop fuel st
          (if t.cardType = CardType.CardTypeSD2 then 0x40000000 else 0x00000000) t with
      | none => simp [hl] at h
      | some p =>
        obtain ⟨b, s1⟩ := p
        cases b with
        | false =>
          simp only [hl, Option.some.injEq] at h
          subst h
          exact Or.inl rfl
        | true =>
          simp only [hl] at h
          split_ifs at h <;> simp only [Option.some.injEq] at h <;> subst h
          · exact Or.inr (Or.inr (Or.inl rfl))
          · exact Or.inr (Or.inr (Or.inr (hbl _ _ _ hr)))
          · exact Or.inr (Or.inr (Or.inr (hbl _ _ _ hr)))
          · exact Or.inr (Or.inr (Or.inr (hbl _ _ _ hr)))
    simp only [initializeCard] at h
    cases hl : goIdleLoop fuel ((millis s).1 % 65536) (spiWait (spiWait (millis s).2 100) 2) with
    | none => simp [hl] at h
    | some p =>
      obtain ⟨b, s3⟩ := p
      cases b with
      | false =>
        simp only [hl, Option.some.injEq] at h
        subst h
        exact Or.inl rfl
      | true =>
        simp only [hl] at h
        split_ifs at h
        · exact hop _ _ _ _ h hr
        · simp only [Option.some.injEq] at h
          subst h
          exact Or.inr (Or.inl rfl)
        · exact hop _ _ _ _ h hr

/-! ## The byte count of readData and the response poll: claims C25 and C26 -/

theorem readDataData_byteCount (s : SDCardState) (n : Nat) :
    (readDataData s n).byteCount = (readDataData s n).written.length := by
  simp only [readDataData, readDataCRC]
  split_ifs <;> simp [Spi.receiveN_length]

set_option maxRecDepth 100000 in
/-- C25, code and claim apart: a `readData` call with `*byteCount = 4` that returns
Wait on a busy byte, Error on a wrong token, or EndOfBlock in a session that has
ended stores nothing and leaves 4 in `*byteCount`.  In general the value left is
the number of bytes stored when the call reads data, and the value passed in,
with nothing stored and a status other than Ready, when it does not. -/
theorem C25_byteCount_not_reset :
    ((readData sessionStart 4).status = Status.StatusWait ∧
      (readData sessionStart 4).written = [] ∧ (readData sessionStart 4).byteCount = 4) ∧
    ((readData badToken 4).status = Status.StatusError ∧
      (readData badToken 4).written = [] ∧ (readData badToken 4).byteCount = 4) ∧
    ((readData singleDrained 4).status = Status.StatusEndOfBlock ∧
      (readData singleDrained 4).written = [] ∧ (readData singleDrained 4).byteCount = 4) ∧
    (∀ (s : SDCardState) (n : Nat),
      (readData s n).byteCount = (readData s n).written.length ∨
      ((readData s n).byteCount = n ∧ (readData s n).written = [] ∧
        (readData s n).status ≠ Status.StatusReady)) := by
  refine ⟨by decide, by decide, by decide, ?_⟩
  intro s n
  cases hs : s.blockReadState
  · simp only [readData, hs, spiReceive]
    split_ifs
    · exact Or.inr ⟨rfl, rfl, by simp⟩
    · exact Or.inl (readDataData_byteCount _ _)
    · exact Or.inr ⟨rfl, rfl, by simp⟩
  · simp only [readData, hs]
    exact Or.inl (readDataData_byteCount _ _)
  · refine Or.inr ⟨?_, ?_, ?_⟩
    · simp only [readData, hs, readDataCRC]; split_ifs <;> rfl
    · simp only [readData, hs, readDataCRC]; split_ifs <;> rfl
    · simp only [readData, hs]; exact (readDataCRC_status _ _ _).1
  · simp [readData, hs]

theorem responseLength_spec (n : Nat) :
    ∀ l : List Nat,
      1 ≤ responseLength n l ∧ responseLength n l ≤ n + 1 ∧
      (∀ i, i + 1 < responseLength n l → l.getD i 0xff &&& 0x80 ≠ 0) ∧
      (responseLength n l ≤ n → l.getD (responseLength n l - 1) 0xff &&& 0x80 = 0) ∧
      responseByte n l = l.getD (responseLength n l - 1) 0xff := by
  induction n with
  | zero =>
    intro l
    refine ⟨by simp [responseLength], by simp [responseLength], ?_, ?_, ?_⟩
    · intro i hi; simp [responseLength] at hi
    · intro h; simp [responseLength] at h
    · cases l <;> simp [responseByte, responseLength]
  | succ n ih =>
    intro l
    obtain ⟨h1, h2, h3, h4, h5⟩ := ih l.tail
    have hd : ∀ i, l.tail.getD i 0xff = l.getD (i + 1) 0xff := by
      intro i; cases l <;> simp
    have h0 : l.headD 0xff = l.getD 0 0xff := by cases l <;> simp
    simp only [responseLength, responseByte]
    by_cases h : l.headD 0xff &&& 0x80 ≠ 0
    · simp only [h, if_true, ne_eq, not_false_eq_true]
      refine ⟨by omega, by omega, ?_, ?_, ?_⟩
      · intro i hi
        cases i with
        | zero => rw [← h0]; exact h
        | succ i => rw [← hd]; exact h3 i (by omega)
      · intro hle
        have := h4 (by omega)
        rw [hd] at this
        rw [show responseLength n l.tail + 1 - 1 = responseLength n l.tail - 1 + 1 by omega]
        exact this
      · rw [h5, hd]
        rw [show responseLength n l.tail + 1 - 1 = responseLength n l.tail - 1 + 1 by omega]
    · simp only [h, if_false]
      refine ⟨by omega, by omega, ?_, ?_, ?_⟩
      · intro i hi; omega
      · intro _
        rw [← h0]
        simpa using h
      · exact h0

/-- C26, counterexample: the card is silent for 17 bytes after the frame and
answers `0x00` with the 18th; the poll takes 17 bytes from the bus, the 17th is
the result, and the answer is left on the bus. -/
theorem C26_poll_takes_17 :
    (sendCommand lateResponse Command.Cmd_SetBlockLenght 512).1 = 0xff ∧
    (sendCommand lateResponse Command.Cmd_SetBlockLenght 512).2.2.spi.miso = [0x00, 0x55] ∧
    lateResponse.spi.miso.length = 6 + 17 + 2 := by
  decide

/-- C26, amended: after the frame `sendCommand` receives `r` bytes for the response
with `1 <= r <= 17` (and four more for an R3 or R7 response): all bytes before
the last of them have the high bit set, the last is the result, and it has the
high bit clear whenever `r <= 16`; with 16 bytes that have the high bit set the
17th byte is taken and returned whatever it is. -/
theorem C26_response_poll (s : SDCardState) (c : Command) (argument : Nat) :
    (sendCommand s c argument).2.2.spi.miso =
      (s.spi.miso.drop (escapeTransfers c s.spi.miso + 6)).drop
        (responseLength 0x10 (s.spi.miso.drop (escapeTransfers c s.spi.miso + 6)) +
          (if c.code &&& 0x00c0 ≠ 0 then 4 else 0)) ∧
    1 ≤ responseLength 0x10 (s.spi.miso.drop (escapeTransfers c s.spi.miso + 6)) ∧
    responseLength 0x10 (s.spi.miso.drop (escapeTransfers c s.spi.miso + 6)) ≤ 17 ∧
    (∀ i, i + 1 < responseLength 0x10 (s.spi.miso.drop (escapeTransfers c s.spi.miso + 6)) →
      (s.spi.miso.drop (escapeTransfers c s.spi.miso + 6)).getD i 0xff &&& 0x80 ≠ 0) ∧
    (responseLength 0x10 (s.spi.miso.drop (escapeTransfers c s.spi.miso + 6)) ≤ 16 →
      (sendCommand s c argument).1 &&& 0x80 = 0) ∧
    (sendCommand s c argument).1 =
      (s.spi.miso.drop (escapeTransfers c s.spi.miso + 6)).getD
        (responseLength 0x10 (s.spi.miso.drop (escapeTransfers c s.spi.miso + 6)) - 1) 0xff := by
  obtain ⟨h1, h2, h3, h4, h5⟩ :=
    responseLength_spec 0x10 (s.spi.miso.drop (escapeTransfers c s.spi.miso + 6))
  have hr : (sendCommand s c argument).1 =
      responseByte 0x10 (s.spi.miso.drop (escapeTransfers c s.spi.miso + 6)) := by
    rw [sendCommand_split, (sendFrame_eq _ c argument).1, sendEscape_eq]
    simp [List.drop_drop, Nat.add_comm]
  refine ⟨?_, h1, h2, h3, ?_, ?_⟩
  · rw [sendCommand_split, sendEscape_eq]
    simp only [sendFrame, spiSend6, pollResponse_eq]
    split_ifs <;> simp [Spi.receiveN_miso, List.drop_drop, Nat.add_comm, Nat.add_left_comm]
  · intro hle
    rw [hr, h5]
    exact h4 hle
  · rw [hr, h5]

/-! ## The output stage during play: claims C24, C27, C28 and C23 -/

/-- The shape of a call of `play`: either it ends before the fade in, without
any operation on the output stage and without a top-up, or it runs the main
loop on a full buffer, and then it returns true only when the main loop was
left in the regular way, after which come the fade out and the shutdown. -/
theorem play_shape (fuel : Nat) (sd : SDCardState) (startBlock sampleCount : Nat) :
    ((play fuel sd startBlock sampleCount).outcome ≠ some true ∧
      (play fuel sd startBlock sampleCount).fadeIn = [] ∧
      (play fuel sd startBlock sampleCount).steady = [] ∧
      (play fuel sd startBlock sampleCount).ending = [] ∧
      (play fuel sd startBlock sampleCount).topUps = []) ∨
    ∃ (buffer : Nat → Nat) (s1 : SDCardState),
      (play fuel sd startBlock sampleCount).fadeIn = fadeIn 0x800 0 ∧
      (play fuel sd startBlock sampleCount).steady =
        (mainLoop readFast4 sampleCount fuel ⟨0, 0x100, buffer, s1, [], []⟩).1.dac ∧
      (play fuel sd startBlock sampleCount).topUps =
        (mainLoop readFast4 sampleCount fuel ⟨0, 0x100, buffer, s1, [], []⟩).1.topUps ∧
      ((play fuel sd startBlock sampleCount).outcome = some true →
        (mainLoop readFast4 sampleCount fuel ⟨0, 0x100, buffer, s1, [], []⟩).2 =
          some LoopExit.done ∧
        (play fuel sd startBlock sampleCount).ending =
          fadeOut 0x800 0x800 ++ [Event.shutdown]) := by
  unfold play
  simp only []
  cases hst : (startMultiReadLoop fuel sd startBlock).1 with
  | none => simp
  | some status =>
    simp only []
    by_cases hstatus : status = Status.StatusReady
    · subst hstatus
      simp only [ne_eq, not_true_eq_false, if_false]
      rcases hp : prefill readFast4 fuel 0 (fun _ => 0) (startMultiReadLoop fuel sd startBlock).2
        with ⟨e, buffer, s1⟩
      cases e with
      | running => simp
      | readError => simp
      | full =>
        simp only []
        refine Or.inr ⟨buffer, s1, ?_⟩
        cases hml : (mainLoop readFast4 sampleCount fuel ⟨0, 0x100, buffer, s1, [], []⟩).2 with
        | none => simp
        | some e =>
          cases e with
          | readError => simp
          | done =>
            simp only []
            cases hsr : stopRead fuel
              (mainLoop readFast4 sampleCount fuel ⟨0, 0x100, buffer, s1, [], []⟩).1.streamer with
            | none => simp
            | some r => simp
    · simp [hstatus]

set_option maxRecDepth 100000 in
theorem fadeOut_eq :
    fadeOut 0x800 0x800 = committed ((List.range 128).map (fun i => 0x800 - 0x10 * i)) := by
  decide

set_option maxRecDepth 100000 in
theorem fadeIn_eq :
    fadeIn 0x800 0 = committed ((List.range 128).map (fun i => 0x10 * i)) := by
  decide

set_option maxRecDepth 100000 in
/-- C24, counterexample: a call of `play` that returns true; the last value of its
fade out is `0x10`, and 0 is not among the values of the fade out. -/
theorem C24_fade_out_ends_at_16 :
    (play 200 oneBlockCard 100 2).outcome = some true ∧
    (setValues (play 200 oneBlockCard 100 2).ending).getLast? = some 0x10 ∧
    0 ∉ setValues (play 200 oneBlockCard 100 2).ending := by
  decide

set_option maxRecDepth 100000 in
/-- C24, amended: when `play` returns true, the fade in sets and pushes the 128
values `0, 0x10, .., 0x7f0`, and the ending is the fade out, which sets and
pushes the 128 values `0x800, 0x7f0, .., 0x10`, strictly descending, as many as
the fade in, the first `0x800` and the last `0x10` (not 0), followed by the
shutdown of the output stage. -/
theorem C24_fade_out (fuel : Nat) (sd : SDCardState) (startBlock sampleCount : Nat)
    (h : (play fuel sd startBlock sampleCount).outcome = some true) :
    (play fuel sd startBlock sampleCount).fadeIn =
      committed ((List.range 128).map (fun i => 0x10 * i)) ∧
    (play fuel sd startBlock sampleCount).ending =
      committed ((List.range 128).map (fun i => 0x800 - 0x10 * i)) ++ [Event.shutdown] ∧
    List.Pairwise (fun a b => a > b) ((List.range 128).map (fun i => 0x800 - 0x10 * i)) ∧
    ((List.range 128).map (fun i => 0x800 - 0x10 * i)).length =
      ((List.range 128).map (fun i => 0x10 * i)).length ∧
    ((List.range 128).map (fun i => 0x800 - 0x10 * i)).head? = some 0x800 ∧
    ((List.range 128).map (fun i => 0x800 - 0x10 * i)).getLast? = some 0x10 := by
  rcases play_shape fuel sd startBlock sampleCount with ⟨hn, -⟩ | ⟨buffer, s1, hf, -, -, hd⟩
  · exact absurd h hn
  · refine ⟨by rw [hf, fadeIn_eq], by rw [(hd h).2, fadeOut_eq], ?_, by simp, by decide,
      by decide⟩
    rw [List.pairwise_map]
    refine List.Pairwise.imp_of_mem ?_ (List.pairwise_lt_range 128)
    intro a b ha hb hab
    simp only [List.mem_range] at ha hb
    omega

set_option maxRecDepth 100000 in
/-- C24, witness: the call `play(100, 2)` over one block. -/
theorem C24_fade_out_witness :
    (play 200 oneBlockCard 100 2).fadeIn =
      committed ((List.range 128).map (fun i => 0x10 * i)) ∧
    (play 200 oneBlockCard 100 2).ending =
      committed ((List.range 128).map (fun i => 0x800 - 0x10 * i)) ++ [Event.shutdown] ∧
    List.Pairwise (fun a b => a > b) ((List.range 128).map (fun i => 0x800 - 0x10 * i)) ∧
    ((List.range 128).map (fun i => 0x800 - 0x10 * i)).length =
      ((List.range 128).map (fun i => 0x10 * i)).length ∧
    ((List.range 128).map (fun i => 0x800 - 0x10 * i)).head? = some 0x800 ∧
    ((List.range 128).map (fun i => 0x800 - 0x10 * i)).getLast? = some 0x10 :=
  C24_fade_out 200 oneBlockCard 100 2 (by decide)

theorem turnEvents_append (a b : List (Option Nat)) :
    turnEvents (a ++ b) = turnEvents a ++ turnEvents b := by
  induction a with
  | nil => rfl
  | cons x a ih => cases x <;> simp [turnEvents, ih]

/-- One turn of the main loop adds the push and, with a sample in the buffer,
the value set; the loop is left in the regular way only after a value was
set. -/
theorem mainStep_turn {σ : Type} (rd : σ → Fast4Result σ) (sampleCount : Nat)
    (l : LoopState σ) :
    ∃ t : Option Nat, (mainStep rd sampleCount l).1.dac = l.dac ++ turnEvents [t] ∧
      ((mainStep rd sampleCount l).2 = some LoopExit.done → ∃ v, t = some v) ∧
      (t = none ↔ l.bufferedSamples = 0) := by
  by_cases hb : 0 < l.bufferedSamples
  · refine ⟨some (l.sampleBuffer (l.currentSample &&& sampleBufferMask) >>> 4), ?_,
      fun _ => ⟨_, rfl⟩, by simp; omega⟩
    rw [mainStep_pos rd sampleCount l hb]
    split
    · simp [afterSet, turnEvents]
    · rw [mainRefill_dac]
      simp [afterSet, turnEvents]
  · have hz : l.bufferedSamples = 0 := by omega
    refine ⟨none, ?_, ?_, by simp [hz]⟩
    · rw [mainStep_zero rd sampleCount l hz, mainRefill_dac]
      simp [turnEvents]
    · rw [mainStep_zero rd sampleCount l hz]
      simp only [mainRefill]
      split_ifs <;> simp

theorem mainLoop_turns {σ : Type} (rd : σ → Fast4Result σ) (sampleCount : Nat) :
    ∀ (fuel : Nat) (l : LoopState σ),
      ∃ ts : List (Option Nat),
        (mainLoop rd sampleCount fuel l).1.dac = l.dac ++ turnEvents ts ∧
        ((mainLoop rd sampleCount fuel l).2 = some LoopExit.done →
          ∃ ts0 v, ts = ts0 ++ [some v]) := by
  intro fuel
  induction fuel with
  | zero => intro l; exact ⟨[], by simp [mainLoop, turnEvents], by simp [mainLoop]⟩
  | succ fuel ih =>
    intro l
    obtain ⟨t, ht, hdone, -⟩ := mainStep_turn rd sampleCount l
    rw [mainLoop]
    cases hr : (mainStep rd sampleCount l).2 with
    | some e =>
      refine ⟨[t], by simpa [hr] using ht, ?_⟩
      simp only [hr]
      intro he
      obtain ⟨v, hv⟩ := hdone (by rw [hr]; simpa using he)
      exact ⟨[], v, by simp [hv]⟩
    | none =>
      obtain ⟨ts, h1, h2⟩ := ih (mainStep rd sampleCount l).1
      refine ⟨t :: ts, ?_, ?_⟩
      · simp only [hr]
        rw [h1, ht, List.append_assoc, ← turnEvents_append]
        rfl
      · simp only [hr]
        intro he
        obtain ⟨ts0, v, hv⟩ := h2 he
        exact ⟨t :: ts0, v, by simp [hv]⟩

set_option maxRecDepth 100000 in
/-- C27, counterexample: in a call of `play` that returns true the main loop sets
160, 385 and 609, each after a push; the value 609 is set last, and the next
operation is the `setValue(0x800)` of the fade out, so 609 is never pushed. -/
theorem C27_last_value_not_pushed :
    (play 200 oneBlockCard 100 2).outcome = some true ∧
    (play 200 oneBlockCard 100 2).steady =
      [Event.pushValue, Event.setValue 160, Event.pushValue, Event.setValue 385,
        Event.pushValue, Event.setValue 609] ∧
    (play 200 oneBlockCard 100 2).ending.take 2 = [Event.setValue 0x800, Event.pushValue] := by
  decide

/-- C27, amended: when `play` returns true, the operations of the main loop are
those of its turns, a push and then (with a sample in the buffer) one value
set, so every value set but the last is followed by the push of the next turn
before another value is set, and is pushed again by every turn that finds the
buffer empty; the last value set is followed by the `setValue(0x800)` of the
fade out and is never pushed. -/
theorem C27_steady_commits (fuel : Nat) (sd : SDCardState) (startBlock sampleCount : Nat)
    (h : (play fuel sd startBlock sampleCount).outcome = some true) :
    ∃ (ts : List (Option Nat)) (v : Nat) (rest : List Event),
      (play fuel sd startBlock sampleCount).steady =
        turnEvents ts ++ [Event.pushValue, Event.setValue v] ∧
      (play fuel sd startBlock sampleCount).ending =
        Event.setValue 0x800 :: Event.pushValue :: rest ∧
      (play fuel sd startBlock sampleCount).trace =
        fadeIn 0x800 0 ++ turnEvents ts ++
          [Event.pushValue, Event.setValue v, Event.setValue 0x800, Event.pushValue] ++ rest := by
  rcases play_shape fuel sd startBlock sampleCount with ⟨hn, -⟩ | ⟨buffer, s1, hf, hs, -, hd⟩
  · exact absurd h hn
  · obtain ⟨hdone, hend⟩ := hd h
    obtain ⟨ts, h1, h2⟩ := mainLoop_turns readFast4 sampleCount fuel ⟨0, 0x100, buffer, s1, [], []⟩
    obtain ⟨ts0, v, hv⟩ := h2 hdone
    have hfo : fadeOut 0x800 0x800 =
        Event.setValue 0x800 :: Event.pushValue :: fadeOut 0x7ff 0x7f0 := by
      show fadeOut (0x7ff + 1) 0x800 = _
      rw [fadeOut]
      simp
    have hst : (play fuel sd startBlock sampleCount).steady =
        turnEvents ts0 ++ [Event.pushValue, Event.setValue v] := by
      rw [hs, h1, hv, turnEvents_append]
      simp [turnEvents]
    refine ⟨ts0, v, fadeOut 0x7ff 0x7f0 ++ [Event.shutdown], hst, ?_, ?_⟩
    · rw [hend, hfo]; rfl
    · rw [PlayResult.trace, hf, hst, hend, hfo]
      simp

set_option maxRecDepth 100000 in
/-- C27, witness: the call `play(100, 2)` over one block. -/
theorem C27_steady_commits_witness :
    ∃ (ts : List (Option Nat)) (v : Nat) (rest : List Event),
      (play 200 oneBlockCard 100 2).steady =
        turnEvents ts ++ [Event.pushValue, Event.setValue v] ∧
      (play 200 oneBlockCard 100 2).ending =
        Event.setValue 0x800 :: Event.pushValue :: rest ∧
      (play 200 oneBlockCard 100 2).trace =
        fadeIn 0x800 0 ++ turnEvents ts ++
          [Event.pushValue, Event.setValue v, Event.setValue 0x800, Event.pushValue] ++ rest :=
  C27_steady_commits 200 oneBlockCard 100 2 (by decide)

theorem topUp_safe (cs bs : Nat) (hp : (cs + bs) % 2 = 0) (hb : bs < 252) :
    TopUp.Safe ⟨cs, bs, ((cs &&& sampleBufferMask) + bs) &&& sampleBufferMask⟩ := by
  have hw : ((cs &&& sampleBufferMask) + bs) &&& sampleBufferMask = (cs + bs) % 256 := by
    rw [and_mask, and_mask]; omega
  refine ⟨hp, hb, hw, ?_, ?_, ?_⟩
  · show (((cs &&& sampleBufferMask) + bs) &&& sampleBufferMask) % 2 = 0
    rw [hw]; omega
  · show (((cs &&& sampleBufferMask) + bs) &&& sampleBufferMask) + 1 ≤ 255
    rw [hw]; omega
  · intro j hj
    have hj2 : j < bs := hj
    show (cs + j) % 256 ≠ (((cs &&& sampleBufferMask) + bs) &&& sampleBufferMask) ∧
      (cs + j) % 256 ≠ (((cs &&& sampleBufferMask) + bs) &&& sampleBufferMask) + 1
    rw [hw]
    constructor <;> omega

theorem mainRefill_safe {σ : Type} (rd : σ → Fast4Result σ) (l : LoopState σ)
    (hp : (l.currentSample + l.bufferedSamples) % 2 = 0) (hs : ∀ t ∈ l.topUps, t.Safe) :
    ((mainRefill rd l).1.currentSample + (mainRefill rd l).1.bufferedSamples) % 2 = 0 ∧
    ∀ t ∈ (mainRefill rd l).1.topUps, t.Safe := by
  simp only [mainRefill, bufferSize]
  split_ifs with hb h1 h2 <;> refine ⟨?_, ?_⟩ <;> (try simp only []) <;>
    first
    | exact hp
    | exact hs
    | omega
    | (intro t ht
       simp only [List.mem_append, List.mem_singleton] at ht
       rcases ht with ht | rfl
       · exact hs t ht
       · exact topUp_safe _ _ hp (by omega))

theorem mainStep_safe {σ : Type} (rd : σ → Fast4Result σ) (sampleCount : Nat) (l : LoopState σ)
    (hp : (l.currentSample + l.bufferedSamples) % 2 = 0) (hs : ∀ t ∈ l.topUps, t.Safe) :
    ((mainStep rd sampleCount l).1.currentSample +
      (mainStep rd sampleCount l).1.bufferedSamples) % 2 = 0 ∧
    ∀ t ∈ (mainStep rd sampleCount l).1.topUps, t.Safe := by
  by_cases hb : 0 < l.bufferedSamples
  · have ha : ((afterSet l).currentSample + (afterSet l).bufferedSamples) % 2 = 0 := by
      show ((l.currentSample + 1) % 4294967296 + (l.bufferedSamples - 1)) % 2 = 0
      omega
    rw [mainStep_pos rd sampleCount l hb]
    split
    · exact ⟨ha, hs⟩
    · exact mainRefill_safe rd (afterSet l) ha hs
  · rw [mainStep_zero rd sampleCount l (by omega)]
    exact mainRefill_safe rd { l with dac := l.dac ++ [Event.pushValue] } hp hs

theorem mainLoop_safe {σ : Type} (rd : σ → Fast4Result σ) (sampleCount : Nat) :
    ∀ (fuel : Nat) (l : LoopState σ),
      (l.currentSample + l.bufferedSamples) % 2 = 0 → (∀ t ∈ l.topUps, t.Safe) →
      ∀ t ∈ (mainLoop rd sampleCount fuel l).1.topUps, t.Safe := by
  intro fuel
  induction fuel with
  | zero => intro l _ hs; exact hs
  | succ fuel ih =>
    intro l hp hs
    obtain ⟨h1, h2⟩ := mainStep_safe rd sampleCount l hp hs
    rw [mainLoop]
    cases hr : (mainStep rd sampleCount l).2 with
    | some e => simpa [hr] using h2
    | none => simpa [hr] using ih _ h1 h2

set_option maxRecDepth 100000 in
/-- C28: for every streamer and after any number of turns of the main loop
started as `play` starts it, and so in every call of `play`, each top-up call
was made with an even sum of cursor and buffered count, fewer than 252 samples
buffered, an even write position equal to that sum modulo 256, both slots
written within the buffer, and neither of them among the slots that hold
samples not yet consumed.  The call `play(100, 8)` over the example blocks
makes four top-up calls. -/
theorem C28_top_up_safe :
    (∀ {σ : Type} (rd : σ → Fast4Result σ) (sampleCount fuel : Nat) (buffer : Nat → Nat)
        (s : σ),
      ∀ t ∈ (mainLoop rd sampleCount fuel ⟨0, 0x100, buffer, s, [], []⟩).1.topUps, t.Safe) ∧
    (∀ (fuel : Nat) (sd : SDCardState) (startBlock sampleCount : Nat),
      ∀ t ∈ (play fuel sd startBlock sampleCount).topUps, t.Safe) ∧
    (play 200 playCard 100 8).topUps = [⟨5, 251, 0⟩, ⟨6, 250, 0⟩, ⟨7, 249, 0⟩, ⟨8, 250, 2⟩] := by
  refine ⟨?_, ?_, ?_⟩
  · intro σ rd sampleCount fuel buffer s
    exact mainLoop_safe rd sampleCount fuel ⟨0, 0x100, buffer, s, [], []⟩
      (by show (0 + 256) % 2 = 0; decide)
      (fun t ht => by simp at ht)
  · intro fuel sd startBlock sampleCount t ht
    rcases play_shape fuel sd startBlock sampleCount with ⟨-, -, -, -, h0⟩ | ⟨buffer, s1, -, -, h1, -⟩
    · rw [h0] at ht; simp at ht
    · rw [h1] at ht
      exact mainLoop_safe readFast4 sampleCount fuel ⟨0, 0x100, buffer, s1, [], []⟩
        (by show (0 + 256) % 2 = 0; decide)
        (fun t ht => by simp at ht) t ht
  · decide

theorem findFile_first (s : SDCardState) (name : List Nat) (pre post : List DirectoryEntry)
    (e : DirectoryEntry) (hname : ∀ b ∈ name, b ≠ 0)
    (hdir : ∀ x ∈ s.directoryEntry, ∀ b ∈ x.fileName, b ≠ 0)
    (hl : s.directoryEntry = pre ++ e :: post) (he : e.fileName = name)
    (hpre : ∀ x ∈ pre, x.fileName ≠ name) : findFile s name = some e := by
  have hn := cstr_of_no_nul name hname
  rw [findFile, List.find?_eq_some]
  refine ⟨?_, pre, post, hl, ?_⟩
  · rw [hn, cstr_of_no_nul _ (hdir e (by rw [hl]; simp)), he]
    simp
  · intro x hx
    rw [hn, cstr_of_no_nul _ (hdir x (by rw [hl]; simp [hx]))]
    have := hpre x hx
    simp
    exact fun h => this h.symm

theorem findFile_absent (s : SDCardState) (name : List Nat) (hname : ∀ b ∈ name, b ≠ 0)
    (hdir : ∀ x ∈ s.directoryEntry, ∀ b ∈ x.fileName, b ≠ 0)
    (hno : ∀ x ∈ s.directoryEntry, x.fileName ≠ name) : findFile s name = none := by
  have hn := cstr_of_no_nul name hname
  rw [findFile, List.find?_eq_none]
  intro x hx
  rw [hn, cstr_of_no_nul _ (hdir x hx)]
  have := hno x hx
  simp
  exact fun h => this h.symm

/-- C23: `play(fileName)` returns false, without any operation on the output stage
and with the driver state untouched, when `findFile` finds no entry, and is
`play(entry.startBlock, entry.fileSize / 2)`, the half rounded down, for the
entry that `findFile` finds; for C strings that is the earliest entry with this
name, and no entry exactly when none has this name. -/
theorem C23_play_by_name (fuel : Nat) (sd : SDCardState) (fileName : List Nat) :
    (findFile sd fileName = none →
      (playByName fuel sd fileName).outcome = some false ∧
      (playByName fuel sd fileName).trace = [] ∧
      (playByName fuel sd fileName).topUps = [] ∧
      (playByName fuel sd fileName).sd = sd) ∧
    (∀ entry, findFile sd fileName = some entry →
      playByName fuel sd fileName = play fuel sd entry.startBlock (entry.fileSize / 2) ∧
      2 * (entry.fileSize / 2) ≤ entry.fileSize ∧
      entry.fileSize < 2 * (entry.fileSize / 2) + 2) ∧
    ((∀ b ∈ fileName, b ≠ 0) → (∀ x ∈ sd.directoryEntry, ∀ b ∈ x.fileName, b ≠ 0) →
      ((∀ x ∈ sd.directoryEntry, x.fileName ≠ fileName) →
        (playByName fuel sd fileName).outcome = some false ∧
        (playByName fuel sd fileName).trace = [] ∧
        (playByName fuel sd fileName).sd = sd) ∧
      (∀ pre post entry, sd.directoryEntry = pre ++ entry :: post →
        entry.fileName = fileName → (∀ x ∈ pre, x.fileName ≠ fileName) →
        playByName fuel sd fileName =
          play fuel sd entry.startBlock (entry.fileSize / 2))) := by
  refine ⟨?_, ?_, ?_⟩
  · intro h
    simp [playByName, h, PlayResult.trace]
  · intro entry h
    refine ⟨by simp [playByName, h], by omega, by omega⟩
  · intro hname hdir
    refine ⟨?_, ?_⟩
    · intro hno
      simp [playByName, findFile_absent sd fileName hname hdir hno, PlayResult.trace]
    · intro pre post entry hl he hpre
      simp [playByName, findFile_first sd fileName pre post entry hname hdir hl he hpre]

/-- The directory A.RAW (100, 2048 bytes), B.RAW (200, 4096 bytes): the name B.RAW
plays 2048 samples from block 200, the name b.raw plays nothing. -/
theorem playByName_example (fuel : Nat) :
    playByName fuel exampleCatalog [0x42, 0x2e, 0x52, 0x41, 0x57] =
      play fuel exampleCatalog 200 2048 ∧
    (playByName fuel exampleCatalog [0x62, 0x2e, 0x72, 0x61, 0x77]).outcome = some false ∧
    (playByName fuel exampleCatalog [0x62, 0x2e, 0x72, 0x61, 0x77]).trace = [] ∧
    (playByName fuel exampleCatalog [0x62, 0x2e, 0x72, 0x61, 0x77]).sd = exampleCatalog := by
  have h1 : findFile exampleCatalog [0x42, 0x2e, 0x52, 0x41, 0x57] =
      some ⟨200, 4096, [0x42, 0x2e, 0x52, 0x41, 0x57]⟩ := by decide
  have h2 : findFile exampleCatalog [0x62, 0x2e, 0x72, 0x61, 0x77] = none := by decide
  simp [playByName, h1, h2, PlayResult.trace]

/-! ## The session of readDirectory: claim C29 -/

/-- A request that stays inside the block leaves the session inside the block
and adds its size to the byte count. -/
theorem readData_inside_session (s : SDCardState) (n : Nat)
    (hs : s.blockReadState = ReadState.ReadStateReadData) (hn : s.blockByteCount + n < 512) :
    (readData s n).state.blockReadState = ReadState.ReadStateReadData ∧
    (readData s n).state.blockByteCount = s.blockByteCount + n ∧
    (readData s n).state.blockReadMode = s.blockReadMode := by
  have hmin : min ((512 + 65536 - s.blockByteCount) % 65536) n = n := by omega
  have hmod : (s.blockByteCount + n) % 65536 = s.blockByteCount + n := by omega
  refine ⟨?_, ?_, ?_⟩ <;>
    simp only [readData, hs, readDataData, blockSize, hmin, hmod, if_pos hn]

theorem encodeRecords_length (records : List Record) :
    (encodeRecords records).length = (records.map (fun r => 9 + r.name.length)).sum := by
  induction records with
  | nil => rfl
  | cons r rs ih => simp [encodeRecords, encodeRecord_length, ih]

theorem readDirectoryLoop_open (records : List Record) :
    ∀ (fuel : Nat) (s : SDCardState) (buffer : List Nat) (lastEntry : Bool) (rest : List Nat),
      s.blockReadState = ReadState.ReadStateReadData →
      s.spi.miso = encodeRecords records ++ (le32 0 ++ rest) →
      s.blockByteCount + (encodeRecords records).length + 9 < 512 →
      (∀ r ∈ records, r.WellFormed) → buffer.length = 9 → records.length < fuel →
      ∃ s', readDirectoryLoop fuel s buffer lastEntry = some (Status.StatusReady, s') ∧
        s'.blockReadState = ReadState.ReadStateReadData ∧
        s'.blockByteCount = s.blockByteCount + (encodeRecords records).length + 9 ∧
        s'.blockReadMode = s.blockReadMode := by
  induction records with
  | nil =>
    intro fuel s buffer lastEntry rest hs hm hc _ _ hf
    cases fuel with
    | zero => simp at hf
    | succ fuel =>
      have hc9 : s.blockByteCount + 9 < 512 := by simpa [encodeRecords] using hc
      have ht := readData_terminator s buffer rest hs (by omega)
        (by simpa [encodeRecords] using hm)
      obtain ⟨h1, h2, h3⟩ := readData_inside_session s 9 hs hc9
      refine ⟨(readData s 9).state, ?_, h1, ?_, h3⟩
      · rw [readDirectoryLoop]
        simp only [ht.1, if_false, ht.2, gt_iff_lt, Nat.lt_irrefl]
      · rw [h2]; simp [encodeRecords]
  | cons r records ih =>
    intro fuel s buffer lastEntry rest hs hm hc hwf hb hf
    cases fuel with
    | zero => simp at hf
    | succ fuel =>
      obtain ⟨hsb, hsb32, hlen32, hnl, _⟩ := hwf r (by simp)
      have hel := encodeRecord_length r
      have hc' : s.blockByteCount + (9 + r.name.length) + (encodeRecords records).length + 9
          < 512 := by
        simp only [encodeRecords, List.length_append, hel] at hc; omega
      have hm1 : s.spi.miso = (le32 r.startBlock ++ (le32 r.byteLength ++ [r.name.length])) ++
          (r.name ++ (encodeRecords records ++ (le32 0 ++ rest))) := by
        rw [hm]; simp [encodeRecords, encodeRecord]
      have h1 := readData_inside s 9 _ _ hs (by omega) (by simp [le32_length]) hm1
      have hst : store buffer (le32 r.startBlock ++ (le32 r.byteLength ++ [r.name.length])) =
          le32 r.startBlock ++ (le32 r.byteLength ++ [r.name.length]) :=
        store_full _ _ (by simp [le32_length, hb])
      have hsb' : getLittleEndianUInt32
          (le32 r.startBlock ++ (le32 r.byteLength ++ [r.name.length])) = r.startBlock :=
        getLittleEndianUInt32_le32 _ _ hsb32
      have hsl : (le32 r.startBlock ++ (le32 r.byteLength ++ [r.name.length])).getD 8 0 =
          r.name.length := by
        simp [le32]
      have h2 := readData_inside
        { s with
          spi := { s.spi with miso := r.name ++ (encodeRecords records ++ (le32 0 ++ rest)) }
          blockByteCount := s.blockByteCount + 9 }
        r.name.length r.name (encodeRecords records ++ (le32 0 ++ rest)) hs
        (by show s.blockByteCount + 9 + r.name.length < 512; omega) rfl rfl
      have key : ∀ d : List DirectoryEntry,
          ∃ s', readDirectoryLoop fuel
              { s with
                spi := { s.spi with miso := encodeRecords records ++ (le32 0 ++ rest) }
                blockByteCount := s.blockByteCount + 9 + r.name.length
                directoryEntry := d }
              (le32 r.startBlock ++ (le32 r.byteLength ++ [r.name.length])) true =
                some (Status.StatusReady, s') ∧
            s'.blockReadState = ReadState.ReadStateReadData ∧
            s'.blockByteCount =
              s.blockByteCount + 9 + r.name.length + (encodeRecords records).length + 9 ∧
            s'.blockReadMode = s.blockReadMode := by
        intro d
        exact ih fuel
          { s with
            spi := { s.spi with miso := encodeRecords records ++ (le32 0 ++ rest) }
            blockByteCount := s.blockByteCount + 9 + r.name.length
            directoryEntry := d }
          (le32 r.startBlock ++ (le32 r.byteLength ++ [r.name.length])) true rest hs rfl
          (by show s.blockByteCount + 9 + r.name.length + (encodeRecords records).length + 9
                < 512
              omega)
          (fun q hq => hwf q (by simp [hq])) (by simp [le32_length]) (by simpa using hf)
      have hlen : (encodeRecords (r :: records)).length =
          9 + r.name.length + (encodeRecords records).length := by
        simp only [encodeRecords, List.length_append, hel]
      rw [readDirectoryLoop]
      simp only [h1, reduceCtorEq, if_false, hst, hsb', hsl, gt_iff_lt, hsb, if_true, h2]
      cases lastEntry
      · obtain ⟨s', hs', e1, e2, e3⟩ := key _
        refine ⟨s', ?_, e1, ?_, e3⟩
        · simpa using hs'
        · rw [e2, hlen]; omega
      · obtain ⟨s', hs', e1, e2, e3⟩ := key _
        refine ⟨s', ?_, e1, ?_, e3⟩
        · simpa using hs'
        · rw [e2, hlen]; omega

/-- C29: for a directory block with the tag, `n` well formed records and the
terminator that ends before the end of block 0, `readDirectory` returns Ready
and leaves the single block session open: the state is `ReadStateReadData`, not
`ReadStateEnd`, and the byte count is the number of directory bytes consumed,
`4 + sum (9 + len_i) + 9`. -/
theorem C29_directory_session_left_open (fuel k : Nat) (busy echo wait rest : List Nat)
    (records : List Record) (s : SDCardState)
    (hok : TranscriptOk busy echo wait)
    (hm : s.spi.miso = startTranscript busy echo wait ++
      (List.replicate k 0xff ++ 0xfe :: (encodeDirectory records ++ rest)))
    (hfit : 4 + (records.map (fun r => 9 + r.name.length)).sum + 9 < 512)
    (hwf : ∀ r ∈ records, r.WellFormed)
    (hfuel : busy.length + k + records.length < fuel) :
    ∃ s', readDirectory fuel s = some (Status.StatusReady, s') ∧
      s'.blockReadMode = ReadMode.ReadModeSingleBlock ∧
      s'.blockReadState = ReadState.ReadStateReadData ∧
      s'.blockReadState ≠ ReadState.ReadStateEnd ∧
      s'.blockByteCount = 4 + (records.map (fun r => 9 + r.name.length)).sum + 9 := by
  have h1 := synchronousStartRead_accept busy fuel s 0 echo wait _ hok hm (by omega)
  have hlen := encodeRecords_length records
  have h2 := synchronousReadData_first k fuel
    { s with
      blockByteCount := 0
      blockReadState := ReadState.ReadStateWait
      blockReadMode := ReadMode.ReadModeSingleBlock
      spi := { s.spi with
        miso := List.replicate k 0xff ++ 0xfe :: (encodeDirectory records ++ rest)
        sent := s.spi.sent ++ commandFrame 17 0 0xff } }
    (List.replicate 9 0xaa) magic (encodeRecords records ++ (le32 0 ++ rest)) 4 rfl
    (by show 0 + 4 < 512; omega) (by simp [encodeDirectory]) rfl (by omega)
  obtain ⟨s', hs', e1, e2, e3⟩ := readDirectoryLoop_open records fuel
    { s with
      blockByteCount := 0 + 4
      blockReadState := ReadState.ReadStateReadData
      blockReadMode := ReadMode.ReadModeSingleBlock
      spi := { s.spi with
        miso := encodeRecords records ++ (le32 0 ++ rest)
        sent := s.spi.sent ++ commandFrame 17 0 0xff } }
    (store (List.replicate 9 0xaa) magic) false rest rfl rfl
    (by show 0 + 4 + (encodeRecords records).length + 9 < 512; omega) hwf (by decide)
    (by omega)
  refine ⟨s', ?_, e3, e1, by rw [e1]; decide, ?_⟩
  · rw [readDirectory, h1]
    simp only [reduceCtorEq, if_false, h2]
    have hmg : (store (List.replicate 9 0xaa) magic).take 4 = magic := by decide
    simp only [hmg, ne_eq, not_true_eq_false, if_false]
    exact hs'
  · rw [e2, hlen]

/-- C29, witness: the directory with the records A.RAW and B.RAW. -/
theorem C29_directory_session_example :
    ∃ s', readDirectory 5 exampleCard = some (Status.StatusReady, s') ∧
      s'.blockReadMode = ReadMode.ReadModeSingleBlock ∧
      s'.blockReadState = ReadState.ReadStateReadData ∧
      s'.blockReadState ≠ ReadState.ReadStateEnd ∧
      s'.blockByteCount = 4 + (exampleRecords.map (fun r => 9 + r.name.length)).sum + 9 :=
  C29_directory_session_left_open 5 1 [0x00] [0xff, 0xff, 0xff, 0xff, 0xff, 0xff] [0xff, 0xff]
    [0, 0, 0, 0, 0, 7] exampleRecords exampleCard
    (by simp [TranscriptOk]) rfl (by decide)
    (by simp [exampleRecords, Record.WellFormed]) (by decide)

/-- The example directory evaluated: Ready, inside the block, 41 bytes consumed. -/
theorem readDirectory_example_session :
    (readDirectory 5 exampleCard).map
        (fun r => (r.1, r.2.blockReadState, r.2.blockReadMode, r.2.blockByteCount)) =
      some (Status.StatusReady, ReadState.ReadStateReadData, ReadMode.ReadModeSingleBlock, 41) := by
  decide

/-! ## The motion sensor: claim C30 -/

theorem MotionSensor.run_snoc (pre : List (Nat × Nat)) (c : Nat × Nat) :
    ∀ m : MotionSensor, m.run (pre ++ [c]) = (m.run pre).loop c.1 c.2 := by
  induction pre with
  | nil => intro m; rfl
  | cons a pre ih =>
    intro m
    show (m.loop a.1 a.2).run (pre ++ [c]) = _
    rw [ih]
    rfl

theorem MotionSensor.loop_waitForIdle (m : MotionSensor) (t v : Nat)
    (h : m._status = MotionSensor.Status.WaitStablilize ∨ m._status = MotionSensor.Status.Alarm) :
    m.loop t v = m.waitForIdle t v := by
  rcases h with h | h <;> simp only [MotionSensor.loop, MotionSensor.waitForIdle, h]

/-- What `waitForIdle` does, case by case. -/
theorem MotionSensor.waitForIdle_cases (m : MotionSensor) (t v : Nat) :
    (currentSensorState v ≠ m._lastState ∧
      m.waitForIdle t v =
        { m with _lastEvent := ⟨t % 4294967296⟩, _lastState := currentSensorState v }) ∨
    (currentSensorState v = m._lastState ∧ m._lastState = false ∧
      m._lastEvent.elapsed t / 1000 ≥ IDLE_TIME ∧
      m.waitForIdle t v = m.setStatus MotionSensor.Status.Idle t) ∨
    (currentSensorState v = m._lastState ∧ m.waitForIdle t v = m) := by
  by_cases h1 : currentSensorState v ≠ m._lastState
  · refine Or.inl ⟨h1, ?_⟩
    simp only [MotionSensor.waitForIdle]
    rw [if_pos h1]
    rfl
  · have h1' : currentSensorState v = m._lastState := by simpa using h1
    by_cases h2 : currentSensorState v = false
    · by_cases h3 : m._lastEvent.elapsed t / 1000 ≥ IDLE_TIME
      · refine Or.inr (Or.inl ⟨h1', by rw [← h1']; exact h2, h3, ?_⟩)
        simp only [MotionSensor.waitForIdle]
        rw [if_neg h1, if_pos h2, if_pos h3]
      · refine Or.inr (Or.inr ⟨h1', ?_⟩)
        simp only [MotionSensor.waitForIdle]
        rw [if_neg h1, if_pos h2, if_neg h3]
    · refine Or.inr (Or.inr ⟨h1', ?_⟩)
      simp only [MotionSensor.waitForIdle]
      rw [if_neg h1, if_neg h2]

theorem setStatus_fields (m : MotionSensor) (st : MotionSensor.Status) (t : Nat) :
    (m.setStatus st t)._status = st ∧ (m.setStatus st t)._lastState = m._lastState ∧
    (m.setStatus st t)._lastEvent = m._lastEvent := by
  simp only [MotionSensor.setStatus]
  split_ifs with h
  · exact ⟨rfl, rfl, rfl⟩
  · exact ⟨by simpa using h, rfl, rfl⟩

/-- A call that sees the sensor change starts a new quiet stretch. -/
theorem sensorInv_change (hist : List (Nat × Nat)) (c : Nat × Nat) (m m2 : MotionSensor)
    (hinv : SensorInv hist m) (hu : m._status ≠ MotionSensor.Status.Uninitialized)
    (hc : currentSensorState c.2 ≠ m._lastState)
    (h2s : m2._status ≠ MotionSensor.Status.Uninitialized)
    (h2i : m2._status = MotionSensor.Status.Idle → m2._lastState = false)
    (h2l : m2._lastState = currentSensorState c.2) (h2e : m2._lastEvent._start = c.1) :
    SensorInv (hist ++ [c]) m2 := by
  obtain ⟨earlier, first, quiet, hh, hall, -⟩ := hinv.2.2 hu
  refine ⟨fun h => absurd h h2s, h2i, fun _ => ⟨hist, c, [], rfl, ?_, Or.inr ?_⟩⟩
  · intro x hx
    simp only [List.mem_singleton] at hx
    rw [hx, h2l]
  · have hne : first :: quiet ≠ [] := by simp
    refine ⟨earlier ++ (first :: quiet).dropLast, (first :: quiet).getLast hne, ?_, ?_, h2e⟩
    · rw [hh, List.append_assoc, List.dropLast_append_getLast]
    · have := hall _ (List.getLast_mem hne)
      rw [this, h2l]
      cases hl : m._lastState <;> cases hcs : currentSensorState c.2 <;> simp_all

/-- A call that sees the sensor as before extends the quiet stretch. -/
theorem sensorInv_same (hist : List (Nat × Nat)) (c : Nat × Nat) (m m2 : MotionSensor)
    (hinv : SensorInv hist m) (hu : m._status ≠ MotionSensor.Status.Uninitialized)
    (hc : currentSensorState c.2 = m._lastState)
    (h2s : m2._status ≠ MotionSensor.Status.Uninitialized)
    (h2i : m2._status = MotionSensor.Status.Idle → m2._lastState = false)
    (h2l : m2._lastState = m._lastState) (h2e : m2._lastEvent = m._lastEvent) :
    SensorInv (hist ++ [c]) m2 := by
  obtain ⟨earlier, first, quiet, hh, hall, hstart⟩ := hinv.2.2 hu
  refine ⟨fun h => absurd h h2s, h2i, fun _ => ⟨earlier, first, quiet ++ [c], ?_, ?_, ?_⟩⟩
  · rw [hh]; simp
  · intro x hx
    rw [h2l]
    simp only [List.mem_cons, List.mem_append, List.mem_singleton, List.not_mem_nil,
      or_false] at hx
    rcases hx with hx | hx | hx
    · exact hall x (by simp [hx])
    · exact hall x (by simp [hx])
    · rw [hx]; exact hc
  · rw [h2l, h2e]; exact hstart

theorem sensorInv_loop (hist : List (Nat × Nat)) (c : Nat × Nat) (m : MotionSensor)
    (hinv : SensorInv hist m) (hb : c.1 < 4294967296) :
    SensorInv (hist ++ [c]) (m.loop c.1 c.2) := by
  cases hs : m._status with
  | Uninitialized =>
    obtain ⟨hh, h0⟩ := hinv.1 hs
    have hl : m.loop c.1 c.2 =
        { m with _lastState := currentSensorState c.2 }.setStatus
          MotionSensor.Status.WaitStablilize c.1 := by
      simp only [MotionSensor.loop, hs]
    obtain ⟨e1, e2, e3⟩ := setStatus_fields { m with _lastState := currentSensorState c.2 }
      MotionSensor.Status.WaitStablilize c.1
    rw [hl]
    refine ⟨fun h => (by rw [e1] at h; cases h), fun h => (by rw [e1] at h; cases h),
      fun _ => ⟨[], c, [], (by rw [hh]), ?_, Or.inl ⟨rfl, (by rw [e3]; exact h0)⟩⟩⟩
    intro x hx
    simp only [List.mem_singleton] at hx
    rw [hx, e2]
  | WaitStablilize =>
    have hu : m._status ≠ MotionSensor.Status.Uninitialized := by rw [hs]; decide
    rw [MotionSensor.loop_waitForIdle m c.1 c.2 (Or.inl hs)]
    rcases MotionSensor.waitForIdle_cases m c.1 c.2 with ⟨h1, h2⟩ | ⟨h1, h2, -, h4⟩ | ⟨h1, h2⟩
    · rw [h2]
      exact sensorInv_change hist c m _ hinv hu h1 (by show m._status ≠ _; exact hu)
        (fun h => by
          have h0 : m._status = MotionSensor.Status.Idle := h
          rw [hs] at h0
          cases h0)
        rfl (by show c.1 % 4294967296 = c.1; omega)
    · obtain ⟨e1, e2, e3⟩ := setStatus_fields m MotionSensor.Status.Idle c.1
      rw [h4]
      exact sensorInv_same hist c m _ hinv hu h1 (by rw [e1]; decide)
        (fun _ => by rw [e2]; exact h2) e2 e3
    · rw [h2]
      exact sensorInv_same hist c m m hinv hu h1 hu (fun h => by rw [hs] at h; cases h) rfl rfl
  | Idle =>
    have hu : m._status ≠ MotionSensor.Status.Uninitialized := by rw [hs]; decide
    have hlow := hinv.2.1 hs
    by_cases hc : currentSensorState c.2 = true
    · have hl : m.loop c.1 c.2 =
          { m with _lastState := true, _lastEvent := ⟨c.1 % 4294967296⟩ }.setStatus
            MotionSensor.Status.Alarm c.1 := by
        simp only [MotionSensor.loop, hs, hc, if_true, TimeDelta.start]
      obtain ⟨e1, e2, e3⟩ := setStatus_fields
        { m with _lastState := true, _lastEvent := ⟨c.1 % 4294967296⟩ }
        MotionSensor.Status.Alarm c.1
      rw [hl]
      exact sensorInv_change hist c m _ hinv hu (by rw [hc, hlow]; decide)
        (by rw [e1]; decide) (fun h => by rw [e1] at h; cases h) (by rw [e2, hc])
        (by rw [e3]; show c.1 % 4294967296 = c.1; omega)
    · have hc' : currentSensorState c.2 = false := by simpa using hc
      have hl : m.loop c.1 c.2 = m := by
        simp [MotionSensor.loop, hs, hc']
      rw [hl]
      exact sensorInv_same hist c m m hinv hu (by rw [hc', hlow]) hu (fun _ => hlow) rfl rfl
  | Alarm =>
    have hu : m._status ≠ MotionSensor.Status.Uninitialized := by rw [hs]; decide
    rw [MotionSensor.loop_waitForIdle m c.1 c.2 (Or.inr hs)]
    rcases MotionSensor.waitForIdle_cases m c.1 c.2 with ⟨h1, h2⟩ | ⟨h1, h2, -, h4⟩ | ⟨h1, h2⟩
    · rw [h2]
      exact sensorInv_change hist c m _ hinv hu h1 (by show m._status ≠ _; exact hu)
        (fun h => by
          have h0 : m._status = MotionSensor.Status.Idle := h
          rw [hs] at h0
          cases h0)
        rfl (by show c.1 % 4294967296 = c.1; omega)
    · obtain ⟨e1, e2, e3⟩ := setStatus_fields m MotionSensor.Status.Idle c.1
      rw [h4]
      exact sensorInv_same hist c m _ hinv hu h1 (by rw [e1]; decide)
        (fun _ => by rw [e2]; exact h2) e2 e3
    · rw [h2]
      exact sensorInv_same hist c m m hinv hu h1 hu (fun h => by rw [hs] at h; cases h) rfl rfl

theorem sensorInv_run (calls : List (Nat × Nat)) (hb : ∀ x ∈ calls, x.1 < 4294967296) :
    SensorInv calls (MotionSensor.new.run calls) := by
  induction calls using List.reverseRecOn with
  | nil =>
    refine ⟨fun _ => ⟨rfl, rfl⟩, ?_, ?_⟩
    · intro h; cases h
    · intro h; exact absurd rfl h
  | append_singleton pre c ih =>
    rw [MotionSensor.run_snoc]
    exact sensorInv_loop pre c _ (ih (fun x hx => hb x (by simp [hx]))) (hb c (by simp))

/-- C30, counterexample: the first call of `loop` comes at 30000 ms with the sensor
low, the second one millisecond later; the status goes to `Idle` at the second
call, 1 ms after the first call: the time is measured from 0, where the
`TimeDelta` starts, not from the first call. -/
theorem C30_idle_measured_from_zero :
    (MotionSensor.new.run [(30000, 0)])._status = MotionSensor.Status.WaitStablilize ∧
    (MotionSensor.new.run [(30000, 0), (30001, 0)])._status = MotionSensor.Status.Idle ∧
    (MotionSensor.new.run [(30000, 0), (30001, 0)]).callbacks =
      [(30000, MotionSensor.Status.WaitStablilize), (30001, MotionSensor.Status.Idle)] ∧
    30001 - 30000 < 1000 * IDLE_TIME := by
  decide

/-- C30, amended: for calls of `loop` at non-decreasing 32 bit times, whenever a
call takes the status to `Idle` from another status, the sensor is low at that
call and at every call since `first`, where `first` is either the call at which
the change to low was seen, and then at least `IDLE_TIME` seconds before this
call, or the first call of all, and then this call comes at a time of at least
`IDLE_TIME` seconds, measured from time 0. -/
theorem C30_idle_after_low (pre : List (Nat × Nat)) (c : Nat × Nat)
    (hsorted : List.Pairwise (fun a b => a.1 ≤ b.1) (pre ++ [c]))
    (hbound : ∀ x ∈ pre ++ [c], x.1 < 4294967296)
    (hbefore : (MotionSensor.new.run pre)._status ≠ MotionSensor.Status.Idle)
    (hafter : (MotionSensor.new.run (pre ++ [c]))._status = MotionSensor.Status.Idle) :
    currentSensorState c.2 = false ∧
    ∃ earlier first quiet, pre ++ [c] = earlier ++ first :: quiet ∧
      (∀ x ∈ first :: quiet, currentSensorState x.2 = false) ∧
      ((earlier = [] ∧ 1000 * IDLE_TIME ≤ c.1) ∨
        (∃ e0 q, earlier = e0 ++ [q] ∧ currentSensorState q.2 = true ∧
          first.1 + 1000 * IDLE_TIME ≤ c.1)) := by
  have hinv := sensorInv_run pre (fun x hx => hbound x (by simp [hx]))
  have hcb : c.1 < 4294967296 := hbound c (by simp)
  have hle : ∀ a ∈ pre, a.1 ≤ c.1 := by
    intro a ha
    exact (List.pairwise_append.mp hsorted).2.2 a ha c (by simp)
  rw [MotionSensor.run_snoc] at hafter
  have hwait : (MotionSensor.new.run pre)._status = MotionSensor.Status.WaitStablilize ∨
      (MotionSensor.new.run pre)._status = MotionSensor.Status.Alarm := by
    cases hs : (MotionSensor.new.run pre)._status with
    | Uninitialized =>
      exfalso
      have hl : (MotionSensor.new.run pre).loop c.1 c.2 =
          { MotionSensor.new.run pre with _lastState := currentSensorState c.2 }.setStatus
            MotionSensor.Status.WaitStablilize c.1 := by
        simp only [MotionSensor.loop, hs]
      rw [hl, (setStatus_fields _ _ _).1] at hafter
      cases hafter
    | WaitStablilize => exact Or.inl rfl
    | Idle => exact absurd hs hbefore
    | Alarm => exact Or.inr rfl
  have hu : (MotionSensor.new.run pre)._status ≠ MotionSensor.Status.Uninitialized := by
    rcases hwait with h | h <;> rw [h] <;> decide
  rw [MotionSensor.loop_waitForIdle _ c.1 c.2 hwait] at hafter
  rcases MotionSensor.waitForIdle_cases (MotionSensor.new.run pre) c.1 c.2 with
    ⟨-, h2⟩ | ⟨h1, h2, h3, -⟩ | ⟨-, h2⟩
  · rw [h2] at hafter
    exact absurd hafter hbefore
  · obtain ⟨earlier, first, quiet, hh, hall, hstart⟩ := hinv.2.2 hu
    have hfirst : first.1 ≤ c.1 := hle first (by rw [hh]; simp)
    refine ⟨by rw [h1, h2], earlier, first, quiet ++ [c], by rw [hh]; simp, ?_, ?_⟩
    · intro x hx
      simp only [List.mem_cons, List.mem_append, List.mem_singleton, List.not_mem_nil,
        or_false] at hx
      rcases hx with hx | hx | hx
      · rw [← h2]; exact hall x (by simp [hx])
      · rw [← h2]; exact hall x (by simp [hx])
      · rw [hx, h1, h2]
    · simp only [TimeDelta.elapsed, IDLE_TIME] at h3
      rcases hstart with ⟨he, h0⟩ | ⟨e0, q, he, hq, h0⟩
      · refine Or.inl ⟨he, ?_⟩
        rw [h0] at h3
        simp only [IDLE_TIME]
        omega
      · refine Or.inr ⟨e0, q, he, by rw [hq, h2]; rfl, ?_⟩
        rw [h0] at h3
        simp only [IDLE_TIME]
        omega
  · rw [h2] at hafter
    exact absurd hafter hbefore

/-- C30, witness: the sensor is high at 0 s and 5 s and low from 6 s on; the
status goes to `Idle` at 26 s. -/
theorem C30_idle_after_low_witness :
    currentSensorState 100 = false ∧
    ∃ earlier first quiet,
      [(0, 900), (5000, 900), (6000, 100), (25999, 100)] ++ [((26000, 100) : Nat × Nat)] =
        earlier ++ first :: quiet ∧
      (∀ x ∈ first :: quiet, currentSensorState x.2 = false) ∧
      ((earlier = [] ∧ 1000 * IDLE_TIME ≤ 26000) ∨
        (∃ e0 q, earlier = e0 ++ [q] ∧ currentSensorState q.2 = true ∧
          first.1 + 1000 * IDLE_TIME ≤ 26000)) :=
  C30_idle_after_low [(0, 900), (5000, 900), (6000, 100), (25999, 100)] (26000, 100)
    (by decide) (by decide) (by decide) (by decide)

/-! ## The timer: claim C31 -/

theorem Timer.trace_snoc (ops : List TimerOp) (op : TimerOp) :
    ∀ t : Timer, t.trace (ops ++ [op]) =
      (((t.trace ops).1.step op).1, (t.trace ops).2 ++ [(op, ((t.trace ops).1.step op).2)]) := by
  induction ops with
  | nil => intro t; rfl
  | cons a ops ih =>
    intro t
    show (t.trace (a :: (ops ++ [op]))) = _
    simp only [Timer.trace, ih, List.cons_append]

/-- The contract of one call of `check`. -/
theorem Timer.check_spec (t : Timer) (currentTime : Nat) (hs : t._start < 4294967296)
    (hc : currentTime < 4294967296) :
    ((t.check currentTime).1 = true ↔
      t._enabled = true ∧
        ((currentTime : Int) - (t._start : Int)) % 4294967296 ≥ (t._delay : Int)) ∧
    ((t.check currentTime).1 = true →
      (t.check currentTime).2 =
        { t with _start := currentTime, callbacks := t.callbacks ++ [currentTime] }) ∧
    ((t.check currentTime).1 = false → (t.check currentTime).2 = t) := by
  have hmod : currentTime % 4294967296 = currentTime := Nat.mod_eq_of_lt hc
  have hd : (((currentTime + 4294967296 - t._start) % 4294967296 : Nat) : Int) =
      ((currentTime : Int) - (t._start : Int)) % 4294967296 := by omega
  by_cases he : t._enabled = true
  · by_cases hf : (currentTime + 4294967296 - t._start) % 4294967296 ≥ t._delay
    · have hf' : ((currentTime : Int) - (t._start : Int)) % 4294967296 ≥ (t._delay : Int) := by
        rw [← hd]; exact_mod_cast hf
      simp only [Timer.check, he, hmod, hf, not_true_eq_false, if_false, if_true, true_and,
        true_iff, forall_true_left, reduceCtorEq, false_implies, and_true]
      exact hf'
    · have hf' : ¬ ((currentTime : Int) - (t._start : Int)) % 4294967296 ≥ (t._delay : Int) := by
        rw [← hd]; exact_mod_cast hf
      simp only [Timer.check, he, hmod, hf, not_true_eq_false, if_false, true_and,
        Bool.false_eq_true, false_iff, false_implies, forall_true_left, and_true, true_and]
      exact hf'
  · simp [Timer.check, he]

theorem timerInv_step (calls : List (TimerOp × Option Bool)) (t : Timer) (op : TimerOp)
    (hinv : TimerInv calls t) (hop : op.InRange) :
    TimerInv ((op, (t.step op).2) :: calls) (t.step op).1 := by
  obtain ⟨h1, h2, h3⟩ := hinv
  cases op with
  | start delay currentTime =>
    obtain ⟨hd, hc⟩ := hop
    refine ⟨rfl, ?_, fun _ => ⟨?_, ?_⟩⟩
    · show currentTime % 4294967296 < 4294967296
      omega
    · show some currentTime = some (currentTime % 4294967296)
      rw [Nat.mod_eq_of_lt hc]
    · show some delay = some (delay % 4294967296)
      rw [Nat.mod_eq_of_lt hd]
  | stop =>
    refine ⟨rfl, h2, fun h => ?_⟩
    cases h
  | check currentTime =>
    have hc : currentTime < 4294967296 := hop
    obtain ⟨-, ht, hf⟩ := Timer.check_spec t currentTime h2 hc
    cases hr : (t.check currentTime).1 with
    | true =>
      have he : t._enabled = true := by
        by_contra hne
        simp [Timer.check, hne] at hr
      have h2' := ht hr
      refine ⟨?_, ?_, fun _ => ⟨?_, ?_⟩⟩
      · show (t.check currentTime).2._enabled = enabledAfter ((TimerOp.check currentTime,
          some (t.check currentTime).1) :: calls)
        rw [h2', hr]
        show t._enabled = enabledAfter calls
        exact h1
      · show (t.check currentTime).2._start < 4294967296
        rw [h2']; exact hc
      · show lastReference ((TimerOp.check currentTime, some (t.check currentTime).1) :: calls) =
          some (t.check currentTime).2._start
        rw [h2', hr]
        rfl
      · show lastDelay ((TimerOp.check currentTime, some (t.check currentTime).1) :: calls) =
          some (t.check currentTime).2._delay
        rw [h2']
        exact (h3 he).2
    | false =>
      have h2' := hf hr
      refine ⟨?_, ?_, fun he => ⟨?_, ?_⟩⟩
      · show (t.check currentTime).2._enabled = enabledAfter ((TimerOp.check currentTime,
          some (t.check currentTime).1) :: calls)
        rw [h2', hr]
        exact h1
      · show (t.check currentTime).2._start < 4294967296
        rw [h2']; exact h2
      · have he' : (t.check currentTime).2._enabled = true := he
        rw [h2'] at he'
        show lastReference ((TimerOp.check currentTime, some (t.check currentTime).1) :: calls) =
          some (t.check currentTime).2._start
        rw [h2', hr]
        exact (h3 he').1
      · have he' : (t.check currentTime).2._enabled = true := he
        rw [h2'] at he'
        show lastDelay ((TimerOp.check currentTime, some (t.check currentTime).1) :: calls) =
          some (t.check currentTime).2._delay
        rw [h2']
        exact (h3 he').2

theorem timerInv_trace (ops : List TimerOp) (hops : ∀ op ∈ ops, op.InRange) :
    TimerInv (Timer.new.trace ops).2.reverse (Timer.new.trace ops).1 := by
  induction ops using List.reverseRecOn with
  | nil =>
    refine ⟨rfl, ?_, ?_⟩
    · show (0 : Nat) < 4294967296
      omega
    · intro h; cases h
  | append_singleton ops op ih =>
    rw [Timer.trace_snoc]
    simp only [List.reverse_append, List.reverse_cons, List.reverse_nil, List.nil_append,
      List.singleton_append]
    exact timerInv_step _ _ op (ih (fun x hx => hops x (by simp [hx]))) (hops op (by simp))

/-- C31: after any calls of `start`, `stop` and `check` with 32 bit arguments on a
new timer, `check(currentTime)` returns true exactly when the timer is enabled
and `(currentTime - start) mod 2^32 >= delay`, with the delay of the last start
and `start` the time given to the last start or the time of the last check that
fired, whichever came last; when it returns true the new start is
`currentTime` (and the callback gets it), otherwise the timer is unchanged; after
`stop` every check returns false and changes nothing; and the difference modulo
`2^32` of the readings of a 32 bit clock is the time elapsed, also across the
wrap-around. -/
theorem C31_timer_check (ops : List TimerOp) (currentTime : Nat)
    (hops : ∀ op ∈ ops, op.InRange) (hc : currentTime < 4294967296) :
    (((Timer.new.trace ops).1.check currentTime).1 = true ↔
      firesAfter (Timer.new.trace ops).2.reverse currentTime) ∧
    (((Timer.new.trace ops).1.check currentTime).1 = true →
      ((Timer.new.trace ops).1.check currentTime).2 =
        { (Timer.new.trace ops).1 with
          _start := currentTime
          callbacks := (Timer.new.trace ops).1.callbacks ++ [currentTime] }) ∧
    (((Timer.new.trace ops).1.check currentTime).1 = false →
      ((Timer.new.trace ops).1.check currentTime).2 = (Timer.new.trace ops).1) ∧
    (∀ (t : Timer) (time : Nat), t.stop.check time = (false, t.stop)) ∧
    (∀ s e : Nat, s < 4294967296 → e < 4294967296 →
      ((((s + e) % 4294967296 : Nat) : Int) - (s : Int)) % 4294967296 = (e : Int)) := by
  obtain ⟨h1, h2, h3⟩ := timerInv_trace ops hops
  obtain ⟨hiff, ht, hf⟩ := Timer.check_spec (Timer.new.trace ops).1 currentTime h2 hc
  refine ⟨?_, ht, hf, ?_, ?_⟩
  · rw [hiff, firesAfter, ← h1]
    constructor
    · rintro ⟨he, hd⟩
      exact ⟨he, _, _, (h3 he).1, (h3 he).2, hd⟩
    · rintro ⟨he, s, d, hs, hd, hge⟩
      obtain ⟨e1, e2⟩ := h3 he
      rw [e1] at hs
      rw [e2] at hd
      cases hs
      cases hd
      exact ⟨he, hge⟩
  · intro t time
    simp [Timer.check, Timer.stop]
  · intro s e hs he
    omega

/-- C31, witness: started at 4294967000 with delay 1000 and checked at 4294967200,
then checked at 704, after the clock wrapped around. -/
theorem C31_timer_check_witness :
    (((Timer.new.trace [TimerOp.start 1000 4294967000, TimerOp.check 4294967200]).1.check
          704).1 = true ↔
      firesAfter
        (Timer.new.trace [TimerOp.start 1000 4294967000, TimerOp.check 4294967200]).2.reverse
        704) ∧
    (((Timer.new.trace [TimerOp.start 1000 4294967000, TimerOp.check 4294967200]).1.check
          704).1 = true →
      ((Timer.new.trace [TimerOp.start 1000 4294967000, TimerOp.check 4294967200]).1.check
          704).2 =
        { (Timer.new.trace [TimerOp.start 1000 4294967000, TimerOp.check 4294967200]).1 with
          _start := 704
          callbacks :=
            (Timer.new.trace
              [TimerOp.start 1000 4294967000, TimerOp.check 4294967200]).1.callbacks ++
              [704] }) ∧
    (((Timer.new.trace [TimerOp.start 1000 4294967000, TimerOp.check 4294967200]).1.check
          704).1 = false →
      ((Timer.new.trace [TimerOp.start 1000 4294967000, TimerOp.check 4294967200]).1.check
          704).2 =
        (Timer.new.trace [TimerOp.start 1000 4294967000, TimerOp.check 4294967200]).1) ∧
    (∀ (t : Timer) (time : Nat), t.stop.check time = (false, t.stop)) ∧
    (∀ s e : Nat, s < 4294967296 → e < 4294967296 →
      ((((s + e) % 4294967296 : Nat) : Int) - (s : Int)) % 4294967296 = (e : Int)) :=
  C31_timer_check [TimerOp.start 1000 4294967000, TimerOp.check 4294967200] 704
    (by simp [TimerOp.InRange]) (by decide)

/-- A timer evaluated: it does not fire 200 ms after the start, fires 1000 ms
after it across the wrap-around, does not fire 296 ms after that, not at all
while stopped, and fires again after a new start. -/
theorem timer_example :
    (Timer.new.trace
      [TimerOp.start 1000 4294967000, TimerOp.check 4294967200, TimerOp.check 704,
        TimerOp.check 1000, TimerOp.stop, TimerOp.check 5000, TimerOp.start 10 5000,
        TimerOp.check 5010]).2.map Prod.snd =
      [none, some false, some true, some false, none, some false, none, some true] ∧
    (Timer.new.trace
      [TimerOp.start 1000 4294967000, TimerOp.check 4294967200,
        TimerOp.check 704]).1 = ⟨true, 704, 1000, [704]⟩ := by
  decide

/-! ## The DAC port: claim C32 -/

theorem testBit_congr (n m k : Nat) (h : n / 2 ^ k % 2 = m / 2 ^ k % 2) :
    n.testBit k = m.testBit k := by
  simp only [Nat.testBit_to_div_mod, h]

theorem and_BV (v i : Nat) : (v &&& _BV i ≠ 0) ↔ v.testBit i = true := by
  rw [_BV, Nat.one_shiftLeft, Nat.and_two_pow]
  cases v.testBit i <;> simp

/-- A clock pulse while the chip is selected and the clock is low makes the
chip take the level of the data pin. -/
theorem dacClockPulse_selected (di l : Bool) (sh : List Bool) (lg : List DacEvent) :
    dacClockPulse ⟨false, false, di, l, sh, lg⟩ = ⟨false, false, di, l, sh ++ [di], lg⟩ := by
  simp [dacClockPulse, dacClockUp, dacClockDown]

theorem dacSendBit_selected (di l : Bool) (sh : List Bool) (lg : List DacEvent) (v i : Nat) :
    dacSendBit ⟨false, false, di, l, sh, lg⟩ v (_BV i) =
      ⟨false, false, v.testBit i, l, sh ++ [v.testBit i], lg⟩ := by
  by_cases h : v.testBit i = true
  · have h1 : v &&& _BV i ≠ 0 := (and_BV v i).mpr h
    simp only [dacSendBit, h1, ne_eq, not_false_eq_true, if_true, dacDataUp,
      dacClockPulse_selected, h]
  · have h1 : ¬ (v &&& _BV i ≠ 0) := fun hh => h ((and_BV v i).mp hh)
    have h2 : v.testBit i = false := by simpa using h
    simp only [dacSendBit, h1, if_false, dacDataDown, dacClockPulse_selected, h2]

theorem setValue_bits (value : Nat) :
    [false, false, false, true, (value % 65536).testBit 11, (value % 65536).testBit 10,
      (value % 65536).testBit 9, (value % 65536).testBit 8, (value % 65536).testBit 7,
      (value % 65536).testBit 6, (value % 65536).testBit 5, (value % 65536).testBit 4,
      (value % 65536).testBit 3, (value % 65536).testBit 2, (value % 65536).testBit 1,
      (value % 65536).testBit 0] = bits16 (0x1000 + value % 4096) := by
  have h15 : (0x1000 + value % 4096).testBit 15 = false := by
    rw [Nat.testBit_to_div_mod, decide_eq_false_iff_not]; omega
  have h14 : (0x1000 + value % 4096).testBit 14 = false := by
    rw [Nat.testBit_to_div_mod, decide_eq_false_iff_not]; omega
  have h13 : (0x1000 + value % 4096).testBit 13 = false := by
    rw [Nat.testBit_to_div_mod, decide_eq_false_iff_not]; omega
  have h12 : (0x1000 + value % 4096).testBit 12 = true := by
    rw [Nat.testBit_to_div_mod, decide_eq_true_eq]; omega
  have hb : ∀ k < 12, (value % 65536).testBit k = (0x1000 + value % 4096).testBit k := by
    intro k hk
    apply testBit_congr
    interval_cases k <;> omega
  simp only [bits16, List.range, List.range.loop, List.map, h15, h14, h13, h12]
  simp only [hb 11 (by omega), hb 10 (by omega), hb 9 (by omega), hb 8 (by omega),
    hb 7 (by omega), hb 6 (by omega), hb 5 (by omega), hb 4 (by omega), hb 3 (by omega),
    hb 2 (by omega), hb 1 (by omega), hb 0 (by omega)]

theorem setValue_idle (di l : Bool) (sh : List Bool) (lg : List DacEvent) (value : Nat) :
    DacPort.setValue ⟨true, false, di, l, sh, lg⟩ value =
      ⟨true, false, (value % 65536).testBit 0, l,
        bits16 (0x1000 + value % 4096),
        lg ++ [DacEvent.word (bits16 (0x1000 + value % 4096))]⟩ := by
  rw [← setValue_bits]
  simp [DacPort.setValue, dacSelect, dacDataDown, dacDataUp, dacUnselect,
    dacClockPulse_selected, dacSendBit_selected]

theorem shutdown_idle (di : Bool) (sh : List Bool) (lg : List DacEvent) :
    DacPort.shutdown ⟨true, false, di, true, sh, lg⟩ =
      ⟨true, false, false, true, List.replicate 16 false,
        lg ++ [DacEvent.word (List.replicate 16 false), DacEvent.latch]⟩ := by
  simp [DacPort.shutdown, dacSelect, dacDataDown, dacUnselect, dacLatchDown, dacLatchUp,
    dacClockPulse_selected, List.replicate]

/-- C32: on a port whose chip select is high and whose clock is low, `setValue(v)`
makes the chip receive one word of exactly 16 bits, bit 15 first, the word
`0x1000 + v mod 4096`: the bits 15, 14 and 13 are 0, bit 12 is 1 and the bits
11..0 are those of `v mod 4096`; the pins are left as they were found.
`shutdown` makes the chip receive a word of 16 zero bits and then a latch
pulse, and `pushValue` a latch pulse. -/
theorem C32_dac_words (p : DacPort) (value : Nat) (hcs : p.cs = true) (hclk : p.clk = false) :
    (p.setValue value).log = p.log ++ [DacEvent.word (bits16 (0x1000 + value % 4096))] ∧
    (bits16 (0x1000 + value % 4096)).length = 16 ∧
    (bits16 (0x1000 + value % 4096)).take 4 = [false, false, false, true] ∧
    (∀ i < 12, (bits16 (0x1000 + value % 4096)).getD (15 - i) false =
      (value % 4096).testBit i) ∧
    ((p.setValue value).cs = true ∧ (p.setValue value).clk = false ∧
      (p.setValue value).latch = p.latch) ∧
    (p.latch = true →
      p.shutdown.log = p.log ++ [DacEvent.word (List.replicate 16 false), DacEvent.latch] ∧
      p.shutdown.cs = true ∧ p.shutdown.clk = false ∧ p.shutdown.latch = true) ∧
    (p.latch = true → p.pushValue.log = p.log ++ [DacEvent.latch]) := by
  obtain ⟨cs, clk, di, l, sh, lg⟩ := p
  simp only at hcs hclk
  subst hcs hclk
  have hbits := setValue_bits value
  have hlow : ∀ i < 12, (value % 65536).testBit i = (value % 4096).testBit i := by
    intro i hi
    apply testBit_congr
    interval_cases i <;> omega
  refine ⟨by rw [setValue_idle], by simp [bits16], by rw [← hbits]; rfl, ?_,
    by rw [setValue_idle]; exact ⟨rfl, rfl, rfl⟩, ?_, ?_⟩
  · intro i hi
    rw [← hbits, ← hlow i hi]
    interval_cases i <;> rfl
  · intro hl
    simp only at hl
    subst hl
    rw [shutdown_idle]
    exact ⟨rfl, rfl, rfl, rfl⟩
  · intro hl
    simp only at hl
    subst hl
    simp [DacPort.pushValue, dacLatchDown, dacLatchUp]

/-- C32, witness: the value `0xfabc` on the port after its set-up. -/
theorem C32_dac_words_witness :
    (dacIdle.setValue 0xfabc).log =
      dacIdle.log ++ [DacEvent.word (bits16 (0x1000 + 0xfabc % 4096))] ∧
    (bits16 (0x1000 + 0xfabc % 4096)).length = 16 ∧
    (bits16 (0x1000 + 0xfabc % 4096)).take 4 = [false, false, false, true] ∧
    (∀ i < 12, (bits16 (0x1000 + 0xfabc % 4096)).getD (15 - i) false =
      (0xfabc % 4096).testBit i) ∧
    ((dacIdle.setValue 0xfabc).cs = true ∧ (dacIdle.setValue 0xfabc).clk = false ∧
      (dacIdle.setValue 0xfabc).latch = dacIdle.latch) ∧
    (dacIdle.latch = true →
      dacIdle.shutdown.log =
        dacIdle.log ++ [DacEvent.word (List.replicate 16 false), DacEvent.latch] ∧
      dacIdle.shutdown.cs = true ∧ dacIdle.shutdown.clk = false ∧
      dacIdle.shutdown.latch = true) ∧
    (dacIdle.latch = true → dacIdle.pushValue.log = dacIdle.log ++ [DacEvent.latch]) :=
  C32_dac_words dacIdle 0xfabc (by decide) (by decide)

/-- The port evaluated: `setValue(0xfabc)` sends `0001 1010 1011 1100`, and
`pushValue` and `shutdown` after it send a latch pulse, 16 zero bits and a
latch pulse. -/
theorem dacPort_example :
    dacIdle = ⟨true, false, false, true, [], [DacEvent.word []]⟩ ∧
    (dacIdle.setValue 0xfabc).log =
      [DacEvent.word [],
       DacEvent.word [false, false, false, true, true, false, true, false, true, false,
        true, true, true, true, false, false]] ∧
    ((dacIdle.setValue 0xfabc).pushValue.shutdown).log =
      [DacEvent.word [],
       DacEvent.word [false, false, false, true, true, false, true, false, true, false,
        true, true, true, true, false, false], DacEvent.latch,
       DacEvent.word [false, false, false, false, false, false, false, false, false, false,
        false, false, false, false, false, false], DacEvent.latch] := by
  decide
end CatProtect
